import Mathlib

/-!
Verification of the chess rules engine (board model, FEN codec, move
generation and legality filtering, game-end detection, move history)
against its natural-language specification.

The development shallowly embeds the C sources: the global `GameState`
struct (main.h) becomes a Lean structure threaded explicitly through
every function, packed bitfields become plain fields with their value
ranges, and the 8x8 `GameBoard` array becomes a list of rows accessed
through bounds-checked getters and setters.  Rendering, sound and
texture management calls are dropped: they do not touch the game data.
-/

set_option maxHeartbeats 4000000
set_option maxRecDepth 8000

namespace Chess

/-- Piece kinds, from main.h (`PIECE_NONE = 0` means "empty square"). -/
inductive PieceType
  | PIECE_NONE
  | PIECE_KING
  | PIECE_QUEEN
  | PIECE_ROOK
  | PIECE_BISHOP
  | PIECE_KNIGHT
  | PIECE_PAWN
deriving DecidableEq, Repr, Inhabited

/-- Team (side / color), from main.h. -/
inductive Team
  | TEAM_WHITE
  | TEAM_BLACK
deriving DecidableEq, Repr, Inhabited

open PieceType Team

/-- Flip a team, as in `(Turn == TEAM_WHITE) ? TEAM_BLACK : TEAM_WHITE`. -/
def otherTeam : Team → Team
  | TEAM_WHITE => TEAM_BLACK
  | TEAM_BLACK => TEAM_WHITE

/-- A chess piece with its small state, from main.h (texture dropped). -/
structure Piece where
  type : PieceType
  team : Team
  hasMoved : Bool
deriving DecidableEq, Repr

/-- A single board square, from main.h (render position and the unused
cell-level `hasMoved`/`selected` fields dropped; the engine reads
`piece.hasMoved`). -/
structure Cell where
  piece : Piece
  primaryValid : Bool
  isvalid : Bool
  vulnerable : Bool
  PawnMovedTwo : Bool
  JustMoved : Bool
deriving DecidableEq, Repr

/-- The neutral content `SetEmptyCell` leaves behind for the piece part. -/
def emptyPiece : Piece := { type := PIECE_NONE, team := TEAM_WHITE, hasMoved := false }

/-- A zero-initialized cell (C globals are zero-initialized). -/
def emptyCell : Cell :=
  { piece := emptyPiece, primaryValid := false, isvalid := false, vulnerable := false,
    PawnMovedTwo := false, JustMoved := false }

/-- The 8x8 board as a list of rows. -/
abbrev Board := List (List Cell)

/-- In-bounds predicate for board coordinates, mirroring the C bounds checks
`0 <= r && r < BOARD_SIZE && 0 <= c && c < BOARD_SIZE`. -/
def bIn (r c : Int) : Prop := 0 ≤ r ∧ r < 8 ∧ 0 ≤ c ∧ c < 8

instance (r c : Int) : Decidable (bIn r c) := by unfold bIn; infer_instance

/-- Read `GameBoard[r][c]`.  Every read in the C sources is reached only with
in-bounds indices; out-of-bounds reads return the neutral cell. -/
def bget (b : Board) (r c : Int) : Cell :=
  if bIn r c then (b.getD r.toNat []).getD c.toNat emptyCell else emptyCell

/-- Write `GameBoard[r][c] = x` (no-op out of bounds). -/
def bset (b : Board) (r c : Int) (x : Cell) : Board :=
  if bIn r c then b.set r.toNat ((b.getD r.toNat []).set c.toNat x) else b

/-- Update one cell in place. -/
def bmodify (b : Board) (r c : Int) (f : Cell → Cell) : Board :=
  bset b r c (f (bget b r c))

/-- A well-formed board is exactly 8 rows of 8 cells. -/
def WFBoard (b : Board) : Prop :=
  b.length = 8 ∧ ∀ i : Nat, i < 8 → (b.getD i []).length = 8

instance (b : Board) : Decidable (WFBoard b) := by unfold WFBoard; infer_instance

/-- All 64 squares in the row-major order of the C `for` loops. -/
def squaresRM : List (Int × Int) :=
  ((List.range 8).map fun r => (List.range 8).map fun c => ((r : Int), (c : Int))).flatten

/-- The 8 column indices 0..7, used when serializing one rank. -/
def colsList : List Int := (List.range 8).map fun c => (c : Int)

/-- Per-player status flags, from main.h. -/
structure Player where
  Checked : Bool
  Checkmated : Bool
  SimChecked : Bool
  Stalemate : Bool
deriving DecidableEq, Repr

/-- The self-describing move record, from main.h (`struct Move`).  The packed
bitfields are re-expressed as plain fields, as the specification's design
notes direct. -/
structure MoveRec where
  initialRow : Int
  initialCol : Int
  finalRow : Int
  finalCol : Int
  pieceMovedType : PieceType
  pieceMovedTeam : Team
  pieceCapturedType : PieceType
  promotionType : PieceType
  wasEnPassant : Bool
  previousEnPassantCol : Int
  wasCastling : Bool
  whiteKingSide : Bool
  whiteQueenSide : Bool
  blackKingSide : Bool
  blackQueenSide : Bool
  halfMove : Int
deriving DecidableEq, Repr, Inhabited

/-- Modelled from the spec: the 128-bit MD5 digest type of hash.h.  The MD5
implementation (`ComputeMD5`) is declared and called by `hash.c` but its
defining file is not part of the sources, so the digest is modelled as the
hashed text itself — an injective stand-in that preserves everything the
specification asserts about the hash (what it covers and when two hashes
coincide). -/
abbrev Hash := List Char

/-- The global `GameState` from main.h.  The undo/redo stacks and the dynamic
hash array become lists (their capacity bookkeeping is allocation detail);
the dead-piece display arrays are kept as the counters the engine reads;
the `static Move pendingMove` of move.c is made an explicit field; sounds,
textures and the UI input lock are rendering/UI state and are dropped. -/
structure GameState where
  board : Board
  turn : Team
  whitePlayer : Player
  blackPlayer : Player
  whiteKingSide : Bool
  whiteQueenSide : Bool
  blackKingSide : Bool
  blackQueenSide : Bool
  enPassantCol : Int
  halfMoveClock : Int
  fullMoveNumber : Int
  isCheckmate : Bool
  isStalemate : Bool
  isRepeated3times : Bool
  isInsufficientMaterial : Bool
  isPromoting : Bool
  promotionType : PieceType
  promotionRow : Int
  promotionCol : Int
  DHA : List Hash
  undoStack : List MoveRec
  redoStack : List MoveRec
  deadWhiteCounter : Int
  deadBlackCounter : Int
  pendingMove : MoveRec
deriving DecidableEq, Repr

/-- Castling constants from settings.h. -/
def WHITE_BACK_RANK : Int := 7

/-- Black back rank (settings.h). -/
def BLACK_BACK_RANK : Int := 0

/-- King start column (settings.h). -/
def KING_START_COL : Int := 4

/-- Queen-side rook start column (settings.h). -/
def ROOK_QS_COL : Int := 0

/-- King-side rook start column (settings.h). -/
def ROOK_KS_COL : Int := 7

/-- King destination column for king-side castling (settings.h). -/
def CASTLE_KS_KING_COL : Int := 6

/-- King destination column for queen-side castling (settings.h). -/
def CASTLE_QS_KING_COL : Int := 2

/-- Rook destination column for king-side castling (settings.h). -/
def CASTLE_KS_ROOK_COL : Int := 5

/-- Rook destination column for queen-side castling (settings.h). -/
def CASTLE_QS_ROOK_COL : Int := 3

/-- LoadPiece from draw.c restricted to the game board: after the bounds
check it stores the piece type and team in the destination cell (the
texture work is rendering).  Note it does not touch `hasMoved` or any of
the transient cell flags. -/
def LoadPiece (b : Board) (row col : Int) (ty : PieceType) (tm : Team) : Board :=
  bmodify b row col fun c => { c with piece := { c.piece with type := ty, team := tm } }

/-- SetEmptyCell from move.c: clear the piece data of one cell (type to
`PIECE_NONE`, `hasMoved` to 0, team to the white default); the texture
unload is rendering.  The transient cell flags are not touched. -/
def SetEmptyCell (c : Cell) : Cell :=
  { c with piece := { c.piece with type := PIECE_NONE, hasMoved := false, team := TEAM_WHITE } }

/-- Clear the cell at the given coordinates, `SetEmptyCell(&GameBoard[r][c])`. -/
def ClearCellAt (b : Board) (r c : Int) : Board := bmodify b r c SetEmptyCell

/-- Character helper: C `isdigit` on ASCII. -/
def cIsDigit (c : Char) : Bool := 48 ≤ c.toNat && c.toNat ≤ 57

/-- Character helper: C `isalpha` on ASCII. -/
def cIsAlpha (c : Char) : Bool :=
  (65 ≤ c.toNat && c.toNat ≤ 90) || (97 ≤ c.toNat && c.toNat ≤ 122)

/-- Character helper: C `islower` on ASCII. -/
def cIsLower (c : Char) : Bool := 97 ≤ c.toNat && c.toNat ≤ 122

/-- Character helper: C `tolower` on ASCII. -/
def cToLower (c : Char) : Char :=
  if 65 ≤ c.toNat && c.toNat ≤ 90 then Char.ofNat (c.toNat + 32) else c

/-- Character helper: C `toupper` on ASCII. -/
def cToUpper (c : Char) : Char :=
  if 97 ≤ c.toNat && c.toNat ≤ 122 then Char.ofNat (c.toNat - 32) else c

/-- Character helper: C `isblank` (space or horizontal tab). -/
def cIsBlank (c : Char) : Bool := c = ' ' || c = Char.ofNat 9

/-- Character helper: C `isspace` (the six standard whitespace characters),
used by `sscanf` when skipping leading whitespace before `%d`. -/
def cIsSpace (c : Char) : Bool :=
  c = ' ' || (9 ≤ c.toNat && c.toNat ≤ 13)

/-- The NUL character terminating C strings. -/
def nulChar : Char := Char.ofNat 0

/-- Piece letter for FEN serialization, from the save.c switch (lower case;
white pieces are upper-cased by the caller).  `PIECE_NONE` is never passed:
save.c only enters the switch for occupied squares. -/
def pieceLetter : PieceType → Char
  | PIECE_BISHOP => 'b'
  | PIECE_KING => 'k'
  | PIECE_KNIGHT => 'n'
  | PIECE_PAWN => 'p'
  | PIECE_QUEEN => 'q'
  | PIECE_ROOK => 'r'
  | PIECE_NONE => '?'

/-- Decimal digits of a natural number, most significant first, mirroring
what C `snprintf`'s `%d` produces.  Structural fuel recursion (fuel `n + 1`
always suffices) so that the kernel can evaluate it. -/
def natDigitsAux : Nat → Nat → List Char
  | 0, _ => []
  | fuel + 1, n =>
    if n < 10 then [Char.ofNat (48 + n)]
    else natDigitsAux fuel (n / 10) ++ [Char.ofNat (48 + n % 10)]

/-- Decimal representation of an `Int`, as C `%d` prints it. -/
def intChars (i : Int) : List Char :=
  if i < 0 then '-' :: natDigitsAux ((-i).toNat + 1) (-i).toNat
  else natDigitsAux (i.toNat + 1) i.toNat

/-- Serialize one rank of the board with run-length encoded empties,
walking the given columns with the running `consecutiveEmptyCells`
counter exactly as the save.c loop does. -/
def SaveFENrowAux (b : Board) (row : Int) : List Int → Nat → List Char
  | [], cnt => if cnt ≠ 0 then [Char.ofNat (48 + cnt)] else []
  | c :: cs, cnt =>
    let p := (bget b row c).piece
    if p.type ≠ PIECE_NONE then
      (if cnt ≠ 0 then [Char.ofNat (48 + cnt)] else []) ++
        [if p.team = TEAM_BLACK then pieceLetter p.type else cToUpper (pieceLetter p.type)] ++
        SaveFENrowAux b row cs 0
    else SaveFENrowAux b row cs (cnt + 1)

/-- The piece-placement field of the FEN, ranks top to bottom separated
by '/' (save.c section 1). -/
def SaveFENplacement (b : Board) : List Char :=
  List.intercalate ['/'] ((List.range 8).map fun r => SaveFENrowAux b (r : Int) colsList 0)

/-- The castling-rights field of the FEN (save.c section 3). -/
def SaveFENrights (g : GameState) : List Char :=
  let r := (if g.whiteKingSide then ['K'] else []) ++
    (if g.whiteQueenSide then ['Q'] else []) ++
    (if g.blackKingSide then ['k'] else []) ++
    (if g.blackQueenSide then ['q'] else [])
  if r = [] then ['-'] else r

/-- The en-passant field of the FEN (save.c section 4): file letter plus
rank digit '6' (white to move) or '3' (black to move), or '-'. -/
def SaveFENep (g : GameState) : List Char :=
  if g.enPassantCol ≠ -1 then
    [Char.ofNat (97 + g.enPassantCol).toNat, if g.turn = TEAM_WHITE then '6' else '3']
  else ['-']

/-- SaveFEN from save.c: serialize the game state into FEN text
(placement, active color, castling rights, en passant target, halfmove
clock, fullmove number).  The heap buffer management is dropped; the
function is modelled as total since the Lean piece enumeration cannot hit
save.c's invalid-type bail-out. -/
def SaveFEN (g : GameState) : List Char :=
  SaveFENplacement g.board ++
  [' ', if g.turn = TEAM_WHITE then 'w' else 'b'] ++
  [' '] ++ SaveFENrights g ++
  [' '] ++ SaveFENep g ++
  [' '] ++ intChars g.halfMoveClock ++ [' '] ++ intChars g.fullMoveNumber

/-- Everything before the fourth space of a string: hash.c truncates the
FEN there so that the two clock fields are excluded from the hash. -/
def truncAtSpace : Nat → List Char → List Char
  | _, [] => []
  | k, ch :: rest =>
    if ch = ' ' then (if k = 1 then [] else ch :: truncAtSpace (k - 1) rest)
    else ch :: truncAtSpace k rest

/-- Modelled from the spec: `ComputeMD5` is declared and used by hash.c but
its implementation file is not among the sources; per the specification the
position hash is a "normalized hash of board+turn+rights+en-passant", so
the digest is modelled as the hashed text itself (an injective digest). -/
def ComputeMD5 (data : List Char) : Hash := data

/-- CurrentGameStateHash from hash.c: hash of the FEN truncated at the
fourth space, i.e. of the placement, turn, castling-rights and en-passant
fields, clocks excluded. -/
def CurrentGameStateHash (g : GameState) : Hash :=
  ComputeMD5 (truncAtSpace 4 (SaveFEN g))

/-- IsRepeated3times from hash.c: true when the given hash already occurs
at least twice in the history (the running count starts at 1 for the
position being tested and the scan stops as soon as it reaches 3).  The
`size < 2` early exit of the C code is subsumed: with fewer than two
entries no hash can occur twice. -/
def IsRepeated3timesAux : List Hash → Hash → Nat → Bool
  | [], _, _ => false
  | h :: rest, target, count =>
    if h = target then
      (if count + 1 ≥ 3 then true else IsRepeated3timesAux rest target (count + 1))
    else IsRepeated3timesAux rest target count

/-- IsRepeated3times entry point (hash.c). -/
def IsRepeated3times (dha : List Hash) (currentHash : Hash) : Bool :=
  if dha.length < 2 then false else IsRepeated3timesAux dha currentHash 1

/-- Result of a FEN-parsing phase: either continue with the (possibly
updated) state and the remaining characters, or fail carrying the state
as mutated so far. -/
inductive PRes
  | ok (g : GameState) (rest : List Char)
  | fail (g : GameState)
deriving Repr

/-- The piece-placement phase of ReadFEN (load.c section 1): digits skip
files (clamped at 8), '/' advances the rank (the loop breaks past rank 7),
letters place pieces when in bounds and are otherwise skipped, any other
character fails the parse.  The loop stops without consuming at a space or
NUL.  In test-only mode nothing is written. -/
def RFplacement (testOnly : Bool) : List Char → GameState → Int → Int → PRes
  | [], g, _, _ => .ok g []
  | ch :: cs, g, rank, file =>
    if ch = nulChar ∨ ch = ' ' then .ok g (ch :: cs)
    else if ch = '/' then
      (if rank + 1 ≥ 8 then .ok g cs else RFplacement testOnly cs g (rank + 1) 0)
    else if cIsDigit ch then
      let file1 : Int := file + ((ch.toNat : Int) - 48)
      RFplacement testOnly cs g rank (if file1 > 8 then 8 else file1)
    else if ¬ cIsAlpha ch then .fail g
    else
      let color := if cIsLower ch then TEAM_BLACK else TEAM_WHITE
      let pc := cToLower ch
      if rank < 0 ∨ rank ≥ 8 ∨ file < 0 ∨ file ≥ 8 then
        RFplacement testOnly cs g rank (file + 1)
      else
        let g1 :=
          if testOnly then g
          else if pc = 'r' then { g with board := LoadPiece g.board rank file PIECE_ROOK color }
          else if pc = 'n' then { g with board := LoadPiece g.board rank file PIECE_KNIGHT color }
          else if pc = 'b' then { g with board := LoadPiece g.board rank file PIECE_BISHOP color }
          else if pc = 'q' then { g with board := LoadPiece g.board rank file PIECE_QUEEN color }
          else if pc = 'k' then { g with board := LoadPiece g.board rank file PIECE_KING color }
          else if pc = 'p' then { g with board := LoadPiece g.board rank file PIECE_PAWN color }
          else g
        RFplacement testOnly cs g1 rank (file + 1)

/-- Whitespace skip used before the active-color field (load.c): advances
while the character is a blank and not NUL. -/
def skipBlanksNul : List Char → List Char
  | [] => []
  | ch :: cs => if ch ≠ nulChar ∧ cIsBlank ch then skipBlanksNul cs else ch :: cs

/-- Whitespace skip used before the castling and en-passant fields
(load.c): advances while the character is a blank (no NUL check). -/
def skipBlanks : List Char → List Char
  | [] => []
  | ch :: cs => if cIsBlank ch then skipBlanks cs else ch :: cs

/-- The active-color phase of ReadFEN (load.c section 2). -/
def RFactiveColor (testOnly : Bool) (g : GameState) (s : List Char) : PRes :=
  match skipBlanksNul s with
  | [] => .fail g
  | ch :: cs =>
    if ch = nulChar then .fail g
    else
      let c := cToLower ch
      if c ≠ 'w' ∧ c ≠ 'b' then .fail g
      else .ok (if testOnly then g
                else { g with turn := if c = 'w' then TEAM_WHITE else TEAM_BLACK }) cs

/-- The body of the castling-rights switch in load.c: set the flag named
by the character, ignoring anything else. -/
def RFsetRight (testOnly : Bool) (g : GameState) (chr : Char) : GameState :=
  if testOnly then g
  else if chr = 'K' then { g with whiteKingSide := true }
  else if chr = 'k' then { g with blackKingSide := true }
  else if chr = 'Q' then { g with whiteQueenSide := true }
  else if chr = 'q' then { g with blackQueenSide := true }
  else g

/-- One step of the castling-rights do-while loop of load.c: set the flag
for the current character, then stop before a blank or NUL or at the end
of the input (leaving that character unconsumed). -/
def RFcastlingLoop (testOnly : Bool) : List Char → GameState → Char → PRes
  | [], g, chr => .ok (RFsetRight testOnly g chr) []
  | c2 :: rest, g, chr =>
    let g1 := RFsetRight testOnly g chr
    if c2 = nulChar ∨ cIsBlank c2 then .ok g1 (c2 :: rest)
    else RFcastlingLoop testOnly rest g1 c2

/-- ZeroRights from load.c. -/
def ZeroRights (g : GameState) : GameState :=
  { g with whiteKingSide := false, whiteQueenSide := false,
           blackKingSide := false, blackQueenSide := false }

/-- The castling-rights phase of ReadFEN (load.c): the first character must
be '-', 'k'/'K' or 'q'/'Q'; rights are zeroed and then set letter by
letter, unknown letters being ignored by the switch default. -/
def RFcastling (testOnly : Bool) (g : GameState) (s : List Char) : PRes :=
  match skipBlanks s with
  | [] => .fail g
  | ch :: cs =>
    if ch ≠ '-' ∧ cToLower ch ≠ 'k' ∧ cToLower ch ≠ 'q' then .fail g
    else
      let g0 := if testOnly then g else ZeroRights g
      if ch = '-' then .ok g0 cs
      else RFcastlingLoop testOnly cs g0 ch

/-- charInSequence from load.c: '-' or a file letter a-h (case
insensitive). -/
def charInSequence (chr : Char) : Bool :=
  chr = '-' || (97 ≤ (cToLower chr).toNat && (cToLower chr).toNat ≤ 104)

/-- The en-passant phase of ReadFEN (load.c): '-' clears the column; a
file letter sets it and must be followed by a rank digit between 1 and 8
(whose value is otherwise ignored). -/
def RFenpassant (testOnly : Bool) (g : GameState) (s : List Char) : PRes :=
  match skipBlanks s with
  | [] => .fail g
  | ch :: cs =>
    if ¬ charInSequence ch then .fail g
    else if ch = '-' then
      .ok (if testOnly then g else { g with enPassantCol := -1 }) cs
    else
      let num : Int := (cToLower ch).toNat - 97
      let g1 := if testOnly then g else { g with enPassantCol := num }
      match cs with
      | [] => .fail g1
      | c2 :: rest =>
        let num2 : Int := (c2.toNat : Int) - 48
        if num2 < 1 ∨ num2 > 8 then .fail g1 else .ok g1 rest

/-- Digit-accumulation step of the `%d` conversion. -/
def parseDecAux : List Char → Nat → Nat × List Char
  | [], acc => (acc, [])
  | c :: cs, acc =>
    if cIsDigit c then parseDecAux cs (acc * 10 + (c.toNat - 48)) else (acc, c :: cs)

/-- One `%d` conversion of C `sscanf`: skip whitespace, accept an optional
sign, then require at least one digit. -/
def parseDec (s : List Char) : Option (Int × List Char) :=
  match s.dropWhile cIsSpace with
  | [] => none
  | c :: cs =>
    if c = '-' then
      match cs with
      | [] => none
      | c2 :: _ =>
        if cIsDigit c2 then
          let p := parseDecAux cs 0
          some (-(p.1 : Int), p.2)
        else none
    else if c = '+' then
      match cs with
      | [] => none
      | c2 :: _ =>
        if cIsDigit c2 then
          let p := parseDecAux cs 0
          some ((p.1 : Int), p.2)
        else none
    else if cIsDigit c then
      let p := parseDecAux (c :: cs) 0
      some ((p.1 : Int), p.2)
    else none

/-- The `sscanf(FENstring + i, "%d %d", ...)` of load.c: both conversions
must succeed. -/
def parseTwoInts (s : List Char) : Option (Int × Int) :=
  match parseDec s with
  | none => none
  | some (h, r1) =>
    match parseDec r1 with
    | none => none
    | some (f, _) => some (h, f)

/-- ReadFEN from load.c.  `size` caps the indexed phases exactly as the C
`i < size` checks do, while the final `sscanf` reads from the raw pointer
and therefore sees the full string past `size`.  On success in non-test
mode the clocks are committed and the position-hash history is reset to
the hash of the freshly loaded state.  In test mode no state is written.

Returns the C `bool` result together with the resulting state. -/
def ReadFEN (g : GameState) (s : List Char) (size : Nat) (testOnly : Bool) :
    Bool × GameState :=
  let cur := s.take size
  let beyond := s.drop size
  match RFplacement testOnly cur g 0 0 with
  | .fail g1 => (false, g1)
  | .ok g1 r1 =>
    match RFactiveColor testOnly g1 r1 with
    | .fail g2 => (false, g2)
    | .ok g2 r2 =>
      match RFcastling testOnly g2 r2 with
      | .fail g3 => (false, g3)
      | .ok g3 r3 =>
        match RFenpassant testOnly g3 r3 with
        | .fail g4 => (false, g4)
        | .ok g4 r4 =>
          match parseTwoInts (r4 ++ beyond) with
          | none => (false, g4)
          | some (h, f) =>
            if testOnly then (true, g4)
            else
              let g5 := { g4 with halfMoveClock := h, fullMoveNumber := f }
              (true, { g5 with DHA := [CurrentGameStateHash g5] })

/-- A player record with all flags clear (zero-initialized global). -/
def zeroPlayer : Player :=
  { Checked := false, Checkmated := false, SimChecked := false, Stalemate := false }

/-- A zeroed move record (`const Move EmptyMove = {0}` of stack.c). -/
def EmptyMove : MoveRec :=
  { initialRow := 0, initialCol := 0, finalRow := 0, finalCol := 0,
    pieceMovedType := PIECE_NONE, pieceMovedTeam := TEAM_WHITE,
    pieceCapturedType := PIECE_NONE, promotionType := PIECE_NONE,
    wasEnPassant := false, previousEnPassantCol := 0, wasCastling := false,
    whiteKingSide := false, whiteQueenSide := false,
    blackKingSide := false, blackQueenSide := false, halfMove := 0 }

/-- An empty 8x8 board. -/
def emptyBoard : Board := List.replicate 8 (List.replicate 8 emptyCell)

/-- The zero-initialized global `GameState` the program starts from
(C globals are zero-initialized; enum value 0 is `TEAM_WHITE` /
`PIECE_NONE`). -/
def zeroState : GameState :=
  { board := emptyBoard, turn := TEAM_WHITE,
    whitePlayer := zeroPlayer, blackPlayer := zeroPlayer,
    whiteKingSide := false, whiteQueenSide := false,
    blackKingSide := false, blackQueenSide := false,
    enPassantCol := 0, halfMoveClock := 0, fullMoveNumber := 0,
    isCheckmate := false, isStalemate := false, isRepeated3times := false,
    isInsufficientMaterial := false, isPromoting := false,
    promotionType := PIECE_NONE, promotionRow := 0, promotionCol := 0,
    DHA := [], undoStack := [], redoStack := [],
    deadWhiteCounter := 0, deadBlackCounter := 0, pendingMove := EmptyMove }

/-- The standard starting FEN from settings.h (`STARTING_FEN`). -/
def STARTING_FEN : List Char :=
  String.toList "rnbqkbnr/pppppppp/8/8/8/8/PPPPPPPP/RNBQKBNR w KQkq - 0 1"

/-- The state right after startup: main.c loads `STARTING_FEN` into the
zero-initialized global with `ReadFEN(standard_game, strlen(...), false)`. -/
def startState : GameState :=
  (ReadFEN zeroState STARTING_FEN STARTING_FEN.length false).2

/-- Mark one square vulnerable. -/
def markVuln (b : Board) (r c : Int) : Board :=
  bmodify b r c fun x => { x with vulnerable := true }

/-- Mark one square primary-valid. -/
def markPV (b : Board) (r c : Int) : Board :=
  bmodify b r c fun x => { x with primaryValid := true }

/-- HandleLinearSquare from move.c: process one square along a sliding
ray; returns the updated board and whether the ray must stop. -/
def HandleLinearSquare (turn : Team) (b : Board) (row col : Int) (team : Team) :
    Board × Bool :=
  let thisCell := bget b row col
  if thisCell.piece.type = PIECE_NONE then
    (if turn = team then markPV b row col else markVuln b row col, false)
  else if thisCell.piece.team ≠ team then
    (if turn = team then markPV b row col else markVuln b row col, true)
  else
    (if turn ≠ team then markVuln b row col else b, true)

/-- One sliding ray: walk from the given square in direction (dr, dc)
until the board edge or a blocking piece, as the `for` loops of
RaycastRook / RaycastBishop do.  Fuel 8 always covers the board. -/
def rayWalk (turn team : Team) (dr dc : Int) : Nat → Board → Int → Int → Board
  | 0, b, _, _ => b
  | fuel + 1, b, r, c =>
    if bIn r c then
      let p := HandleLinearSquare turn b r c team
      if p.2 then p.1 else rayWalk turn team dr dc fuel p.1 (r + dr) (c + dc)
    else b

/-- RaycastRook from move.c: four orthogonal rays in the C order. -/
def RaycastRook (turn : Team) (b : Board) (CellX CellY : Int) (team : Team) : Board :=
  let b1 := rayWalk turn team 1 0 8 b (CellX + 1) CellY
  let b2 := rayWalk turn team (-1) 0 8 b1 (CellX - 1) CellY
  let b3 := rayWalk turn team 0 1 8 b2 CellX (CellY + 1)
  rayWalk turn team 0 (-1) 8 b3 CellX (CellY - 1)

/-- RaycastBishop from move.c: four diagonal rays in the C order. -/
def RaycastBishop (turn : Team) (b : Board) (CellX CellY : Int) (team : Team) : Board :=
  let b1 := rayWalk turn team 1 1 8 b (CellX + 1) (CellY + 1)
  let b2 := rayWalk turn team 1 (-1) 8 b1 (CellX + 1) (CellY - 1)
  let b3 := rayWalk turn team (-1) 1 8 b2 (CellX - 1) (CellY + 1)
  rayWalk turn team (-1) (-1) 8 b3 (CellX - 1) (CellY - 1)

/-- HandlePawnMove from move.c: forward pushes onto empty squares (two if
unmoved), and diagonal squares marked primary-valid only when enemy
occupied, or vulnerable when scanning for the opponent.  Note the
diagonal guard compares only the team field, so an empty square (whose
neutral team is white) is skipped entirely for a white pawn. -/
def HandlePawnMove (turn : Team) (b : Board) (CellX CellY : Int) (team : Team)
    (moved : Bool) : Board :=
  if team = TEAM_BLACK ∧ CellX + 1 < 8 then
    let b1 :=
      if (bget b (CellX + 1) CellY).piece.type = PIECE_NONE then
        let bA := if turn = team then markPV b (CellX + 1) CellY else b
        if ¬ moved ∧ CellX + 2 < 8 then
          if (bget bA (CellX + 2) CellY).piece.type = PIECE_NONE then
            (if turn = team then markPV bA (CellX + 2) CellY else bA)
          else bA
        else bA
      else b
    let b2 :=
      if CellY + 1 < 8 then
        if (bget b1 (CellX + 1) (CellY + 1)).piece.team ≠ team then
          if turn = team ∧ (bget b1 (CellX + 1) (CellY + 1)).piece.type ≠ PIECE_NONE then
            markPV b1 (CellX + 1) (CellY + 1)
          else if turn ≠ team then markVuln b1 (CellX + 1) (CellY + 1)
          else b1
        else b1
      else b1
    if CellY - 1 ≥ 0 then
      if (bget b2 (CellX + 1) (CellY - 1)).piece.team ≠ team then
        if turn = team ∧ (bget b2 (CellX + 1) (CellY - 1)).piece.type ≠ PIECE_NONE then
          markPV b2 (CellX + 1) (CellY - 1)
        else if turn ≠ team then markVuln b2 (CellX + 1) (CellY - 1)
        else b2
      else b2
    else b2
  else if team = TEAM_WHITE ∧ CellX - 1 ≥ 0 then
    let b1 :=
      if (bget b (CellX - 1) CellY).piece.type = PIECE_NONE then
        let bA := if turn = team then markPV b (CellX - 1) CellY else b
        if ¬ moved ∧ CellX - 2 ≥ 0 then
          if (bget bA (CellX - 2) CellY).piece.type = PIECE_NONE then
            (if turn = team then markPV bA (CellX - 2) CellY else bA)
          else bA
        else bA
      else b
    let b2 :=
      if CellY - 1 ≥ 0 then
        if (bget b1 (CellX - 1) (CellY - 1)).piece.team ≠ team then
          if turn = team ∧ (bget b1 (CellX - 1) (CellY - 1)).piece.type ≠ PIECE_NONE then
            markPV b1 (CellX - 1) (CellY - 1)
          else if turn ≠ team then markVuln b1 (CellX - 1) (CellY - 1)
          else b1
        else b1
      else b1
    if CellY + 1 < 8 then
      if (bget b2 (CellX - 1) (CellY + 1)).piece.team ≠ team then
        if turn = team ∧ (bget b2 (CellX - 1) (CellY + 1)).piece.type ≠ PIECE_NONE then
          markPV b2 (CellX - 1) (CellY + 1)
        else if turn ≠ team then markVuln b2 (CellX - 1) (CellY + 1)
        else b2
      else b2
    else b2
  else b

/-- HandleKnightSquare from move.c: mark one knight destination. -/
def HandleKnightSquare (turn : Team) (b : Board) (row col : Int) (team : Team) : Board :=
  if bIn row col then
    if (bget b row col).piece.team ≠ team ∨ (bget b row col).piece.type = PIECE_NONE then
      (if turn = team then markPV b row col else markVuln b row col)
    else b
  else b

/-- HandleKnightMove from move.c: the eight knight destinations in the C
call order. -/
def HandleKnightMove (turn : Team) (b : Board) (CellX CellY : Int) (team : Team) : Board :=
  let b1 := HandleKnightSquare turn b (CellX + 2) (CellY - 1) team
  let b2 := HandleKnightSquare turn b1 (CellX + 2) (CellY + 1) team
  let b3 := HandleKnightSquare turn b2 (CellX - 2) (CellY - 1) team
  let b4 := HandleKnightSquare turn b3 (CellX - 2) (CellY + 1) team
  let b5 := HandleKnightSquare turn b4 (CellX - 1) (CellY + 2) team
  let b6 := HandleKnightSquare turn b5 (CellX + 1) (CellY + 2) team
  let b7 := HandleKnightSquare turn b6 (CellX - 1) (CellY - 2) team
  HandleKnightSquare turn b7 (CellX + 1) (CellY - 2) team

/-- The 3x3 neighborhood offsets in the row-major order of the
HandleKingMove loops (the center is skipped by the guard). -/
def kingOffsets : List (Int × Int) :=
  [(-1, -1), (-1, 0), (-1, 1), (0, -1), (0, 0), (0, 1), (1, -1), (1, 0), (1, 1)]

/-- HandleKingMove from move.c: adjacent squares not already vulnerable
may be marked primary-valid (own turn) or vulnerable (opponent scan). -/
def HandleKingMove (turn : Team) (b : Board) (CellX CellY : Int) (team : Team) : Board :=
  kingOffsets.foldl
    (fun b off =>
      let row := CellX + off.1
      let col := CellY + off.2
      if bIn row col ∧ ¬ (row = CellX ∧ col = CellY) then
        if ¬ (bget b row col).vulnerable then
          if (bget b row col).piece.team ≠ team ∨ (bget b row col).piece.type = PIECE_NONE then
            (if turn = team then markPV b row col else markVuln b row col)
          else b
        else b
      else b)
    b

/-- MoveValidation from move.c: dispatch to the per-piece generators (a
queen reuses the rook and bishop raycasts). -/
def MoveValidation (turn : Team) (b : Board) (CellX CellY : Int) (type : PieceType)
    (team : Team) (moved : Bool) : Board :=
  match type with
  | PIECE_ROOK => RaycastRook turn b CellX CellY team
  | PIECE_BISHOP => RaycastBishop turn b CellX CellY team
  | PIECE_QUEEN => RaycastBishop turn (RaycastRook turn b CellX CellY team) CellX CellY team
  | PIECE_PAWN => HandlePawnMove turn b CellX CellY team moved
  | PIECE_KNIGHT => HandleKnightMove turn b CellX CellY team
  | PIECE_KING => HandleKingMove turn b CellX CellY team
  | PIECE_NONE => b

/-- ResetValidation from move.c: clear `isvalid` everywhere. -/
def ResetValidation (b : Board) : Board :=
  b.map fun row => row.map fun c => { c with isvalid := false }

/-- ResetVulnerable from move.c: clear `vulnerable` everywhere. -/
def ResetVulnerable (b : Board) : Board :=
  b.map fun row => row.map fun c => { c with vulnerable := false }

/-- ResetPrimaryValidation from move.c: clear `primaryValid` everywhere. -/
def ResetPrimaryValidation (b : Board) : Board :=
  b.map fun row => row.map fun c => { c with primaryValid := false }

/-- ResetJustMoved from move.c: clear `JustMoved` everywhere. -/
def ResetJustMoved (b : Board) : Board :=
  b.map fun row => row.map fun c => { c with JustMoved := false }

/-- PrimaryCastlingValidation from move.c: using the persistent rights,
check the king is on its start square and not in check, the between
squares are empty and the transit/destination squares not vulnerable,
then mark the castling destination primary-valid. -/
def PrimaryCastlingValidation (g : GameState) : GameState :=
  if g.turn = TEAM_WHITE then
    if (bget g.board WHITE_BACK_RANK KING_START_COL).piece.type = PIECE_KING ∧
        ¬ g.whitePlayer.Checked then
      let b1 :=
        if g.whiteQueenSide then
          if (bget g.board WHITE_BACK_RANK 1).piece.type = PIECE_NONE ∧
              (bget g.board WHITE_BACK_RANK CASTLE_QS_KING_COL).piece.type = PIECE_NONE ∧
              (bget g.board WHITE_BACK_RANK CASTLE_QS_ROOK_COL).piece.type = PIECE_NONE then
            if ¬ (bget g.board WHITE_BACK_RANK CASTLE_QS_KING_COL).vulnerable ∧
                ¬ (bget g.board WHITE_BACK_RANK CASTLE_QS_ROOK_COL).vulnerable then
              markPV g.board WHITE_BACK_RANK CASTLE_QS_KING_COL
            else g.board
          else g.board
        else g.board
      let b2 :=
        if g.whiteKingSide then
          if (bget b1 WHITE_BACK_RANK CASTLE_KS_ROOK_COL).piece.type = PIECE_NONE ∧
              (bget b1 WHITE_BACK_RANK CASTLE_KS_KING_COL).piece.type = PIECE_NONE then
            if ¬ (bget b1 WHITE_BACK_RANK CASTLE_KS_ROOK_COL).vulnerable ∧
                ¬ (bget b1 WHITE_BACK_RANK CASTLE_KS_KING_COL).vulnerable then
              markPV b1 WHITE_BACK_RANK CASTLE_KS_KING_COL
            else b1
          else b1
        else b1
      { g with board := b2 }
    else g
  else
    if (bget g.board BLACK_BACK_RANK KING_START_COL).piece.type = PIECE_KING ∧
        ¬ g.blackPlayer.Checked then
      let b1 :=
        if g.blackQueenSide then
          if (bget g.board BLACK_BACK_RANK 1).piece.type = PIECE_NONE ∧
              (bget g.board BLACK_BACK_RANK CASTLE_QS_KING_COL).piece.type = PIECE_NONE ∧
              (bget g.board BLACK_BACK_RANK CASTLE_QS_ROOK_COL).piece.type = PIECE_NONE then
            if ¬ (bget g.board BLACK_BACK_RANK CASTLE_QS_KING_COL).vulnerable ∧
                ¬ (bget g.board BLACK_BACK_RANK CASTLE_QS_ROOK_COL).vulnerable then
              markPV g.board BLACK_BACK_RANK CASTLE_QS_KING_COL
            else g.board
          else g.board
        else g.board
      let b2 :=
        if g.blackKingSide then
          if (bget b1 BLACK_BACK_RANK CASTLE_KS_ROOK_COL).piece.type = PIECE_NONE ∧
              (bget b1 BLACK_BACK_RANK CASTLE_KS_KING_COL).piece.type = PIECE_NONE then
            if ¬ (bget b1 BLACK_BACK_RANK CASTLE_KS_ROOK_COL).vulnerable ∧
                ¬ (bget b1 BLACK_BACK_RANK CASTLE_KS_KING_COL).vulnerable then
              markPV b1 BLACK_BACK_RANK CASTLE_KS_KING_COL
            else b1
          else b1
        else b1
      { g with board := b2 }
    else g

/-- PrimaryEnpassantValidation from move.c: on the en-passant rank (row 3
white / row 4 black), an adjacent pawn with `JustMoved && PawnMovedTwo`
makes the diagonal square behind it primary-valid. -/
def PrimaryEnpassantValidation (g : GameState) (row col : Int) : GameState :=
  if g.turn = TEAM_WHITE then
    if (bget g.board row col).piece.type = PIECE_PAWN ∧ row = 3 then
      let b1 :=
        if col + 1 < 8 ∧ (bget g.board row (col + 1)).JustMoved ∧
            (bget g.board row (col + 1)).PawnMovedTwo then
          markPV g.board (row - 1) (col + 1)
        else g.board
      let b2 :=
        if col - 1 ≥ 0 ∧ (bget b1 row (col - 1)).JustMoved ∧
            (bget b1 row (col - 1)).PawnMovedTwo then
          markPV b1 (row - 1) (col - 1)
        else b1
      { g with board := b2 }
    else g
  else
    if (bget g.board row col).piece.type = PIECE_PAWN ∧ row = 4 then
      let b1 :=
        if col + 1 < 8 ∧ (bget g.board row (col + 1)).JustMoved ∧
            (bget g.board row (col + 1)).PawnMovedTwo then
          markPV g.board (row + 1) (col + 1)
        else g.board
      let b2 :=
        if col - 1 ≥ 0 ∧ (bget b1 row (col - 1)).JustMoved ∧
            (bget b1 row (col - 1)).PawnMovedTwo then
          markPV b1 (row + 1) (col - 1)
        else b1
      { g with board := b2 }
    else g

/-- PrimaryValidation from move.c: look up the piece's team and moved
flag and delegate; a selected king also evaluates castling, a selected
pawn also evaluates en passant. -/
def PrimaryValidation (g : GameState) (Piece : PieceType) (CellX CellY : Int)
    (selected : Bool) : GameState :=
  let moved := (bget g.board CellX CellY).piece.hasMoved
  let team := (bget g.board CellX CellY).piece.team
  match Piece with
  | PIECE_KING =>
    let g1 := { g with board := MoveValidation g.turn g.board CellX CellY PIECE_KING team moved }
    if selected then PrimaryCastlingValidation g1 else g1
  | PIECE_QUEEN => { g with board := MoveValidation g.turn g.board CellX CellY PIECE_QUEEN team moved }
  | PIECE_ROOK => { g with board := MoveValidation g.turn g.board CellX CellY PIECE_ROOK team moved }
  | PIECE_BISHOP => { g with board := MoveValidation g.turn g.board CellX CellY PIECE_BISHOP team moved }
  | PIECE_KNIGHT => { g with board := MoveValidation g.turn g.board CellX CellY PIECE_KNIGHT team moved }
  | PIECE_PAWN =>
    let g1 := { g with board := MoveValidation g.turn g.board CellX CellY PIECE_PAWN team moved }
    if selected then PrimaryEnpassantValidation g1 CellX CellY else g1
  | PIECE_NONE => g

/-- ScanEnemyMoves from move.c: run MoveValidation for every piece whose
team differs from the side to move, in row-major order. -/
def ScanEnemyMoves (turn : Team) (b : Board) : Board :=
  squaresRM.foldl
    (fun b rc =>
      let thisPiece := (bget b rc.1 rc.2).piece
      if thisPiece.team = turn ∨ thisPiece.type = PIECE_NONE then b
      else MoveValidation turn b rc.1 rc.2 thisPiece.type thisPiece.team thisPiece.hasMoved)
    b

/-- The opening of CheckValidation (move.c): clear the opponent's Checked
flag. -/
def CheckValidationClear (g : GameState) : GameState :=
  if g.turn = TEAM_WHITE then { g with blackPlayer.Checked := false }
  else { g with whitePlayer.Checked := false }

/-- The king search of CheckValidation (move.c): find the first king of
the side to move (row-major) and set that player's Checked flag if its
square is vulnerable. -/
def CheckValidationFind (g : GameState) : GameState :=
  match squaresRM.find? (fun rc =>
      (bget g.board rc.1 rc.2).piece.team = g.turn ∧
      (bget g.board rc.1 rc.2).piece.type = PIECE_KING) with
  | Option.none => g
  | Option.some rc =>
    if (bget g.board rc.1 rc.2).vulnerable then
      (if g.turn = TEAM_WHITE then { g with whitePlayer.Checked := true }
       else { g with blackPlayer.Checked := true })
    else g

/-- CheckValidation from move.c: clear the opponent's Checked flag, find
the first king of the side to move, and set that player's Checked flag if
its square is vulnerable. -/
def CheckValidation (g : GameState) : GameState :=
  CheckValidationFind (CheckValidationClear g)

/-- SimCheckValidation from move.c: scan the whole board; if a king of the
side to move stands on a vulnerable square, set that player's SimChecked. -/
def SimCheckValidation (g : GameState) : GameState :=
  squaresRM.foldl
    (fun g rc =>
      let thisCell := bget g.board rc.1 rc.2
      if thisCell.piece.team ≠ g.turn then g
      else if thisCell.piece.type = PIECE_KING ∧ thisCell.vulnerable then
        (if g.turn = TEAM_WHITE then { g with whitePlayer.SimChecked := true }
         else { g with blackPlayer.SimChecked := true })
      else g)
    g

/-- MoveSimulation from move.c: lightweight in-place relocation of a piece
type/team pair for simulation (flags and `hasMoved` untouched). -/
def MoveSimulation (b : Board) (CellX1 CellY1 CellX2 CellY2 : Int) (piece : PieceType) :
    Board :=
  let b1 := bmodify b CellX2 CellY2 fun c =>
    { c with piece := { c.piece with team := (bget b CellX1 CellY1).piece.team } }
  let b2 := bmodify b1 CellX1 CellY1 fun c =>
    { c with piece := { c.piece with type := PIECE_NONE } }
  bmodify b2 CellX2 CellY2 fun c => { c with piece := { c.piece with type := piece } }

/-- UndoSimulation from move.c: restore the two squares touched by
MoveSimulation from the remembered type/team values. -/
def UndoSimulation (b : Board) (CellX1 CellY1 CellX2 CellY2 : Int)
    (piece1 piece2 : PieceType) (team2 : Team) : Board :=
  let b1 := bmodify b CellX1 CellY1 fun c =>
    { c with piece := { c.piece with type := piece1 } }
  let b2 := bmodify b1 CellX2 CellY2 fun c =>
    { c with piece := { c.piece with type := piece2 } }
  bmodify b2 CellX2 CellY2 fun c => { c with piece := { c.piece with team := team2 } }

/-- The shared simulate-and-rescan block of FinalValidation and
CheckmateFlagCheck (move.c): relocate the piece with MoveSimulation,
clear and rebuild the vulnerability map with a fresh enemy scan, then run
SimCheckValidation on the result. -/
def SimPass (g : GameState) (CellX CellY row col : Int) (piece1 : PieceType) : GameState :=
  SimCheckValidation
    { g with board :=
        ScanEnemyMoves g.turn (ResetVulnerable (MoveSimulation g.board CellX CellY row col piece1)) }

/-- The mover's simulated-check verdict read back after a `SimPass`
(move.c reads `Player1.SimChecked` or `Player2.SimChecked` by turn). -/
def simSafe (turn : Team) (g1 : GameState) : Bool :=
  if turn = TEAM_WHITE then ! g1.whitePlayer.SimChecked else ! g1.blackPlayer.SimChecked

/-- The board restore after a simulation (move.c): UndoSimulation from the
remembered destination type and team, then clear and rescan the
vulnerability map again. -/
def SimRestore (g1 : GameState) (b : Board) (CellX CellY row col : Int)
    (piece1 piece2 : PieceType) (team2 : Team) : GameState :=
  { g1 with
    board := ScanEnemyMoves g1.turn
      (ResetVulnerable (UndoSimulation b CellX CellY row col piece1 piece2 team2)),
    whitePlayer.SimChecked := false, blackPlayer.SimChecked := false }

/-- One iteration of the FinalValidation double loop (move.c): for a
primary-valid square, simulate the move there, rescan the opponent's
threats, record whether the simulated position leaves the mover checked
into `isvalid`, then restore the board and rescan again. -/
def FVbody (g : GameState) (CellX CellY : Int) (piece1 : PieceType) (row col : Int) :
    GameState :=
  let thisCell := bget g.board row col
  if thisCell.primaryValid then
    let piece2 := thisCell.piece.type
    let team2 := thisCell.piece.team
    let g1 := SimPass g CellX CellY row col piece1
    let v := simSafe g.turn g1
    let bMark := bmodify g1.board row col fun c => { c with isvalid := v }
    SimRestore g1 bMark CellX CellY row col piece1 piece2 team2
  else g

/-- The en-passant byproduct block at the end of FinalValidation (move.c):
when the selected pawn has a valid diagonal move into an empty square,
record that column in `state.enPassantCol`. -/
def FVepRecord (g : GameState) (CellX CellY : Int) (piece1 : PieceType) : GameState :=
  if g.turn = TEAM_WHITE then
    if piece1 = PIECE_PAWN ∧ CellY - 1 ≥ 0 ∧
        (bget g.board (CellX - 1) (CellY - 1)).isvalid ∧
        (bget g.board (CellX - 1) (CellY - 1)).piece.type = PIECE_NONE then
      { g with enPassantCol := CellY - 1 }
    else if piece1 = PIECE_PAWN ∧ CellY + 1 < 8 ∧
        (bget g.board (CellX - 1) (CellY + 1)).isvalid ∧
        (bget g.board (CellX - 1) (CellY + 1)).piece.type = PIECE_NONE then
      { g with enPassantCol := CellY + 1 }
    else g
  else
    if piece1 = PIECE_PAWN ∧ CellY - 1 ≥ 0 ∧
        (bget g.board (CellX + 1) (CellY - 1)).isvalid ∧
        (bget g.board (CellX + 1) (CellY - 1)).piece.type = PIECE_NONE then
      { g with enPassantCol := CellY - 1 }
    else if piece1 = PIECE_PAWN ∧ CellY + 1 < 8 ∧
        (bget g.board (CellX + 1) (CellY + 1)).isvalid ∧
        (bget g.board (CellX + 1) (CellY + 1)).piece.type = PIECE_NONE then
      { g with enPassantCol := CellY + 1 }
    else g

/-- FinalValidation from move.c: clear the simulation flags, then for the
selected piece walk every square (row-major) running `FVbody`, and
finally record the en-passant byproduct column. -/
def FinalValidation (g : GameState) (CellX CellY : Int) (selected : Bool) : GameState :=
  let g0 := { g with whitePlayer.SimChecked := false, blackPlayer.SimChecked := false }
  if selected then
    let piece1 := (bget g0.board CellX CellY).piece.type
    let g1 := squaresRM.foldl (fun g rc => FVbody g CellX CellY piece1 rc.1 rc.2) g0
    FVepRecord g1 CellX CellY piece1
  else g0

/-- The inner destination loop of CheckmateFlagCheck (move.c): try every
primary-valid destination of the piece at (i, j); as soon as a simulated
move leaves the mover un-checked, reset the primary map and return with
the escape flag set. -/
def CMFCkl (i j : Int) (piece1 : PieceType) :
    List (Int × Int) → GameState → GameState × Bool
  | [], g => (g, false)
  | kl :: rest, g =>
    if (bget g.board kl.1 kl.2).primaryValid then
      let piece2 := (bget g.board kl.1 kl.2).piece.type
      let team2 := (bget g.board kl.1 kl.2).piece.team
      let g1 := SimPass g i j kl.1 kl.2 piece1
      let falsecheck := simSafe g.turn g1
      let g2 := SimRestore g1 g1.board i j kl.1 kl.2 piece1 piece2 team2
      if falsecheck then
        ({ g2 with board := ResetPrimaryValidation g2.board }, true)
      else CMFCkl i j piece1 rest g2
    else CMFCkl i j piece1 rest g

/-- The outer piece loop of CheckmateFlagCheck (move.c): for each piece of
the analysed team generate its primary moves and run the inner loop; an
escape aborts the whole search with result `false` (a legal move exists). -/
def CMFCij (playerTeam : Team) :
    List (Int × Int) → GameState → GameState × Bool
  | [], g => ({ g with board := ResetPrimaryValidation g.board }, true)
  | ij :: rest, g =>
    let piece1 := (bget g.board ij.1 ij.2).piece.type
    let team1 := (bget g.board ij.1 ij.2).piece.team
    if team1 = playerTeam ∧ piece1 ≠ PIECE_NONE then
      let gP := PrimaryValidation g piece1 ij.1 ij.2 false
      let p := CMFCkl ij.1 ij.2 piece1 squaresRM gP
      if p.2 then (p.1, false)
      else CMFCij playerTeam rest { p.1 with board := ResetPrimaryValidation p.1.board }
    else CMFCij playerTeam rest g

/-- CheckmateFlagCheck from move.c (shared by checkmate and stalemate
detection): returns the possibly flag-churned state and `true` exactly
when the given team has no simulated move that avoids check. -/
def CheckmateFlagCheck (g : GameState) (playerTeam : Team) : GameState × Bool :=
  CMFCij playerTeam squaresRM { g with board := ResetPrimaryValidation g.board }

/-- The white-player phase of CheckmateValidation (move.c). -/
def CMVwhite (g : GameState) : GameState :=
  if g.whitePlayer.Checked then
    let p := CheckmateFlagCheck g TEAM_WHITE
    let ga := { p.1 with whitePlayer.Checkmated := p.2 }
    if p.2 then { ga with isCheckmate := true } else ga
  else g

/-- The black-player phase of CheckmateValidation (move.c). -/
def CMVblack (g : GameState) : GameState :=
  if g.blackPlayer.Checked then
    let p := CheckmateFlagCheck g TEAM_BLACK
    let gb := { p.1 with blackPlayer.Checkmated := p.2 }
    if p.2 then { gb with isCheckmate := true } else gb
  else g

/-- CheckmateValidation from move.c: for each checked player run the
no-escape search and set the Checkmated and global Checkmate flags. -/
def CheckmateValidation (g : GameState) : GameState :=
  CMVblack (CMVwhite g)

/-- The Stalemate-flag clearing that StalemateValidation performs first
(move.c). -/
def StalemateClear (g : GameState) : GameState :=
  { g with whitePlayer.Stalemate := false, blackPlayer.Stalemate := false }

/-- StalemateValidation from move.c: when the side to move is not in
check, run the shared no-escape search and set the Stalemate flags. -/
def StalemateValidation (g : GameState) : GameState :=
  let g := StalemateClear g
  if g.turn = TEAM_WHITE then
    if ¬ g.whitePlayer.Checked then
      let p := CheckmateFlagCheck g TEAM_WHITE
      let ga := { p.1 with whitePlayer.Stalemate := p.2 }
      if p.2 then { ga with isStalemate := true } else ga
    else g
  else if ¬ g.blackPlayer.Checked then
    let p := CheckmateFlagCheck g TEAM_BLACK
    let ga := { p.1 with blackPlayer.Stalemate := p.2 }
    if p.2 then { ga with isStalemate := true } else ga
  else g

/-- Running counters of the CheckInsufficientMaterial scan (move.c). -/
structure IMCounts where
  whiteMinorPieces : Nat
  blackMinorPieces : Nat
  whiteBishops : Nat
  blackBishops : Nat
  whiteBishopSquareColor : Int
  blackBishopSquareColor : Int
deriving DecidableEq, Repr

/-- The board scan of CheckInsufficientMaterial (move.c): `none` when a
queen, rook or pawn is found (checkmate possible), otherwise the minor
piece counters with the square color of the last bishop of each side. -/
def CIMscan (b : Board) : List (Int × Int) → IMCounts → Option IMCounts
  | [], acc => some acc
  | ij :: rest, acc =>
    let p := (bget b ij.1 ij.2).piece
    if p.type = PIECE_NONE then CIMscan b rest acc
    else if p.type = PIECE_QUEEN ∨ p.type = PIECE_ROOK ∨ p.type = PIECE_PAWN then none
    else if p.type = PIECE_KNIGHT ∨ p.type = PIECE_BISHOP then
      (if p.team = TEAM_WHITE then
        CIMscan b rest
          { acc with
            whiteMinorPieces := acc.whiteMinorPieces + 1,
            whiteBishops := if p.type = PIECE_BISHOP then acc.whiteBishops + 1 else acc.whiteBishops,
            whiteBishopSquareColor :=
              if p.type = PIECE_BISHOP then (ij.1 + ij.2) % 2 else acc.whiteBishopSquareColor }
      else
        CIMscan b rest
          { acc with
            blackMinorPieces := acc.blackMinorPieces + 1,
            blackBishops := if p.type = PIECE_BISHOP then acc.blackBishops + 1 else acc.blackBishops,
            blackBishopSquareColor :=
              if p.type = PIECE_BISHOP then (ij.1 + ij.2) % 2 else acc.blackBishopSquareColor })
    else CIMscan b rest acc

/-- The initial counters of CheckInsufficientMaterial. -/
def CIMinit : IMCounts :=
  { whiteMinorPieces := 0, blackMinorPieces := 0, whiteBishops := 0, blackBishops := 0,
    whiteBishopSquareColor := -1, blackBishopSquareColor := -1 }

/-- CheckInsufficientMaterial from move.c: king vs king, king+minor vs
king, or king+bishop vs king+bishop on same-colored squares. -/
def CheckInsufficientMaterial (g : GameState) : GameState :=
  match CIMscan g.board squaresRM CIMinit with
  | Option.none => { g with isInsufficientMaterial := false }
  | Option.some c =>
    if c.whiteMinorPieces = 0 ∧ c.blackMinorPieces = 0 then
      { g with isInsufficientMaterial := true }
    else if (c.whiteMinorPieces = 1 ∧ c.blackMinorPieces = 0) ∨
        (c.whiteMinorPieces = 0 ∧ c.blackMinorPieces = 1) then
      { g with isInsufficientMaterial := true }
    else if c.whiteMinorPieces = 1 ∧ c.blackMinorPieces = 1 ∧
        c.whiteBishops = 1 ∧ c.blackBishops = 1 then
      (if c.whiteBishopSquareColor = c.blackBishopSquareColor then
        { g with isInsufficientMaterial := true }
      else { g with isInsufficientMaterial := false })
    else { g with isInsufficientMaterial := false }

/-- The turn flip, flag resets, rescans and check detection at the start
of ResetsAndValidations (move.c). -/
def RAVscanned (g : GameState) : GameState :=
  let g1 := { g with turn := otherTeam g.turn }
  let b := ScanEnemyMoves g1.turn
    (ResetVulnerable (ResetPrimaryValidation (ResetValidation g1.board)))
  CheckValidation { g1 with board := b }

/-- The conditional checkmate search of ResetsAndValidations (move.c):
run CheckmateValidation only when the player whose turn it now is stands
checked. -/
def RAVcheckmatePhase (g : GameState) : GameState :=
  if g.whitePlayer.Checked then
    (if g.turn = TEAM_WHITE then CheckmateValidation g else g)
  else if g.blackPlayer.Checked then
    (if g.turn = TEAM_BLACK then CheckmateValidation g else g)
  else g

/-- ResetsAndValidations from move.c: the central settle routine run after
every move, undo or promotion — flip the turn, clear validity flags,
rescan threats, recompute check / stalemate / checkmate / insufficient
material. -/
def ResetsAndValidations (g : GameState) : GameState :=
  CheckInsufficientMaterial (RAVcheckmatePhase (StalemateValidation (RAVscanned g)))

/-- RecordMove from move.c: capture every detail of the move about to be
committed.  It runs after the clock update and the rook-capture rights
update of MovePiece, so `halfMove` and the rights snapshot reflect those
writes, while `previousEnPassantCol` still holds the pre-move column. -/
def RecordMove (g : GameState) (initialRow initialCol finalRow finalCol : Int) : MoveRec :=
  let srcP := (bget g.board initialRow initialCol).piece
  let dstP := (bget g.board finalRow finalCol).piece
  let wasEP : Bool :=
    decide (srcP.type = PIECE_PAWN ∧ initialCol ≠ finalCol ∧ dstP.type = PIECE_NONE)
  { initialRow := initialRow, initialCol := initialCol,
    finalRow := finalRow, finalCol := finalCol,
    pieceMovedType := srcP.type, pieceMovedTeam := srcP.team,
    pieceCapturedType := if wasEP then PIECE_PAWN else dstP.type,
    promotionType := PIECE_NONE,
    wasEnPassant := wasEP,
    previousEnPassantCol := g.enPassantCol,
    wasCastling := decide (srcP.type = PIECE_KING ∧ (finalCol - initialCol).natAbs = 2),
    whiteKingSide := g.whiteKingSide, whiteQueenSide := g.whiteQueenSide,
    blackKingSide := g.blackKingSide, blackQueenSide := g.blackQueenSide,
    halfMove := g.halfMoveClock }

/-- The castling-rights update on rook capture in MovePiece (move.c): a
rook captured on its home square costs its side that castling right. -/
def MPRookCaptureRights (g : GameState) (finalRow finalCol : Int) : GameState :=
  if (bget g.board finalRow finalCol).piece.type = PIECE_ROOK then
    if (bget g.board finalRow finalCol).piece.team = TEAM_WHITE then
      let gA :=
        if finalRow = WHITE_BACK_RANK ∧ finalCol = ROOK_QS_COL then
          { g with whiteQueenSide := false }
        else g
      if finalRow = WHITE_BACK_RANK ∧ finalCol = ROOK_KS_COL then
        { gA with whiteKingSide := false }
      else gA
    else
      let gA :=
        if finalRow = BLACK_BACK_RANK ∧ finalCol = ROOK_QS_COL then
          { g with blackQueenSide := false }
        else g
      if finalRow = BLACK_BACK_RANK ∧ finalCol = ROOK_KS_COL then
        { gA with blackKingSide := false }
      else gA
  else g

/-- The dead-piece bookkeeping of MovePiece (move.c): bump the bounded
capture counter for the side whose piece stands on the destination (the
display-array texture load is rendering). -/
def MPDeadCounters (g : GameState) (finalRow finalCol : Int) : GameState :=
  if g.turn = TEAM_WHITE then
    if (bget g.board finalRow finalCol).piece.type ≠ PIECE_NONE ∧
        (bget g.board finalRow finalCol).piece.team = TEAM_BLACK then
      (if g.deadBlackCounter < 16 then { g with deadBlackCounter := g.deadBlackCounter + 1 }
       else g)
    else g
  else
    if (bget g.board finalRow finalCol).piece.type ≠ PIECE_NONE ∧
        (bget g.board finalRow finalCol).piece.team = TEAM_WHITE then
      (if g.deadWhiteCounter < 16 then { g with deadWhiteCounter := g.deadWhiteCounter + 1 }
       else g)
    else g

/-- One castling commit of MovePiece (move.c): push the record, clear the
redo stack and both rights of the side, relocate king and rook, then run
the post-move settle. -/
def MPCastleCommit (g : GameState) (currentMove : MoveRec) (backRank kingDst rookDst rookSrc : Int) : GameState :=
  let g1 := { g with undoStack := currentMove :: g.undoStack, redoStack := [] }
  let g2 :=
    if g1.turn = TEAM_WHITE then { g1 with whiteKingSide := false, whiteQueenSide := false }
    else { g1 with blackKingSide := false, blackQueenSide := false }
  let b1 := LoadPiece g2.board backRank kingDst PIECE_KING g2.turn
  let b2 := ClearCellAt b1 backRank KING_START_COL
  let b3 := LoadPiece b2 backRank rookDst PIECE_ROOK g2.turn
  let b4 := ClearCellAt b3 backRank rookSrc
  ResetsAndValidations { g2 with board := b4 }

/-- The castling branch of MovePiece (move.c): taken when a king moves two
files onto one of the four castling destinations; `none` means fall
through to the normal path. -/
def MPCastleBranch (g : GameState) (currentMove : MoveRec)
    (initialCol finalRow finalCol : Int) (movingPieceType : PieceType) :
    Option GameState :=
  if movingPieceType = PIECE_KING ∧ (finalCol - initialCol).natAbs = 2 then
    if g.turn = TEAM_WHITE then
      if finalRow = WHITE_BACK_RANK ∧ finalCol = CASTLE_KS_KING_COL then
        some (MPCastleCommit g currentMove WHITE_BACK_RANK CASTLE_KS_KING_COL CASTLE_KS_ROOK_COL ROOK_KS_COL)
      else if finalRow = WHITE_BACK_RANK ∧ finalCol = CASTLE_QS_KING_COL then
        some (MPCastleCommit g currentMove WHITE_BACK_RANK CASTLE_QS_KING_COL CASTLE_QS_ROOK_COL ROOK_QS_COL)
      else none
    else
      if finalRow = BLACK_BACK_RANK ∧ finalCol = CASTLE_KS_KING_COL then
        some (MPCastleCommit g currentMove BLACK_BACK_RANK CASTLE_KS_KING_COL CASTLE_KS_ROOK_COL ROOK_KS_COL)
      else if finalRow = BLACK_BACK_RANK ∧ finalCol = CASTLE_QS_KING_COL then
        some (MPCastleCommit g currentMove BLACK_BACK_RANK CASTLE_QS_KING_COL CASTLE_QS_ROOK_COL ROOK_QS_COL)
      else none
  else none

/-- The early en-passant execution block of MovePiece (move.c, guarded by
`state.enPassantCol != -1`).  MovePiece resets the column to -1 before
reaching it, so the guard never fires; it is carried over verbatim. -/
def MPDeadEPBlock (g : GameState) (initialRow initialCol finalRow finalCol : Int)
    (movingPieceType : PieceType) : GameState :=
  if g.enPassantCol ≠ -1 then
    if g.turn = TEAM_WHITE then
      let gA :=
        if movingPieceType = PIECE_PAWN ∧ finalRow = 2 ∧ finalCol = initialCol - 1 then
          { g with board :=
              ClearCellAt (ClearCellAt
                (LoadPiece g.board finalRow finalCol PIECE_PAWN g.turn)
                initialRow initialCol) initialRow (initialCol - 1) }
        else g
      if movingPieceType = PIECE_PAWN ∧ finalRow = 2 ∧ finalCol = initialCol + 1 then
        { gA with board :=
            ClearCellAt (ClearCellAt
              (LoadPiece gA.board finalRow finalCol PIECE_PAWN gA.turn)
              initialRow initialCol) initialRow (initialCol + 1) }
      else gA
    else
      let gA :=
        if movingPieceType = PIECE_PAWN ∧ finalRow = 5 ∧ finalCol = initialCol - 1 then
          { g with board :=
              ClearCellAt (ClearCellAt
                (LoadPiece g.board finalRow finalCol PIECE_PAWN g.turn)
                initialRow initialCol) initialRow (initialCol - 1) }
        else g
      if movingPieceType = PIECE_PAWN ∧ finalRow = 5 ∧ finalCol = initialCol + 1 then
        { gA with board :=
            ClearCellAt (ClearCellAt
              (LoadPiece gA.board finalRow finalCol PIECE_PAWN gA.turn)
              initialRow initialCol) initialRow (initialCol + 1) }
      else gA
  else g

/-- The castling-rights update when a king or home-square rook moves
normally (move.c). -/
def MPMoveRights (g : GameState) (initialRow initialCol : Int)
    (movingPieceType : PieceType) : GameState :=
  if movingPieceType = PIECE_KING then
    if g.turn = TEAM_WHITE then { g with whiteKingSide := false, whiteQueenSide := false }
    else { g with blackKingSide := false, blackQueenSide := false }
  else if movingPieceType = PIECE_ROOK then
    if g.turn = TEAM_WHITE then
      let gA :=
        if initialRow = WHITE_BACK_RANK ∧ initialCol = ROOK_QS_COL then
          { g with whiteQueenSide := false }
        else g
      if initialRow = WHITE_BACK_RANK ∧ initialCol = ROOK_KS_COL then
        { gA with whiteKingSide := false }
      else gA
    else
      let gA :=
        if initialRow = BLACK_BACK_RANK ∧ initialCol = ROOK_QS_COL then
          { g with blackQueenSide := false }
        else g
      if initialRow = BLACK_BACK_RANK ∧ initialCol = ROOK_KS_COL then
        { gA with blackKingSide := false }
      else gA
  else g

/-- The clock-update section of MovePiece (move.c): the fullmove number
increments before a Black move, and the halfmove clock resets (clearing
the position-hash history) on a pawn move or a capture, incrementing
otherwise. -/
def MPclocks (g0 : GameState) (initialRow initialCol finalRow finalCol : Int) : GameState :=
  let g1 :=
    if g0.turn = TEAM_BLACK then { g0 with fullMoveNumber := g0.fullMoveNumber + 1 } else g0
  if (bget g1.board initialRow initialCol).piece.type = PIECE_PAWN ∨
      (bget g1.board finalRow finalCol).piece.type ≠ PIECE_NONE then
    { g1 with halfMoveClock := 0, DHA := [] }
  else { g1 with halfMoveClock := g1.halfMoveClock + 1 }

/-- The just-moved bookkeeping of MovePiece (move.c): clear `JustMoved`
everywhere and set it on the destination square. -/
def MPboardPrep (g5 : GameState) (finalRow finalCol : Int) : GameState :=
  { g5 with
    board := bmodify (ResetJustMoved g5.board) finalRow finalCol
      fun c => { c with JustMoved := true } }

/-- The relocation section of MovePiece (move.c): load the moving piece
into the destination, mark it moved, clear the source, and clear the
en-passant victim square when the move record was flagged en passant. -/
def MPrelocated (g9 : GameState) (initialRow initialCol finalRow finalCol : Int)
    (wasEP : Bool) : GameState :=
  let b1 := LoadPiece g9.board finalRow finalCol
    (bget g9.board initialRow initialCol).piece.type
    (bget g9.board initialRow initialCol).piece.team
  let b2 := bmodify b1 finalRow finalCol fun c =>
    { c with piece := { c.piece with hasMoved := true } }
  let b3 := ClearCellAt b2 initialRow initialCol
  let b4 := if wasEP then ClearCellAt b3 initialRow finalCol else b3
  { g9 with board := b4 }

/-- The post-move commit tail of MovePiece (move.c): the settle pass,
the repetition check (performed only when the halfmove clock is positive)
and the hash-history push. -/
def MPcommit (g11 : GameState) : GameState :=
  let g12 := ResetsAndValidations g11
  let currentHash := CurrentGameStateHash g12
  let g13 :=
    if g12.halfMoveClock > 0 then
      (if IsRepeated3times g12.DHA currentHash then { g12 with isRepeated3times := true }
       else g12)
    else g12
  { g13 with DHA := g13.DHA ++ [currentHash] }

/-- MovePiece from move.c: commit a move between two squares — guards,
clock updates, rights bookkeeping, move record, dead-piece counters,
castling, (dead) en-passant block, the relocation itself, the en-passant
capture, the promotion interrupt, and the post-move settle with
repetition detection.  Sound playback and visual logging are dropped. -/
def MovePiece (g0 : GameState) (initialRow initialCol finalRow finalCol : Int) : GameState :=
  if ¬ (bIn initialRow initialCol ∧ bIn finalRow finalCol) then g0
  else if (bget g0.board initialRow initialCol).piece.type = PIECE_NONE then g0
  else if initialRow = finalRow ∧ initialCol = finalCol then g0
  else
    let g2 := MPclocks g0 initialRow initialCol finalRow finalCol
    let g3 := MPRookCaptureRights g2 finalRow finalCol
    let currentMove := RecordMove g3 initialRow initialCol finalRow finalCol
    let g4 := { g3 with enPassantCol := -1 }
    let g5 := MPDeadCounters g4 finalRow finalCol
    let movingPieceType := (bget g5.board initialRow initialCol).piece.type
    let g6 := MPboardPrep g5 finalRow finalCol
    match MPCastleBranch g6 currentMove initialCol finalRow finalCol movingPieceType with
    | Option.some gc => gc
    | Option.none =>
      let g7 := MPDeadEPBlock g6 initialRow initialCol finalRow finalCol movingPieceType
      let g8 := MPMoveRights g7 initialRow initialCol movingPieceType
      let g9 :=
        if (bget g8.board initialRow initialCol).piece.type = PIECE_PAWN ∧
            (finalRow - initialRow).natAbs = 2 then
          { g8 with
            board := bmodify g8.board finalRow finalCol fun c => { c with PawnMovedTwo := true } }
        else g8
      let g10 := MPrelocated g9 initialRow initialCol finalRow finalCol currentMove.wasEnPassant
      let isPromoting : Bool :=
        decide ((bget g10.board finalRow finalCol).piece.type = PIECE_PAWN ∧
          (((bget g10.board finalRow finalCol).piece.team = TEAM_WHITE ∧ finalRow = 0) ∨
           ((bget g10.board finalRow finalCol).piece.team = TEAM_BLACK ∧ finalRow = 7)))
      if isPromoting then
        { g10 with
          isPromoting := true, promotionRow := finalRow, promotionCol := finalCol,
          pendingMove := currentMove }
      else
        MPcommit
          { g10 with
            promotionType := PIECE_NONE,
            undoStack := currentMove :: g10.undoStack, redoStack := [] }

/-- PromotePawn from move.c: finalize a pending promotion — replace the
pawn with the chosen piece, clear the promotion state, finalize and push
the queued move record, and resume with the post-move settle. -/
def PromotePawn (g : GameState) (selectedType : PieceType) : GameState :=
  if g.promotionRow = -1 ∨ g.promotionCol = -1 then g
  else
    let row := g.promotionRow
    let col := g.promotionCol
    let team := (bget g.board row col).piece.team
    let g1 := { g with board := LoadPiece g.board row col selectedType team }
    let g2 :=
      { g1 with
        isPromoting := false, promotionRow := -1, promotionCol := -1,
        promotionType := selectedType }
    let pm := { g2.pendingMove with promotionType := selectedType }
    let g3 := { g2 with pendingMove := pm, undoStack := pm :: g2.undoStack, redoStack := [] }
    ResetsAndValidations g3

/-- Section 1 of UndoMove (move.c): pop the record off the stack and
restore the clocks, the en-passant column, the castling rights and the
status flags from its snapshot.  The fullmove number is decremented when
the turn at undo time is Black's. -/
def UMflags (g0 : GameState) (move : MoveRec) (rest : List MoveRec) : GameState :=
  let g := { g0 with undoStack := rest }
  let g := { g with halfMoveClock := move.halfMove }
  let g :=
    if g.turn = TEAM_BLACK then { g with fullMoveNumber := g.fullMoveNumber - 1 } else g
  let g :=
    { g with
      enPassantCol := move.previousEnPassantCol,
      whiteKingSide := move.whiteKingSide, whiteQueenSide := move.whiteQueenSide,
      blackKingSide := move.blackKingSide, blackQueenSide := move.blackQueenSide }
  { g with
    isStalemate := false, isRepeated3times := false,
    isInsufficientMaterial := false, isCheckmate := false,
    whitePlayer.Checkmated := false, blackPlayer.Checkmated := false }

/-- Sections 2 and 3 of UndoMove (move.c): move the piece back with its
original pre-promotion type, clear the destination and restore any
captured piece (en-passant geometry included), decrementing the matching
dead-piece counter. -/
def UMcapture (g : GameState) (move : MoveRec) : GameState :=
  let b1 := LoadPiece g.board move.initialRow move.initialCol
    move.pieceMovedType move.pieceMovedTeam
  let b2 := ClearCellAt b1 move.finalRow move.finalCol
  let capturedTeam := if move.pieceMovedTeam = TEAM_WHITE then TEAM_BLACK else TEAM_WHITE
  if move.pieceCapturedType ≠ PIECE_NONE then
    let b3 :=
      if move.wasEnPassant then
        LoadPiece b2 move.initialRow move.finalCol move.pieceCapturedType capturedTeam
      else
        LoadPiece b2 move.finalRow move.finalCol move.pieceCapturedType capturedTeam
    let gA := { g with board := b3 }
    let gB :=
      if capturedTeam = TEAM_WHITE ∧ gA.deadWhiteCounter > (0 : Int) then
        { gA with deadWhiteCounter := gA.deadWhiteCounter - 1 }
      else gA
    if capturedTeam = TEAM_BLACK ∧ gB.deadBlackCounter > (0 : Int) then
      { gB with deadBlackCounter := gB.deadBlackCounter - 1 }
    else gB
  else { g with board := b2 }

/-- The en-passant pawn-flag re-derivation of UndoMove (move.c): when the
restored en-passant column is set, mark the pawn that had just moved two
squares. -/
def UMepPawnFlags (g : GameState) (move : MoveRec) : GameState :=
  if g.enPassantCol ≠ (-1 : Int) then
    let row : Int := if move.pieceMovedTeam = TEAM_WHITE then 3 else 4
    if 0 ≤ row ∧ row < 8 ∧ 0 ≤ g.enPassantCol ∧ g.enPassantCol < 8 then
      let bEp := bmodify g.board row g.enPassantCol fun c =>
        { c with JustMoved := true, PawnMovedTwo := true }
      { g with board := bEp }
    else g
  else g

/-- The rook-restoring part of UndoMove for castling moves (move.c). -/
def UMCastleRestore (b : Board) (move : MoveRec) : Board :=
  if move.finalRow = WHITE_BACK_RANK ∧ move.finalCol = CASTLE_KS_KING_COL then
    ClearCellAt (LoadPiece b WHITE_BACK_RANK ROOK_KS_COL PIECE_ROOK TEAM_WHITE)
      WHITE_BACK_RANK CASTLE_KS_ROOK_COL
  else if move.finalRow = WHITE_BACK_RANK ∧ move.finalCol = CASTLE_QS_KING_COL then
    ClearCellAt (LoadPiece b WHITE_BACK_RANK ROOK_QS_COL PIECE_ROOK TEAM_WHITE)
      WHITE_BACK_RANK CASTLE_QS_ROOK_COL
  else if move.finalRow = BLACK_BACK_RANK ∧ move.finalCol = CASTLE_KS_KING_COL then
    ClearCellAt (LoadPiece b BLACK_BACK_RANK ROOK_KS_COL PIECE_ROOK TEAM_BLACK)
      BLACK_BACK_RANK CASTLE_KS_ROOK_COL
  else if move.finalRow = BLACK_BACK_RANK ∧ move.finalCol = CASTLE_QS_KING_COL then
    ClearCellAt (LoadPiece b BLACK_BACK_RANK ROOK_QS_COL PIECE_ROOK TEAM_BLACK)
      BLACK_BACK_RANK CASTLE_QS_ROOK_COL
  else b

/-- UndoMove from move.c: pop the last record, restore clocks, rights and
en-passant column from its snapshot, move the piece back (with its
original pre-promotion type), restore any captured piece (en-passant
geometry included), move the castling rook back, pop one hash entry, push
the record to the redo stack, re-derive the en-passant pawn flags, and
re-run the post-move settle (which flips the turn back).  The visual
highlight and sound calls are dropped. -/
def UndoMove (g0 : GameState) : GameState :=
  match g0.undoStack with
  | [] => g0
  | move :: rest =>
    let gF := UMflags g0 move rest
    let gCap := UMcapture gF move
    let gCas :=
      if move.wasCastling then { gCap with board := UMCastleRestore gCap.board move }
      else gCap
    let gDha : GameState := { gCas with DHA := gCas.DHA.dropLast }
    let gRedo : GameState := { gDha with redoStack := move :: gDha.redoStack }
    let gEp := UMepPawnFlags gRedo move
    ResetsAndValidations gEp

/-- The move-attempt path of DecideDestination (draw.c): while a promotion
is pending all board input is intercepted, otherwise a click on an
invalid or out-of-bounds or identical destination only clears the
selection, and a click on an `isvalid` destination commits the move. -/
def DecideDestinationMove (g : GameState) (CellX CellY NewCellX NewCellY : Int) : GameState :=
  if g.isPromoting then g
  else if ¬ bIn NewCellX NewCellY then g
  else if ¬ (bget g.board NewCellX NewCellY).isvalid then g
  else if NewCellX = CellX ∧ NewCellY = CellY then g
  else MovePiece g CellX CellY NewCellX NewCellY

/-- The piece content of one square. -/
def pieceAt (b : Board) (r c : Int) : Piece := (bget b r c).piece

/-- The two cell fields the simulate-and-rescan pipeline reads: the piece
content and the vulnerability flag. -/
def cellSim (x : Cell) : Piece × Bool := (x.piece, x.vulnerable)

/-- The cell fields the FinalValidation loop body restores exactly: piece
content, primary validity and the two en-passant pawn flags. -/
def cellKeep (x : Cell) : Piece × Bool × Bool × Bool :=
  (x.piece, x.primaryValid, x.PawnMovedTwo, x.JustMoved)

/-- Two well-formed boards agreeing on everything the simulation scan
reads. -/
def SimEqb (b1 b2 : Board) : Prop :=
  WFBoard b1 ∧ WFBoard b2 ∧ ∀ r c : Int, cellSim (bget b1 r c) = cellSim (bget b2 r c)

/-- Two well-formed boards with the same piece content everywhere. -/
def PieceEqb (b1 b2 : Board) : Prop :=
  WFBoard b1 ∧ WFBoard b2 ∧ ∀ r c : Int, (bget b1 r c).piece = (bget b2 r c).piece

/-- What one scanning pass writes: the vulnerability map always, and the
primary-validity map only for the side the pass generates moves for (under
`pv` — instantiated with `turn ≠ team`, an opponent scan — primary
validity is untouched).  Piece content, `isvalid` and the en-passant pawn
flags are never written. -/
def ScanWrites (p : Prop) (b b' : Board) : Prop :=
  WFBoard b' ∧ ∀ r c : Int,
    (bget b' r c).piece = (bget b r c).piece ∧
    (bget b' r c).isvalid = (bget b r c).isvalid ∧
    (bget b' r c).PawnMovedTwo = (bget b r c).PawnMovedTwo ∧
    (bget b' r c).JustMoved = (bget b r c).JustMoved ∧
    (p → (bget b' r c).primaryValid = (bget b r c).primaryValid)

/-- One square holding a king of the given team on a vulnerable square,
the test SimCheckValidation applies to every cell. -/
def kingDangerCell (t : Team) (x : Cell) : Bool :=
  decide (x.piece.team = t) && decide (x.piece.type = PIECE_KING) && x.vulnerable

/-- Some king of the given team stands on a vulnerable square. -/
def kingInDanger (b : Board) (t : Team) : Bool :=
  squaresRM.any fun rc => kingDangerCell t (bget b rc.1 rc.2)

/-- The simulate-and-rescan safety verdict for moving the piece of type
`p` from (x, y) to (r, c) on board `b` with `t` to move: run the shared
`SimPass` of move.c from a state with clear simulation flags and read the
mover's verdict back with `simSafe`. -/
def simMoveSafe (b : Board) (t : Team) (x y r c : Int) (p : PieceType) : Bool :=
  simSafe t (SimPass { zeroState with board := b, turn := t } x y r c p)

/-- What the simulation relocations write: piece content only; the five
transient cell flags are never touched. -/
def PieceWrites (b b' : Board) : Prop :=
  WFBoard b' ∧ ∀ r c : Int,
    (bget b' r c).isvalid = (bget b r c).isvalid ∧
    (bget b' r c).primaryValid = (bget b r c).primaryValid ∧
    (bget b' r c).vulnerable = (bget b r c).vulnerable ∧
    (bget b' r c).PawnMovedTwo = (bget b r c).PawnMovedTwo ∧
    (bget b' r c).JustMoved = (bget b r c).JustMoved

/-- The loop invariant of the FinalValidation double loop: the iterated
state keeps the side to move, its simulation flags stay clear, its board
stays well-formed and agrees with the original board on piece content,
primary validity and the en-passant pawn flags (only `isvalid` and
`vulnerable` evolve). -/
def FVInv (g0 gk : GameState) : Prop :=
  gk.turn = g0.turn ∧
  gk.whitePlayer.SimChecked = false ∧
  gk.blackPlayer.SimChecked = false ∧
  WFBoard gk.board ∧
  ∀ r c : Int, cellKeep (bget gk.board r c) = cellKeep (bget g0.board r c)

/-- A sparse test position: a white rook on (5, 0), the kings on (7, 4)
and (0, 4), and the square (4, 0) marked primary-valid for the rook. -/
def C1board : Board :=
  bmodify (bmodify (bmodify (bmodify emptyBoard
    5 0 (fun c => { c with piece := { type := PIECE_ROOK, team := TEAM_WHITE, hasMoved := true } }))
    7 4 (fun c => { c with piece := { type := PIECE_KING, team := TEAM_WHITE, hasMoved := true } }))
    0 4 (fun c => { c with piece := { type := PIECE_KING, team := TEAM_BLACK, hasMoved := true } }))
    4 0 (fun c => { c with primaryValid := true })

/-- The game state holding `C1board` with White to move. -/
def C1state : GameState := { zeroState with board := C1board }

/-- The column indices `[f, f+1, ..., f+n-1]`, the tail of a serialized
rank walk starting at file `f`. -/
def intCols : Int → Nat → List Int
  | _, 0 => []
  | f, n + 1 => f :: intCols (f + 1) n

/-- Definition following the specification's words (not the code): a
well-formed FEN castling-availability field is "-" or a nonempty
subsequence of "KQkq" in that order.  Used to compare the code's castling
parsing against the specification's notion of a malformed field. -/
def specCastlingFieldWellformed (s : List Char) : Bool :=
  decide (s ∈ [['-'], ['K'], ['Q'], ['k'], ['q'],
    ['K', 'Q'], ['K', 'k'], ['K', 'q'], ['Q', 'k'], ['Q', 'q'], ['k', 'q'],
    ['K', 'Q', 'k'], ['K', 'Q', 'q'], ['K', 'k', 'q'], ['Q', 'k', 'q'],
    ['K', 'Q', 'k', 'q']])

/-- The game state a parse phase carries, whether it succeeded or
failed. -/
def presState : PRes → GameState
  | .ok g _ => g
  | .fail g => g

/-- The minor-piece test of the insufficient-material scan: a knight or
bishop of the given side. -/
def isMinorOf (b : Board) (t : Team) (rc : Int × Int) : Bool :=
  decide (((bget b rc.1 rc.2).piece.type = PIECE_KNIGHT ∨
    (bget b rc.1 rc.2).piece.type = PIECE_BISHOP) ∧ (bget b rc.1 rc.2).piece.team = t)

/-- A bishop of the given side. -/
def isBishopOf (b : Board) (t : Team) (rc : Int × Int) : Bool :=
  decide ((bget b rc.1 rc.2).piece.type = PIECE_BISHOP ∧ (bget b rc.1 rc.2).piece.team = t)

/-- A queen, rook or pawn (of either side): mating material. -/
def isPQR (b : Board) (rc : Int × Int) : Bool :=
  decide ((bget b rc.1 rc.2).piece.type = PIECE_QUEEN ∨
    (bget b rc.1 rc.2).piece.type = PIECE_ROOK ∨
    (bget b rc.1 rc.2).piece.type = PIECE_PAWN)

/-- The square color of the last bishop of the given side along a square
list, starting from a default — exactly how the insufficient-material
scan threads its `BishopSquareColor` variables. -/
def lastBSC (b : Board) (t : Team) : List (Int × Int) → Int → Int
  | [], d => d
  | rc :: rest, d =>
    if isBishopOf b t rc then lastBSC b t rest ((rc.1 + rc.2) % 2)
    else lastBSC b t rest d

/-- Definition following the specification's words: the number of minor
pieces (knights and bishops) of one side on the board. -/
def specMinorCount (b : Board) (t : Team) : Nat :=
  (squaresRM.filter (isMinorOf b t)).length

/-- Definition following the specification's words (not the code): no
pawn, queen, or rook of either color remains, and either both sides have
zero minor pieces, or one side has exactly one minor piece and the other
zero, or each side has exactly one minor piece, both are bishops, and the
two bishops stand on squares of the same color (equal parity of
row+col). -/
def specInsufficientMaterial (b : Board) : Bool :=
  decide ((∀ rc ∈ squaresRM,
      ¬ ((bget b rc.1 rc.2).piece.type = PIECE_PAWN ∨
         (bget b rc.1 rc.2).piece.type = PIECE_QUEEN ∨
         (bget b rc.1 rc.2).piece.type = PIECE_ROOK)) ∧
    ((specMinorCount b TEAM_WHITE = 0 ∧ specMinorCount b TEAM_BLACK = 0) ∨
     (specMinorCount b TEAM_WHITE = 1 ∧ specMinorCount b TEAM_BLACK = 0) ∨
     (specMinorCount b TEAM_WHITE = 0 ∧ specMinorCount b TEAM_BLACK = 1) ∨
     (specMinorCount b TEAM_WHITE = 1 ∧ specMinorCount b TEAM_BLACK = 1 ∧
      ∃ wrc ∈ squaresRM, ∃ brc ∈ squaresRM,
        (bget b wrc.1 wrc.2).piece.type = PIECE_BISHOP ∧
        (bget b wrc.1 wrc.2).piece.team = TEAM_WHITE ∧
        (bget b brc.1 brc.2).piece.type = PIECE_BISHOP ∧
        (bget b brc.1 brc.2).piece.team = TEAM_BLACK ∧
        (wrc.1 + wrc.2) % 2 = (brc.1 + brc.2) % 2)))

theorem getD_set_self {α : Type} (l : List α) (n : Nat) (x d : α) (h : n < l.length) :
    (l.set n x).getD n d = x := by
  induction l generalizing n with
  | nil => simp at h
  | cons a l ih =>
    cases n with
    | zero => rfl
    | succ m => simpa using ih m (by simpa using h)

theorem getD_set_ne {α : Type} (l : List α) (m n : Nat) (x d : α) (h : m ≠ n) :
    (l.set m x).getD n d = l.getD n d := by
  induction l generalizing m n with
  | nil => rfl
  | cons a l ih =>
    cases m with
    | zero =>
      cases n with
      | zero => exact absurd rfl h
      | succ k => rfl
    | succ m' =>
      cases n with
      | zero => rfl
      | succ k => simpa using ih m' k (by omega)

theorem getD_map_lt {α β : Type} (f : α → β) (l : List α) (n : Nat) (d : β) (d' : α)
    (h : n < l.length) : (l.map f).getD n d = f (l.getD n d') := by
  induction l generalizing n with
  | nil => simp at h
  | cons a l ih =>
    cases n with
    | zero => rfl
    | succ m => simpa using ih m (by simpa using h)

theorem getD_length_le {α : Type} (l : List α) (n : Nat) (d : α) (h : l.length ≤ n) :
    l.getD n d = d := by
  induction l generalizing n with
  | nil => rfl
  | cons a l ih =>
    cases n with
    | zero => simp at h
    | succ m => simpa using ih m (by simpa using h)

theorem bget_out {b : Board} {r c : Int} (h : ¬ bIn r c) : bget b r c = emptyCell := by
  simp [bget, h]

theorem bset_out {b : Board} {r c : Int} {x : Cell} (h : ¬ bIn r c) : bset b r c x = b := by
  simp [bset, h]

theorem WFBoard_rowlen {b : Board} (hWF : WFBoard b) {r c : Int} (h : bIn r c) :
    r.toNat < b.length ∧ c.toNat < (b.getD r.toNat []).length := by
  obtain ⟨h1, h2⟩ := hWF
  obtain ⟨hr0, hr8, hc0, hc8⟩ := h
  have hrn : r.toNat < 8 := by omega
  have hcn : c.toNat < 8 := by omega
  exact ⟨by omega, by rw [h2 r.toNat hrn]; omega⟩

theorem bget_bset_self {b : Board} (hWF : WFBoard b) {r c : Int} (h : bIn r c) (x : Cell) :
    bget (bset b r c x) r c = x := by
  obtain ⟨hr, hc⟩ := WFBoard_rowlen hWF h
  simp only [bget, bset, if_pos h]
  rw [getD_set_self _ _ _ _ hr, getD_set_self _ _ _ _ hc]

theorem bget_bset_ne {b : Board} {r c r' c' : Int} (x : Cell)
    (h : ¬ (r = r' ∧ c = c')) : bget (bset b r c x) r' c' = bget b r' c' := by
  by_cases hin : bIn r c
  · by_cases hin' : bIn r' c'
    · simp only [bget, bset, if_pos hin, if_pos hin']
      by_cases hr : r = r'
      · subst hr
        have hc : c ≠ c' := fun hcc => h ⟨rfl, hcc⟩
        have hcn : c.toNat ≠ c'.toNat := by
          obtain ⟨h1, h2, h3, h4⟩ := hin
          obtain ⟨h5, h6, h7, h8⟩ := hin'
          omega
        by_cases hrlen : r.toNat < b.length
        · rw [getD_set_self _ _ _ _ hrlen, getD_set_ne _ _ _ _ _ hcn]
        · have hle : b.length ≤ r.toNat := Nat.le_of_not_lt hrlen
          have e1 : (b.set r.toNat ((b.getD r.toNat []).set c.toNat x)).getD r.toNat [] = [] :=
            getD_length_le _ _ _ (by rw [List.length_set]; exact hle)
          have e2 : b.getD r.toNat [] = [] := getD_length_le _ _ _ hle
          rw [e1, e2]
      · have hrn : r.toNat ≠ r'.toNat := by
          obtain ⟨h1, h2, h3, h4⟩ := hin
          obtain ⟨h5, h6, h7, h8⟩ := hin'
          omega
        rw [getD_set_ne _ _ _ _ _ hrn]
    · rw [bget_out hin', bget_out hin']
  · rw [bset_out hin]

theorem WFBoard_bset {b : Board} (hWF : WFBoard b) (r c : Int) (x : Cell) :
    WFBoard (bset b r c x) := by
  by_cases hin : bIn r c
  · obtain ⟨h1, h2⟩ := hWF
    simp only [bset, if_pos hin]
    constructor
    · rw [List.length_set]; exact h1
    · intro i hi
      by_cases hir : i = r.toNat
      · have hrlen : r.toNat < b.length := by
          rw [h1]
          obtain ⟨hx1, hx2, hx3, hx4⟩ := hin
          omega
        rw [hir, getD_set_self _ _ _ _ hrlen, List.length_set]
        exact h2 _ (hir ▸ hi)
      · rw [getD_set_ne _ _ _ _ _ (fun hh => hir hh.symm)]
        exact h2 i hi
  · rwa [bset_out hin]

theorem WFBoard_mapmap {b : Board} (f : Cell → Cell) (hWF : WFBoard b) :
    WFBoard (b.map fun row => row.map f) := by
  obtain ⟨h1, h2⟩ := hWF
  refine ⟨by simpa using h1, ?_⟩
  intro i hi
  rw [getD_map_lt _ _ _ _ [] (by omega)]
  simpa using h2 i hi

theorem bget_mapmap {b : Board} (f : Cell → Cell) (hWF : WFBoard b) {r c : Int}
    (h : bIn r c) : bget (b.map fun row => row.map f) r c = f (bget b r c) := by
  obtain ⟨hr, hc⟩ := WFBoard_rowlen hWF h
  simp only [bget, if_pos h]
  rw [getD_map_lt _ _ _ _ [] hr, getD_map_lt _ _ _ _ emptyCell hc]

theorem bget_bmodify_self {b : Board} (hWF : WFBoard b) {r c : Int} (h : bIn r c)
    (f : Cell → Cell) : bget (bmodify b r c f) r c = f (bget b r c) :=
  bget_bset_self hWF h _

theorem bget_bmodify_ne {b : Board} {r c r' c' : Int} (f : Cell → Cell)
    (h : ¬ (r = r' ∧ c = c')) : bget (bmodify b r c f) r' c' = bget b r' c' :=
  bget_bset_ne _ h

theorem WFBoard_bmodify {b : Board} (hWF : WFBoard b) (r c : Int) (f : Cell → Cell) :
    WFBoard (bmodify b r c f) := WFBoard_bset hWF _ _ _

/-- The state fields that the post-move settle machinery of move.c never
writes: clocks, en-passant column, the hash history, both stacks, the
repetition flag, the promotion state and the pending move, and the turn
(which only the explicit flip at the start of ResetsAndValidations
changes). -/
structure SF (g g' : GameState) : Prop where
  hHalf : g'.halfMoveClock = g.halfMoveClock
  hFull : g'.fullMoveNumber = g.fullMoveNumber
  hEp : g'.enPassantCol = g.enPassantCol
  hDHA : g'.DHA = g.DHA
  hUndo : g'.undoStack = g.undoStack
  hRedo : g'.redoStack = g.redoStack
  hRep : g'.isRepeated3times = g.isRepeated3times
  hProm : g'.isPromoting = g.isPromoting
  hPType : g'.promotionType = g.promotionType
  hPRow : g'.promotionRow = g.promotionRow
  hPCol : g'.promotionCol = g.promotionCol
  hPend : g'.pendingMove = g.pendingMove
  hTurn : g'.turn = g.turn

theorem SF_id {g : GameState} : SF g g :=
  ⟨rfl, rfl, rfl, rfl, rfl, rfl, rfl, rfl, rfl, rfl, rfl, rfl, rfl⟩

theorem SF_trans {g1 g2 g3 : GameState} (a : SF g1 g2) (b : SF g2 g3) : SF g1 g3 := by
  constructor <;> simp [a.hHalf, a.hFull, a.hEp, a.hDHA, a.hUndo, a.hRedo, a.hRep,
    a.hProm, a.hPType, a.hPRow, a.hPCol, a.hPend, a.hTurn,
    b.hHalf, b.hFull, b.hEp, b.hDHA, b.hUndo, b.hRedo, b.hRep,
    b.hProm, b.hPType, b.hPRow, b.hPCol, b.hPend, b.hTurn]

/-- Any update that only rewrites the board, the players and the three
end-of-game flags leaves every `SF` field alone. -/
theorem SF_core (g : GameState) (b : Board) (w bp : Player) (c s m : Bool) :
    SF g
      { g with
        board := b, whitePlayer := w, blackPlayer := bp,
        isCheckmate := c, isStalemate := s, isInsufficientMaterial := m } :=
  ⟨rfl, rfl, rfl, rfl, rfl, rfl, rfl, rfl, rfl, rfl, rfl, rfl, rfl⟩

/-- Composition step for `SF_core`. -/
theorem SF_step {g g1 : GameState} (h : SF g g1) (b : Board) (w bp : Player) (c s m : Bool) :
    SF g
      { g1 with
        board := b, whitePlayer := w, blackPlayer := bp,
        isCheckmate := c, isStalemate := s, isInsufficientMaterial := m } :=
  SF_trans h (SF_core g1 b w bp c s m)

theorem SF_CheckValidationClear (g : GameState) : SF g (CheckValidationClear g) := by
  unfold CheckValidationClear
  split <;> exact SF_step SF_id _ _ _ _ _ _

theorem SF_CheckValidationFind (g : GameState) : SF g (CheckValidationFind g) := by
  unfold CheckValidationFind
  split
  · exact SF_id
  · split
    · split <;> exact SF_step SF_id _ _ _ _ _ _
    · exact SF_id

theorem SF_CheckValidation (g : GameState) : SF g (CheckValidation g) :=
  SF_trans (SF_CheckValidationClear g) (SF_CheckValidationFind _)

theorem SF_SimCheckValidation (g : GameState) : SF g (SimCheckValidation g) := by
  unfold SimCheckValidation
  generalize squaresRM = l
  induction l generalizing g with
  | nil => exact SF_id
  | cons rc rest ih =>
    rw [List.foldl_cons]
    refine SF_trans ?_ (ih _)
    dsimp only
    split
    · exact SF_id
    · split
      · split <;> exact SF_step SF_id _ _ _ _ _ _
      · exact SF_id

theorem SF_SimPass (g : GameState) (x y r c : Int) (p : PieceType) :
    SF g (SimPass g x y r c p) :=
  SF_trans (SF_step SF_id _ _ _ _ _ _) (SF_SimCheckValidation _)

theorem SF_SimRestore {g g1 : GameState} (h : SF g g1) (b : Board) (x y r c : Int)
    (p1 p2 : PieceType) (t2 : Team) : SF g (SimRestore g1 b x y r c p1 p2 t2) := by
  unfold SimRestore
  exact SF_step h _ _ _ _ _ _

theorem SF_FVbody (g : GameState) (x y : Int) (p : PieceType) (r c : Int) :
    SF g (FVbody g x y p r c) := by
  unfold FVbody
  dsimp only
  split
  · exact SF_SimRestore (SF_SimPass g x y r c p) _ _ _ _ _ _ _ _
  · exact SF_id

theorem SF_PrimaryCastlingValidation (g : GameState) :
    SF g (PrimaryCastlingValidation g) := by
  unfold PrimaryCastlingValidation
  split <;> split <;> first | exact SF_id | exact SF_step SF_id _ _ _ _ _ _

theorem SF_PrimaryEnpassantValidation (g : GameState) (r c : Int) :
    SF g (PrimaryEnpassantValidation g r c) := by
  unfold PrimaryEnpassantValidation
  split <;> split <;> first | exact SF_id | exact SF_step SF_id _ _ _ _ _ _

theorem SF_PrimaryValidation (g : GameState) (p : PieceType) (x y : Int) (sel : Bool) :
    SF g (PrimaryValidation g p x y sel) := by
  unfold PrimaryValidation
  cases p <;> dsimp only <;>
    first
      | exact SF_id
      | exact SF_step SF_id _ _ _ _ _ _
      | (split
         · exact SF_trans (SF_step SF_id _ _ _ _ _ _) (SF_PrimaryCastlingValidation _)
         · exact SF_step SF_id _ _ _ _ _ _)
      | (split
         · exact SF_trans (SF_step SF_id _ _ _ _ _ _) (SF_PrimaryEnpassantValidation _ _ _)
         · exact SF_step SF_id _ _ _ _ _ _)

theorem SF_CMFCkl (i j : Int) (p : PieceType) (l : List (Int × Int)) (g : GameState) :
    SF g (CMFCkl i j p l g).1 := by
  induction l generalizing g with
  | nil => exact SF_id
  | cons kl rest ih =>
    unfold CMFCkl
    split
    · dsimp only
      split
      · exact SF_step (SF_SimRestore (SF_SimPass g i j kl.1 kl.2 p) _ _ _ _ _ _ _ _) _ _ _ _ _ _
      · exact SF_trans (SF_SimRestore (SF_SimPass g i j kl.1 kl.2 p) _ _ _ _ _ _ _ _) (ih _)
    · exact ih g

theorem SF_CMFCij (t : Team) (l : List (Int × Int)) (g : GameState) :
    SF g (CMFCij t l g).1 := by
  induction l generalizing g with
  | nil => exact SF_step SF_id _ _ _ _ _ _
  | cons ij rest ih =>
    unfold CMFCij
    dsimp only
    split
    · split
      · exact SF_trans (SF_PrimaryValidation _ _ _ _ false) (SF_CMFCkl _ _ _ _ _)
      · refine SF_trans ?_ (ih _)
        exact SF_step (SF_trans (SF_PrimaryValidation _ _ _ _ false) (SF_CMFCkl _ _ _ _ _))
          _ _ _ _ _ _
    · exact ih g

theorem SF_CheckmateFlagCheck (g : GameState) (t : Team) :
    SF g (CheckmateFlagCheck g t).1 :=
  SF_trans (SF_step SF_id _ _ _ _ _ _) (SF_CMFCij t squaresRM _)

theorem SF_StalemateValidation (g : GameState) : SF g (StalemateValidation g) := by
  unfold StalemateValidation StalemateClear
  dsimp only
  split
  · split
    · split <;>
        exact SF_step (SF_trans (SF_step SF_id _ _ _ _ _ _) (SF_CheckmateFlagCheck _ _))
          _ _ _ _ _ _
    · exact SF_step SF_id _ _ _ _ _ _
  · split
    · split <;>
        exact SF_step (SF_trans (SF_step SF_id _ _ _ _ _ _) (SF_CheckmateFlagCheck _ _))
          _ _ _ _ _ _
    · exact SF_step SF_id _ _ _ _ _ _

theorem SF_CMVwhite (g : GameState) : SF g (CMVwhite g) := by
  unfold CMVwhite
  split
  · dsimp only
    split <;> exact SF_step (SF_CheckmateFlagCheck _ _) _ _ _ _ _ _
  · exact SF_id

theorem SF_CMVblack (g : GameState) : SF g (CMVblack g) := by
  unfold CMVblack
  split
  · dsimp only
    split <;> exact SF_step (SF_CheckmateFlagCheck _ _) _ _ _ _ _ _
  · exact SF_id

theorem SF_CheckmateValidation (g : GameState) : SF g (CheckmateValidation g) :=
  SF_trans (SF_CMVwhite g) (SF_CMVblack _)

theorem SF_CheckInsufficientMaterial (g : GameState) :
    SF g (CheckInsufficientMaterial g) := by
  unfold CheckInsufficientMaterial
  split
  · exact SF_step SF_id _ _ _ _ _ _
  · split
    · exact SF_step SF_id _ _ _ _ _ _
    · split
      · exact SF_step SF_id _ _ _ _ _ _
      · split
        · split <;> exact SF_step SF_id _ _ _ _ _ _
        · exact SF_step SF_id _ _ _ _ _ _

theorem SF_RAVcheckmatePhase (g : GameState) : SF g (RAVcheckmatePhase g) := by
  unfold RAVcheckmatePhase
  split
  · split
    · exact SF_CheckmateValidation g
    · exact SF_id
  · split
    · split
      · exact SF_CheckmateValidation g
      · exact SF_id
    · exact SF_id

/-- The post-move settle preserves every field in `SF` relative to the
turn-flipped input state. -/
theorem SF_RAVscanned (g : GameState) :
    SF { g with turn := otherTeam g.turn } (RAVscanned g) := by
  unfold RAVscanned
  dsimp only
  exact SF_trans (SF_core _ _ _ _ _ _ _) (SF_CheckValidation _)

theorem SF_ResetsAndValidations (g : GameState) :
    SF { g with turn := otherTeam g.turn } (ResetsAndValidations g) := by
  unfold ResetsAndValidations
  exact SF_trans
    (SF_trans (SF_trans (SF_RAVscanned g) (SF_StalemateValidation _))
      (SF_RAVcheckmatePhase _))
    (SF_CheckInsufficientMaterial _)

theorem bmodify_out {b : Board} {r c : Int} (f : Cell → Cell) (h : ¬ bIn r c) :
    bmodify b r c f = b := bset_out h

theorem SimEqb_piece {b1 b2 : Board} (h : SimEqb b1 b2) (r c : Int) :
    (bget b1 r c).piece = (bget b2 r c).piece := congrArg Prod.fst (h.2.2 r c)

theorem SimEqb_vuln {b1 b2 : Board} (h : SimEqb b1 b2) (r c : Int) :
    (bget b1 r c).vulnerable = (bget b2 r c).vulnerable := congrArg Prod.snd (h.2.2 r c)

theorem SimEqb_bmodify {b1 b2 : Board} (h : SimEqb b1 b2) (r c : Int) (f : Cell → Cell)
    (hf : ∀ x y : Cell, cellSim x = cellSim y → cellSim (f x) = cellSim (f y)) :
    SimEqb (bmodify b1 r c f) (bmodify b2 r c f) := by
  obtain ⟨w1, w2, hs⟩ := h
  refine ⟨WFBoard_bmodify w1 _ _ _, WFBoard_bmodify w2 _ _ _, ?_⟩
  intro r' c'
  by_cases hin : bIn r c
  · by_cases he : r = r' ∧ c = c'
    · obtain ⟨h1, h2⟩ := he
      subst h1; subst h2
      rw [bget_bmodify_self w1 hin, bget_bmodify_self w2 hin]
      exact hf _ _ (hs r c)
    · rw [bget_bmodify_ne _ he, bget_bmodify_ne _ he]
      exact hs r' c'
  · rw [bmodify_out _ hin, bmodify_out _ hin]
    exact hs r' c'

theorem SimEqb_markVuln {b1 b2 : Board} (h : SimEqb b1 b2) (r c : Int) :
    SimEqb (markVuln b1 r c) (markVuln b2 r c) :=
  SimEqb_bmodify h r c _ (fun x y hxy => by
    have hp : x.piece = y.piece := congrArg Prod.fst hxy
    simp only [cellSim, hp])

theorem SimEqb_markPV {b1 b2 : Board} (h : SimEqb b1 b2) (r c : Int) :
    SimEqb (markPV b1 r c) (markPV b2 r c) :=
  SimEqb_bmodify h r c _ (fun x y hxy => hxy)

theorem ScanWrites_refl {p : Prop} {b : Board} (hwf : WFBoard b) : ScanWrites p b b :=
  ⟨hwf, fun _ _ => ⟨rfl, rfl, rfl, rfl, fun _ => rfl⟩⟩

theorem ScanWrites_trans {p : Prop} {b b' b'' : Board}
    (h1 : ScanWrites p b b') (h2 : ScanWrites p b' b'') : ScanWrites p b b'' := by
  obtain ⟨w1, f1⟩ := h1
  obtain ⟨w2, f2⟩ := h2
  refine ⟨w2, fun r c => ?_⟩
  obtain ⟨a1, a2, a3, a4, a5⟩ := f1 r c
  obtain ⟨d1, d2, d3, d4, d5⟩ := f2 r c
  exact ⟨d1.trans a1, d2.trans a2, d3.trans a3, d4.trans a4,
    fun hp => (d5 hp).trans (a5 hp)⟩

theorem ScanWrites_bmodify {p : Prop} {b : Board} (hwf : WFBoard b) (r c : Int)
    (f : Cell → Cell)
    (hf : ∀ x : Cell, (f x).piece = x.piece ∧ (f x).isvalid = x.isvalid ∧
      (f x).PawnMovedTwo = x.PawnMovedTwo ∧ (f x).JustMoved = x.JustMoved ∧
      (p → (f x).primaryValid = x.primaryValid)) :
    ScanWrites p b (bmodify b r c f) := by
  refine ⟨WFBoard_bmodify hwf _ _ _, fun r' c' => ?_⟩
  by_cases hin : bIn r c
  · by_cases he : r = r' ∧ c = c'
    · obtain ⟨h1, h2⟩ := he
      subst h1; subst h2
      rw [bget_bmodify_self hwf hin]
      exact hf _
    · rw [bget_bmodify_ne _ he]
      exact ⟨rfl, rfl, rfl, rfl, fun _ => rfl⟩
  · rw [bmodify_out _ hin]
    exact ⟨rfl, rfl, rfl, rfl, fun _ => rfl⟩

theorem ScanWrites_markVuln {p : Prop} {b : Board} (hwf : WFBoard b) (r c : Int) :
    ScanWrites p b (markVuln b r c) :=
  ScanWrites_bmodify hwf r c _ (fun _ => ⟨rfl, rfl, rfl, rfl, fun _ => rfl⟩)

theorem ScanWrites_markPV {p : Prop} {b : Board} (hwf : WFBoard b) (hnp : ¬ p)
    (r c : Int) : ScanWrites p b (markPV b r c) :=
  ScanWrites_bmodify hwf r c _
    (fun _ => ⟨rfl, rfl, rfl, rfl, fun hp => absurd hp hnp⟩)

theorem ScanWrites_wf {p : Prop} {b b' : Board} (h : ScanWrites p b b') : WFBoard b' :=
  h.1

theorem ScanWrites_markVuln_snoc {p : Prop} {b b' : Board} (h : ScanWrites p b b')
    (r c : Int) : ScanWrites p b (markVuln b' r c) :=
  ScanWrites_trans h (ScanWrites_markVuln h.1 r c)

theorem ScanWrites_markPV_snoc {p : Prop} {b b' : Board} (h : ScanWrites p b b')
    (hnp : ¬ p) (r c : Int) : ScanWrites p b (markPV b' r c) :=
  ScanWrites_trans h (ScanWrites_markPV h.1 hnp r c)

theorem ScanWrites_HLS (t tm : Team) {b : Board} (hwf : WFBoard b) (row col : Int) :
    ScanWrites (t ≠ tm) b (HandleLinearSquare t b row col tm).1 := by
  unfold HandleLinearSquare
  dsimp only
  split
  · dsimp only
    split
    · next h => exact ScanWrites_markPV hwf (fun hne => hne h) _ _
    · exact ScanWrites_markVuln hwf _ _
  · split
    · dsimp only
      split
      · next h => exact ScanWrites_markPV hwf (fun hne => hne h) _ _
      · exact ScanWrites_markVuln hwf _ _
    · dsimp only
      split
      · exact ScanWrites_markVuln hwf _ _
      · exact ScanWrites_refl hwf

theorem SimEqb_HLS (t tm : Team) {b1 b2 : Board} (h : SimEqb b1 b2) (row col : Int) :
    SimEqb (HandleLinearSquare t b1 row col tm).1 (HandleLinearSquare t b2 row col tm).1 ∧
    (HandleLinearSquare t b1 row col tm).2 = (HandleLinearSquare t b2 row col tm).2 := by
  unfold HandleLinearSquare
  dsimp only
  rw [SimEqb_piece h row col]
  split_ifs <;>
    first
    | exact ⟨SimEqb_markPV h _ _, rfl⟩
    | exact ⟨SimEqb_markVuln h _ _, rfl⟩
    | exact ⟨h, rfl⟩

theorem ScanWrites_rayWalk (t tm : Team) (dr dc : Int) (fuel : Nat) :
    ∀ {b : Board}, WFBoard b → ∀ r c : Int,
      ScanWrites (t ≠ tm) b (rayWalk t tm dr dc fuel b r c) := by
  induction fuel with
  | zero => intro b hwf r c; exact ScanWrites_refl hwf
  | succ n ih =>
    intro b hwf r c
    unfold rayWalk
    dsimp only
    split
    · split
      · exact ScanWrites_HLS t tm hwf r c
      · exact ScanWrites_trans (ScanWrites_HLS t tm hwf r c)
          (ih (ScanWrites_HLS t tm hwf r c).1 _ _)
    · exact ScanWrites_refl hwf

theorem SimEqb_rayWalk (t tm : Team) (dr dc : Int) (fuel : Nat) :
    ∀ {b1 b2 : Board}, SimEqb b1 b2 → ∀ r c : Int,
      SimEqb (rayWalk t tm dr dc fuel b1 r c) (rayWalk t tm dr dc fuel b2 r c) := by
  induction fuel with
  | zero => intro b1 b2 h r c; exact h
  | succ n ih =>
    intro b1 b2 h r c
    unfold rayWalk
    dsimp only
    by_cases hin : bIn r c
    · rw [if_pos hin, if_pos hin]
      have hh := SimEqb_HLS t tm h r c
      rw [hh.2]
      by_cases hstop : (HandleLinearSquare t b2 r c tm).2 = true
      · rw [if_pos hstop, if_pos hstop]
        exact hh.1
      · rw [if_neg hstop, if_neg hstop]
        exact ih hh.1 _ _
    · rw [if_neg hin, if_neg hin]
      exact h

theorem ScanWrites_RaycastRook (t tm : Team) {b : Board} (hwf : WFBoard b) (x y : Int) :
    ScanWrites (t ≠ tm) b (RaycastRook t b x y tm) := by
  unfold RaycastRook
  dsimp only
  have h1 := ScanWrites_rayWalk t tm 1 0 8 hwf (x + 1) y
  have h2 := ScanWrites_trans h1 (ScanWrites_rayWalk t tm (-1) 0 8 h1.1 (x - 1) y)
  have h3 := ScanWrites_trans h2 (ScanWrites_rayWalk t tm 0 1 8 h2.1 x (y + 1))
  exact ScanWrites_trans h3 (ScanWrites_rayWalk t tm 0 (-1) 8 h3.1 x (y - 1))

theorem ScanWrites_RaycastBishop (t tm : Team) {b : Board} (hwf : WFBoard b) (x y : Int) :
    ScanWrites (t ≠ tm) b (RaycastBishop t b x y tm) := by
  unfold RaycastBishop
  dsimp only
  have h1 := ScanWrites_rayWalk t tm 1 1 8 hwf (x + 1) (y + 1)
  have h2 := ScanWrites_trans h1 (ScanWrites_rayWalk t tm 1 (-1) 8 h1.1 (x + 1) (y - 1))
  have h3 := ScanWrites_trans h2 (ScanWrites_rayWalk t tm (-1) 1 8 h2.1 (x - 1) (y + 1))
  exact ScanWrites_trans h3 (ScanWrites_rayWalk t tm (-1) (-1) 8 h3.1 (x - 1) (y - 1))

theorem SimEqb_RaycastRook (t tm : Team) {b1 b2 : Board} (h : SimEqb b1 b2) (x y : Int) :
    SimEqb (RaycastRook t b1 x y tm) (RaycastRook t b2 x y tm) := by
  unfold RaycastRook
  dsimp only
  exact SimEqb_rayWalk t tm 0 (-1) 8
    (SimEqb_rayWalk t tm 0 1 8
      (SimEqb_rayWalk t tm (-1) 0 8
        (SimEqb_rayWalk t tm 1 0 8 h (x + 1) y) (x - 1) y) x (y + 1)) x (y - 1)

theorem SimEqb_RaycastBishop (t tm : Team) {b1 b2 : Board} (h : SimEqb b1 b2) (x y : Int) :
    SimEqb (RaycastBishop t b1 x y tm) (RaycastBishop t b2 x y tm) := by
  unfold RaycastBishop
  dsimp only
  exact SimEqb_rayWalk t tm (-1) (-1) 8
    (SimEqb_rayWalk t tm (-1) 1 8
      (SimEqb_rayWalk t tm 1 (-1) 8
        (SimEqb_rayWalk t tm 1 1 8 h (x + 1) (y + 1)) (x + 1) (y - 1)) (x - 1) (y + 1))
    (x - 1) (y - 1)

theorem ScanWrites_pawnFwd (t tm : Team) {b0 b : Board} (h : ScanWrites (t ≠ tm) b0 b)
    (R1 C1 R2 C2 : Int) (cond2 : Prop) [Decidable cond2] :
    ScanWrites (t ≠ tm) b0
      (if (bget b R1 C1).piece.type = PIECE_NONE then
        (if cond2 then
          (if (bget (if t = tm then markPV b R1 C1 else b) R2 C2).piece.type = PIECE_NONE then
            (if t = tm then markPV (if t = tm then markPV b R1 C1 else b) R2 C2
             else (if t = tm then markPV b R1 C1 else b))
           else (if t = tm then markPV b R1 C1 else b))
         else (if t = tm then markPV b R1 C1 else b))
       else b) := by
  have hA : ScanWrites (t ≠ tm) b0 (if t = tm then markPV b R1 C1 else b) := by
    by_cases ht : t = tm
    · rw [if_pos ht]
      exact ScanWrites_markPV_snoc h (fun hne => hne ht) _ _
    · rw [if_neg ht]
      exact h
  revert hA
  generalize (if t = tm then markPV b R1 C1 else b) = bA
  intro hA
  split_ifs with h1 h2 h3 h4
  · exact ScanWrites_markPV_snoc hA (fun hne => hne h4) _ _
  · exact hA
  · exact hA
  · exact hA
  · exact h

theorem SimEqb_pawnMarkPV (t tm : Team) {b1 b2 : Board} (h : SimEqb b1 b2) (R C : Int) :
    SimEqb (if t = tm then markPV b1 R C else b1) (if t = tm then markPV b2 R C else b2) := by
  by_cases ht : t = tm
  · rw [if_pos ht, if_pos ht]
    exact SimEqb_markPV h _ _
  · rw [if_neg ht, if_neg ht]
    exact h

theorem SimEqb_pawnFwd (t tm : Team) {b1 b2 : Board} (h : SimEqb b1 b2)
    (R1 C1 R2 C2 : Int) (cond2 : Prop) [Decidable cond2] :
    SimEqb
      (if (bget b1 R1 C1).piece.type = PIECE_NONE then
        (if cond2 then
          (if (bget (if t = tm then markPV b1 R1 C1 else b1) R2 C2).piece.type = PIECE_NONE then
            (if t = tm then markPV (if t = tm then markPV b1 R1 C1 else b1) R2 C2
             else (if t = tm then markPV b1 R1 C1 else b1))
           else (if t = tm then markPV b1 R1 C1 else b1))
         else (if t = tm then markPV b1 R1 C1 else b1))
       else b1)
      (if (bget b2 R1 C1).piece.type = PIECE_NONE then
        (if cond2 then
          (if (bget (if t = tm then markPV b2 R1 C1 else b2) R2 C2).piece.type = PIECE_NONE then
            (if t = tm then markPV (if t = tm then markPV b2 R1 C1 else b2) R2 C2
             else (if t = tm then markPV b2 R1 C1 else b2))
           else (if t = tm then markPV b2 R1 C1 else b2))
         else (if t = tm then markPV b2 R1 C1 else b2))
       else b2) := by
  have hA := SimEqb_pawnMarkPV t tm h R1 C1
  rw [SimEqb_piece h R1 C1, SimEqb_piece hA R2 C2]
  revert hA
  generalize (if t = tm then markPV b1 R1 C1 else b1) = bA1
  generalize (if t = tm then markPV b2 R1 C1 else b2) = bA2
  intro hA
  split_ifs with h1 h2 h3 h4
  · exact SimEqb_markPV hA _ _
  · exact hA
  · exact hA
  · exact hA
  · exact h

theorem ScanWrites_pawnDiag (t tm : Team) {b0 b : Board} (h : ScanWrites (t ≠ tm) b0 b)
    (R C : Int) :
    ScanWrites (t ≠ tm) b0
      (if (bget b R C).piece.team ≠ tm then
        (if t = tm ∧ (bget b R C).piece.type ≠ PIECE_NONE then markPV b R C
         else if t ≠ tm then markVuln b R C else b)
       else b) := by
  split_ifs with h1 h2 h3
  · exact ScanWrites_markPV_snoc h (fun hne => hne h2.1) _ _
  · exact ScanWrites_markVuln_snoc h _ _
  · exact h
  · exact h

theorem SimEqb_pawnDiag (t tm : Team) {b1 b2 : Board} (h : SimEqb b1 b2) (R C : Int) :
    SimEqb
      (if (bget b1 R C).piece.team ≠ tm then
        (if t = tm ∧ (bget b1 R C).piece.type ≠ PIECE_NONE then markPV b1 R C
         else if t ≠ tm then markVuln b1 R C else b1)
       else b1)
      (if (bget b2 R C).piece.team ≠ tm then
        (if t = tm ∧ (bget b2 R C).piece.type ≠ PIECE_NONE then markPV b2 R C
         else if t ≠ tm then markVuln b2 R C else b2)
       else b2) := by
  rw [SimEqb_piece h R C]
  split_ifs <;>
    first
    | exact SimEqb_markPV h _ _
    | exact SimEqb_markVuln h _ _
    | exact h

theorem ScanWrites_HandlePawnMove (t tm : Team) {b : Board} (hwf : WFBoard b)
    (x y : Int) (m : Bool) : ScanWrites (t ≠ tm) b (HandlePawnMove t b x y tm m) := by
  unfold HandlePawnMove
  dsimp only
  by_cases hc0 : tm = TEAM_BLACK ∧ x + 1 < 8
  · rw [if_pos hc0]
    by_cases hd2 : y - 1 ≥ 0
    · rw [if_pos hd2]
      refine ScanWrites_pawnDiag t tm ?_ (x + 1) (y - 1)
      by_cases hd1 : y + 1 < 8
      · rw [if_pos hd1]
        refine ScanWrites_pawnDiag t tm ?_ (x + 1) (y + 1)
        exact ScanWrites_pawnFwd t tm (ScanWrites_refl hwf) (x + 1) y (x + 2) y _
      · rw [if_neg hd1]
        exact ScanWrites_pawnFwd t tm (ScanWrites_refl hwf) (x + 1) y (x + 2) y _
    · rw [if_neg hd2]
      by_cases hd1 : y + 1 < 8
      · rw [if_pos hd1]
        refine ScanWrites_pawnDiag t tm ?_ (x + 1) (y + 1)
        exact ScanWrites_pawnFwd t tm (ScanWrites_refl hwf) (x + 1) y (x + 2) y _
      · rw [if_neg hd1]
        exact ScanWrites_pawnFwd t tm (ScanWrites_refl hwf) (x + 1) y (x + 2) y _
  · rw [if_neg hc0]
    by_cases hc1 : tm = TEAM_WHITE ∧ x - 1 ≥ 0
    · rw [if_pos hc1]
      by_cases hd2 : y + 1 < 8
      · rw [if_pos hd2]
        refine ScanWrites_pawnDiag t tm ?_ (x - 1) (y + 1)
        by_cases hd1 : y - 1 ≥ 0
        · rw [if_pos hd1]
          refine ScanWrites_pawnDiag t tm ?_ (x - 1) (y - 1)
          exact ScanWrites_pawnFwd t tm (ScanWrites_refl hwf) (x - 1) y (x - 2) y _
        · rw [if_neg hd1]
          exact ScanWrites_pawnFwd t tm (ScanWrites_refl hwf) (x - 1) y (x - 2) y _
      · rw [if_neg hd2]
        by_cases hd1 : y - 1 ≥ 0
        · rw [if_pos hd1]
          refine ScanWrites_pawnDiag t tm ?_ (x - 1) (y - 1)
          exact ScanWrites_pawnFwd t tm (ScanWrites_refl hwf) (x - 1) y (x - 2) y _
        · rw [if_neg hd1]
          exact ScanWrites_pawnFwd t tm (ScanWrites_refl hwf) (x - 1) y (x - 2) y _
    · rw [if_neg hc1]
      exact ScanWrites_refl hwf

theorem SimEqb_HandlePawnMove (t tm : Team) {b1 b2 : Board} (h : SimEqb b1 b2)
    (x y : Int) (m : Bool) :
    SimEqb (HandlePawnMove t b1 x y tm m) (HandlePawnMove t b2 x y tm m) := by
  unfold HandlePawnMove
  dsimp only
  by_cases hc0 : tm = TEAM_BLACK ∧ x + 1 < 8
  · rw [if_pos hc0, if_pos hc0]
    by_cases hd2 : y - 1 ≥ 0
    · rw [if_pos hd2, if_pos hd2]
      refine SimEqb_pawnDiag t tm ?_ (x + 1) (y - 1)
      by_cases hd1 : y + 1 < 8
      · rw [if_pos hd1, if_pos hd1]
        exact SimEqb_pawnDiag t tm
          (SimEqb_pawnFwd t tm h (x + 1) y (x + 2) y _) (x + 1) (y + 1)
      · rw [if_neg hd1, if_neg hd1]
        exact SimEqb_pawnFwd t tm h (x + 1) y (x + 2) y _
    · rw [if_neg hd2, if_neg hd2]
      by_cases hd1 : y + 1 < 8
      · rw [if_pos hd1, if_pos hd1]
        exact SimEqb_pawnDiag t tm
          (SimEqb_pawnFwd t tm h (x + 1) y (x + 2) y _) (x + 1) (y + 1)
      · rw [if_neg hd1, if_neg hd1]
        exact SimEqb_pawnFwd t tm h (x + 1) y (x + 2) y _
  · rw [if_neg hc0, if_neg hc0]
    by_cases hc1 : tm = TEAM_WHITE ∧ x - 1 ≥ 0
    · rw [if_pos hc1, if_pos hc1]
      by_cases hd2 : y + 1 < 8
      · rw [if_pos hd2, if_pos hd2]
        refine SimEqb_pawnDiag t tm ?_ (x - 1) (y + 1)
        by_cases hd1 : y - 1 ≥ 0
        · rw [if_pos hd1, if_pos hd1]
          exact SimEqb_pawnDiag t tm
            (SimEqb_pawnFwd t tm h (x - 1) y (x - 2) y _) (x - 1) (y - 1)
        · rw [if_neg hd1, if_neg hd1]
          exact SimEqb_pawnFwd t tm h (x - 1) y (x - 2) y _
      · rw [if_neg hd2, if_neg hd2]
        by_cases hd1 : y - 1 ≥ 0
        · rw [if_pos hd1, if_pos hd1]
          exact SimEqb_pawnDiag t tm
            (SimEqb_pawnFwd t tm h (x - 1) y (x - 2) y _) (x - 1) (y - 1)
        · rw [if_neg hd1, if_neg hd1]
          exact SimEqb_pawnFwd t tm h (x - 1) y (x - 2) y _
    · rw [if_neg hc1, if_neg hc1]
      exact h

theorem ScanWrites_weaken {p q : Prop} {b b' : Board} (h : ScanWrites p b b') (hp : p) :
    ScanWrites q b b' := by
  refine ⟨h.1, fun r c => ?_⟩
  obtain ⟨a1, a2, a3, a4, a5⟩ := h.2 r c
  exact ⟨a1, a2, a3, a4, fun _ => a5 hp⟩

theorem ScanWrites_HandleKnightSquare (t tm : Team) {b : Board} (hwf : WFBoard b)
    (row col : Int) : ScanWrites (t ≠ tm) b (HandleKnightSquare t b row col tm) := by
  unfold HandleKnightSquare
  split_ifs with h1 h2 h3
  · exact ScanWrites_markPV hwf (fun hne => hne h3) _ _
  · exact ScanWrites_markVuln hwf _ _
  · exact ScanWrites_refl hwf
  · exact ScanWrites_refl hwf

theorem SimEqb_HandleKnightSquare (t tm : Team) {b1 b2 : Board} (h : SimEqb b1 b2)
    (row col : Int) :
    SimEqb (HandleKnightSquare t b1 row col tm) (HandleKnightSquare t b2 row col tm) := by
  unfold HandleKnightSquare
  rw [SimEqb_piece h row col]
  split_ifs <;>
    first
    | exact SimEqb_markPV h _ _
    | exact SimEqb_markVuln h _ _
    | exact h

theorem ScanWrites_HandleKnightMove (t tm : Team) {b : Board} (hwf : WFBoard b)
    (x y : Int) : ScanWrites (t ≠ tm) b (HandleKnightMove t b x y tm) := by
  unfold HandleKnightMove
  dsimp only
  have h1 := ScanWrites_HandleKnightSquare t tm hwf (x + 2) (y - 1)
  have h2 := ScanWrites_trans h1 (ScanWrites_HandleKnightSquare t tm h1.1 (x + 2) (y + 1))
  have h3 := ScanWrites_trans h2 (ScanWrites_HandleKnightSquare t tm h2.1 (x - 2) (y - 1))
  have h4 := ScanWrites_trans h3 (ScanWrites_HandleKnightSquare t tm h3.1 (x - 2) (y + 1))
  have h5 := ScanWrites_trans h4 (ScanWrites_HandleKnightSquare t tm h4.1 (x - 1) (y + 2))
  have h6 := ScanWrites_trans h5 (ScanWrites_HandleKnightSquare t tm h5.1 (x + 1) (y + 2))
  have h7 := ScanWrites_trans h6 (ScanWrites_HandleKnightSquare t tm h6.1 (x - 1) (y - 2))
  exact ScanWrites_trans h7 (ScanWrites_HandleKnightSquare t tm h7.1 (x + 1) (y - 2))

theorem SimEqb_HandleKnightMove (t tm : Team) {b1 b2 : Board} (h : SimEqb b1 b2)
    (x y : Int) : SimEqb (HandleKnightMove t b1 x y tm) (HandleKnightMove t b2 x y tm) := by
  unfold HandleKnightMove
  dsimp only
  exact SimEqb_HandleKnightSquare t tm
    (SimEqb_HandleKnightSquare t tm
      (SimEqb_HandleKnightSquare t tm
        (SimEqb_HandleKnightSquare t tm
          (SimEqb_HandleKnightSquare t tm
            (SimEqb_HandleKnightSquare t tm
              (SimEqb_HandleKnightSquare t tm
                (SimEqb_HandleKnightSquare t tm h (x + 2) (y - 1))
                (x + 2) (y + 1))
              (x - 2) (y - 1))
            (x - 2) (y + 1))
          (x - 1) (y + 2))
        (x + 1) (y + 2))
      (x - 1) (y - 2))
    (x + 1) (y - 2)

theorem ScanWrites_kingStep (t tm : Team) {b : Board} (hwf : WFBoard b) (x y : Int)
    (off : Int × Int) :
    ScanWrites (t ≠ tm) b
      (if bIn (x + off.1) (y + off.2) ∧ ¬ (x + off.1 = x ∧ y + off.2 = y) then
        (if ¬ (bget b (x + off.1) (y + off.2)).vulnerable then
          (if (bget b (x + off.1) (y + off.2)).piece.team ≠ tm ∨
              (bget b (x + off.1) (y + off.2)).piece.type = PIECE_NONE then
            (if t = tm then markPV b (x + off.1) (y + off.2)
             else markVuln b (x + off.1) (y + off.2))
           else b)
         else b)
       else b) := by
  split_ifs with h1 h2 h3 h4 <;>
    first
    | exact ScanWrites_refl hwf
    | exact ScanWrites_markVuln hwf _ _
    | exact ScanWrites_markPV hwf (not_not_intro (by assumption)) _ _

theorem ScanWrites_HandleKingMove (t tm : Team) {b : Board} (hwf : WFBoard b)
    (x y : Int) : ScanWrites (t ≠ tm) b (HandleKingMove t b x y tm) := by
  unfold HandleKingMove
  generalize kingOffsets = l
  induction l generalizing b with
  | nil => exact ScanWrites_refl hwf
  | cons off rest ih =>
    rw [List.foldl_cons]
    dsimp only
    exact ScanWrites_trans (ScanWrites_kingStep t tm hwf x y off)
      (ih (ScanWrites_kingStep t tm hwf x y off).1)

theorem SimEqb_kingStep (t tm : Team) {b1 b2 : Board} (h : SimEqb b1 b2) (x y : Int)
    (off : Int × Int) :
    SimEqb
      (if bIn (x + off.1) (y + off.2) ∧ ¬ (x + off.1 = x ∧ y + off.2 = y) then
        (if ¬ (bget b1 (x + off.1) (y + off.2)).vulnerable then
          (if (bget b1 (x + off.1) (y + off.2)).piece.team ≠ tm ∨
              (bget b1 (x + off.1) (y + off.2)).piece.type = PIECE_NONE then
            (if t = tm then markPV b1 (x + off.1) (y + off.2)
             else markVuln b1 (x + off.1) (y + off.2))
           else b1)
         else b1)
       else b1)
      (if bIn (x + off.1) (y + off.2) ∧ ¬ (x + off.1 = x ∧ y + off.2 = y) then
        (if ¬ (bget b2 (x + off.1) (y + off.2)).vulnerable then
          (if (bget b2 (x + off.1) (y + off.2)).piece.team ≠ tm ∨
              (bget b2 (x + off.1) (y + off.2)).piece.type = PIECE_NONE then
            (if t = tm then markPV b2 (x + off.1) (y + off.2)
             else markVuln b2 (x + off.1) (y + off.2))
           else b2)
         else b2)
       else b2) := by
  rw [SimEqb_piece h (x + off.1) (y + off.2), SimEqb_vuln h (x + off.1) (y + off.2)]
  split_ifs <;>
    first
    | exact SimEqb_markPV h _ _
    | exact SimEqb_markVuln h _ _
    | exact h

theorem SimEqb_HandleKingMove (t tm : Team) {b1 b2 : Board} (h : SimEqb b1 b2)
    (x y : Int) : SimEqb (HandleKingMove t b1 x y tm) (HandleKingMove t b2 x y tm) := by
  unfold HandleKingMove
  generalize kingOffsets = l
  induction l generalizing b1 b2 with
  | nil => exact h
  | cons off rest ih =>
    simp only [List.foldl_cons]
    exact ih (SimEqb_kingStep t tm h x y off)

theorem ScanWrites_MoveValidation (t tm : Team) {b : Board} (hwf : WFBoard b)
    (x y : Int) (ty : PieceType) (m : Bool) :
    ScanWrites (t ≠ tm) b (MoveValidation t b x y ty tm m) := by
  unfold MoveValidation
  cases ty
  · exact ScanWrites_refl hwf
  · exact ScanWrites_HandleKingMove t tm hwf x y
  · exact ScanWrites_trans (ScanWrites_RaycastRook t tm hwf x y)
      (ScanWrites_RaycastBishop t tm (ScanWrites_RaycastRook t tm hwf x y).1 x y)
  · exact ScanWrites_RaycastRook t tm hwf x y
  · exact ScanWrites_RaycastBishop t tm hwf x y
  · exact ScanWrites_HandleKnightMove t tm hwf x y
  · exact ScanWrites_HandlePawnMove t tm hwf x y m

theorem SimEqb_MoveValidation (t tm : Team) {b1 b2 : Board} (h : SimEqb b1 b2)
    (x y : Int) (ty : PieceType) (m : Bool) :
    SimEqb (MoveValidation t b1 x y ty tm m) (MoveValidation t b2 x y ty tm m) := by
  unfold MoveValidation
  cases ty
  · exact h
  · exact SimEqb_HandleKingMove t tm h x y
  · exact SimEqb_RaycastBishop t tm (SimEqb_RaycastRook t tm h x y) x y
  · exact SimEqb_RaycastRook t tm h x y
  · exact SimEqb_RaycastBishop t tm h x y
  · exact SimEqb_HandleKnightMove t tm h x y
  · exact SimEqb_HandlePawnMove t tm h x y m

theorem ScanWrites_ScanEnemyMoves (t : Team) {b : Board} (hwf : WFBoard b) :
    ScanWrites True b (ScanEnemyMoves t b) := by
  unfold ScanEnemyMoves
  generalize squaresRM = l
  induction l generalizing b with
  | nil => exact ScanWrites_refl hwf
  | cons rc rest ih =>
    rw [List.foldl_cons]
    dsimp only
    by_cases hc : (bget b rc.1 rc.2).piece.team = t ∨ (bget b rc.1 rc.2).piece.type = PIECE_NONE
    · rw [if_pos hc]
      exact ih hwf
    · rw [if_neg hc]
      have hstep := ScanWrites_MoveValidation t ((bget b rc.1 rc.2).piece.team) hwf
        rc.1 rc.2 ((bget b rc.1 rc.2).piece.type) ((bget b rc.1 rc.2).piece.hasMoved)
      have hne : t ≠ (bget b rc.1 rc.2).piece.team := fun he => hc (Or.inl he.symm)
      exact ScanWrites_trans (ScanWrites_weaken hstep hne) (ih hstep.1)

theorem SimEqb_ScanEnemyMoves (t : Team) {b1 b2 : Board} (h : SimEqb b1 b2) :
    SimEqb (ScanEnemyMoves t b1) (ScanEnemyMoves t b2) := by
  unfold ScanEnemyMoves
  generalize squaresRM = l
  induction l generalizing b1 b2 with
  | nil => exact h
  | cons rc rest ih =>
    simp only [List.foldl_cons]
    rw [SimEqb_piece h rc.1 rc.2]
    by_cases hc : (bget b2 rc.1 rc.2).piece.team = t ∨ (bget b2 rc.1 rc.2).piece.type = PIECE_NONE
    · rw [if_pos hc, if_pos hc]
      exact ih h
    · rw [if_neg hc, if_neg hc]
      exact ih (SimEqb_MoveValidation t ((bget b2 rc.1 rc.2).piece.team) h rc.1 rc.2
        ((bget b2 rc.1 rc.2).piece.type) ((bget b2 rc.1 rc.2).piece.hasMoved))

theorem WF_MoveSimulation {b : Board} (hwf : WFBoard b) (x y r c : Int) (p : PieceType) :
    WFBoard (MoveSimulation b x y r c p) := by
  unfold MoveSimulation
  exact WFBoard_bmodify (WFBoard_bmodify (WFBoard_bmodify hwf r c _) x y _) r c _

theorem WF_UndoSimulation {b : Board} (hwf : WFBoard b) (x y r c : Int)
    (p1 p2 : PieceType) (tm2 : Team) : WFBoard (UndoSimulation b x y r c p1 p2 tm2) := by
  unfold UndoSimulation
  exact WFBoard_bmodify (WFBoard_bmodify (WFBoard_bmodify hwf x y _) r c _) r c _

theorem MoveSim_piece_other {b : Board} (x y r c : Int) (p : PieceType) {r' c' : Int}
    (hD : ¬ (r = r' ∧ c = c')) (hS : ¬ (x = r' ∧ y = c')) :
    (bget (MoveSimulation b x y r c p) r' c').piece = (bget b r' c').piece := by
  unfold MoveSimulation
  dsimp only
  rw [bget_bmodify_ne _ hD, bget_bmodify_ne _ hS, bget_bmodify_ne _ hD]

theorem MoveSim_piece_dst {b : Board} (hwf : WFBoard b) (x y r c : Int) (p : PieceType)
    (hD : bIn r c) :
    (bget (MoveSimulation b x y r c p) r c).piece =
      { (bget b r c).piece with team := (bget b x y).piece.team, type := p } := by
  unfold MoveSimulation
  dsimp only
  rw [bget_bmodify_self (WFBoard_bmodify (WFBoard_bmodify hwf r c _) x y _) hD]
  by_cases hSD : x = r ∧ y = c
  · obtain ⟨e1, e2⟩ := hSD
    subst e1
    subst e2
    rw [bget_bmodify_self (WFBoard_bmodify hwf x y _) hD, bget_bmodify_self hwf hD]
  · rw [bget_bmodify_ne _ hSD, bget_bmodify_self hwf hD]

theorem MoveSim_piece_src {b : Board} (hwf : WFBoard b) (x y r c : Int) (p : PieceType)
    (hS : bIn x y) (hSD : ¬ (r = x ∧ c = y)) :
    (bget (MoveSimulation b x y r c p) x y).piece =
      { (bget b x y).piece with type := PIECE_NONE } := by
  unfold MoveSimulation
  dsimp only
  rw [bget_bmodify_ne _ hSD, bget_bmodify_self (WFBoard_bmodify hwf r c _) hS,
    bget_bmodify_ne _ hSD]

theorem UndoSim_piece_other {b : Board} (x y r c : Int) (p1 p2 : PieceType) (tm2 : Team)
    {r' c' : Int} (hD : ¬ (r = r' ∧ c = c')) (hS : ¬ (x = r' ∧ y = c')) :
    (bget (UndoSimulation b x y r c p1 p2 tm2) r' c').piece = (bget b r' c').piece := by
  unfold UndoSimulation
  dsimp only
  rw [bget_bmodify_ne _ hD, bget_bmodify_ne _ hD, bget_bmodify_ne _ hS]

theorem UndoSim_piece_dst {b : Board} (hwf : WFBoard b) (x y r c : Int)
    (p1 p2 : PieceType) (tm2 : Team) (hD : bIn r c) :
    (bget (UndoSimulation b x y r c p1 p2 tm2) r c).piece =
      { (bget b r c).piece with type := p2, team := tm2 } := by
  unfold UndoSimulation
  dsimp only
  rw [bget_bmodify_self (WFBoard_bmodify (WFBoard_bmodify hwf x y _) r c _) hD,
    bget_bmodify_self (WFBoard_bmodify hwf x y _) hD]
  by_cases hSD : x = r ∧ y = c
  · obtain ⟨e1, e2⟩ := hSD
    subst e1
    subst e2
    rw [bget_bmodify_self hwf hD]
  · rw [bget_bmodify_ne _ hSD]

theorem UndoSim_piece_src {b : Board} (hwf : WFBoard b) (x y r c : Int)
    (p1 p2 : PieceType) (tm2 : Team) (hS : bIn x y) (hSD : ¬ (r = x ∧ c = y)) :
    (bget (UndoSimulation b x y r c p1 p2 tm2) x y).piece =
      { (bget b x y).piece with type := p1 } := by
  unfold UndoSimulation
  dsimp only
  rw [bget_bmodify_ne _ hSD, bget_bmodify_ne _ hSD, bget_bmodify_self hwf hS]

theorem sim_restore_pieces {bb bM : Board} (hwfb : WFBoard bb) (hwfM : WFBoard bM)
    (x y r c : Int) (p1 : PieceType)
    (hM : ∀ r' c' : Int,
      (bget bM r' c').piece = (bget (MoveSimulation bb x y r c p1) r' c').piece)
    (hp1 : (bget bb x y).piece.type = p1) (r' c' : Int) :
    (bget (UndoSimulation bM x y r c p1
        (bget bb r c).piece.type (bget bb r c).piece.team) r' c').piece =
      (bget bb r' c').piece := by
  by_cases hD : r = r' ∧ c = c'
  · obtain ⟨e1, e2⟩ := hD
    subst e1
    subst e2
    by_cases hDin : bIn r c
    · rw [UndoSim_piece_dst hwfM x y r c p1 _ _ hDin, hM r c,
        MoveSim_piece_dst hwfb x y r c p1 hDin]
    · rw [bget_out hDin, bget_out hDin]
  · by_cases hS : x = r' ∧ y = c'
    · obtain ⟨e1, e2⟩ := hS
      subst e1
      subst e2
      by_cases hSin : bIn x y
      · rw [UndoSim_piece_src hwfM x y r c p1 _ _ hSin hD, hM x y,
          MoveSim_piece_src hwfb x y r c p1 hSin hD, ← hp1]
      · rw [bget_out hSin, bget_out hSin]
    · rw [UndoSim_piece_other x y r c p1 _ _ hD hS, hM r' c',
        MoveSim_piece_other x y r c p1 hD hS]

theorem ScanWrites_ResetVulnerable {b : Board} (hwf : WFBoard b) :
    ScanWrites True b (ResetVulnerable b) := by
  refine ⟨WFBoard_mapmap _ hwf, fun r c => ?_⟩
  by_cases hin : bIn r c
  · rw [ResetVulnerable, bget_mapmap _ hwf hin]
    exact ⟨rfl, rfl, rfl, rfl, fun _ => rfl⟩
  · rw [ResetVulnerable, bget_out hin, bget_out hin]
    exact ⟨rfl, rfl, rfl, rfl, fun _ => rfl⟩

theorem SimEqb_ResetVulnerable {b1 b2 : Board} (h : PieceEqb b1 b2) :
    SimEqb (ResetVulnerable b1) (ResetVulnerable b2) := by
  obtain ⟨w1, w2, hp⟩ := h
  refine ⟨WFBoard_mapmap _ w1, WFBoard_mapmap _ w2, fun r c => ?_⟩
  by_cases hin : bIn r c
  · rw [ResetVulnerable, ResetVulnerable, bget_mapmap _ w1 hin, bget_mapmap _ w2 hin]
    exact congrArg (fun pc => (pc, false)) (hp r c)
  · rw [ResetVulnerable, ResetVulnerable, bget_out hin, bget_out hin]

theorem PieceEqb_MoveSimulation {b1 b2 : Board} (h : PieceEqb b1 b2) (x y r c : Int)
    (p : PieceType) :
    PieceEqb (MoveSimulation b1 x y r c p) (MoveSimulation b2 x y r c p) := by
  obtain ⟨w1, w2, hp⟩ := h
  refine ⟨WF_MoveSimulation w1 x y r c p, WF_MoveSimulation w2 x y r c p, fun r' c' => ?_⟩
  by_cases hD : r = r' ∧ c = c'
  · obtain ⟨e1, e2⟩ := hD
    subst e1
    subst e2
    by_cases hDin : bIn r c
    · rw [MoveSim_piece_dst w1 x y r c p hDin, MoveSim_piece_dst w2 x y r c p hDin,
        hp r c, hp x y]
    · rw [bget_out hDin, bget_out hDin]
  · by_cases hS : x = r' ∧ y = c'
    · obtain ⟨e1, e2⟩ := hS
      subst e1
      subst e2
      by_cases hSin : bIn x y
      · rw [MoveSim_piece_src w1 x y r c p hSin hD, MoveSim_piece_src w2 x y r c p hSin hD,
          hp x y]
      · rw [bget_out hSin, bget_out hSin]
    · rw [MoveSim_piece_other x y r c p hD hS, MoveSim_piece_other x y r c p hD hS, hp r' c']

theorem kingInDanger_congr {b1 b2 : Board} (h : SimEqb b1 b2) (t : Team) :
    kingInDanger b1 t = kingInDanger b2 t := by
  unfold kingInDanger
  generalize squaresRM = l
  induction l with
  | nil => rfl
  | cons rc rest ih =>
    have hk : kingDangerCell t (bget b1 rc.1 rc.2) = kingDangerCell t (bget b2 rc.1 rc.2) := by
      unfold kingDangerCell
      rw [SimEqb_piece h rc.1 rc.2, SimEqb_vuln h rc.1 rc.2]
    rw [List.any_cons, List.any_cons, hk, ih]

theorem SCV_fold (l : List (Int × Int)) :
    ∀ g : GameState,
      (l.foldl (fun g rc =>
        let thisCell := bget g.board rc.1 rc.2
        if thisCell.piece.team ≠ g.turn then g
        else if thisCell.piece.type = PIECE_KING ∧ thisCell.vulnerable then
          (if g.turn = TEAM_WHITE then { g with whitePlayer.SimChecked := true }
           else { g with blackPlayer.SimChecked := true })
        else g) g).board = g.board ∧
      (l.foldl (fun g rc =>
        let thisCell := bget g.board rc.1 rc.2
        if thisCell.piece.team ≠ g.turn then g
        else if thisCell.piece.type = PIECE_KING ∧ thisCell.vulnerable then
          (if g.turn = TEAM_WHITE then { g with whitePlayer.SimChecked := true }
           else { g with blackPlayer.SimChecked := true })
        else g) g).turn = g.turn ∧
      (l.foldl (fun g rc =>
        let thisCell := bget g.board rc.1 rc.2
        if thisCell.piece.team ≠ g.turn then g
        else if thisCell.piece.type = PIECE_KING ∧ thisCell.vulnerable then
          (if g.turn = TEAM_WHITE then { g with whitePlayer.SimChecked := true }
           else { g with blackPlayer.SimChecked := true })
        else g) g).whitePlayer.SimChecked =
        (g.whitePlayer.SimChecked ||
          (decide (g.turn = TEAM_WHITE) &&
            l.any fun rc => kingDangerCell g.turn (bget g.board rc.1 rc.2))) ∧
      (l.foldl (fun g rc =>
        let thisCell := bget g.board rc.1 rc.2
        if thisCell.piece.team ≠ g.turn then g
        else if thisCell.piece.type = PIECE_KING ∧ thisCell.vulnerable then
          (if g.turn = TEAM_WHITE then { g with whitePlayer.SimChecked := true }
           else { g with blackPlayer.SimChecked := true })
        else g) g).blackPlayer.SimChecked =
        (g.blackPlayer.SimChecked ||
          (decide (g.turn = TEAM_BLACK) &&
            l.any fun rc => kingDangerCell g.turn (bget g.board rc.1 rc.2))) := by
  induction l with
  | nil =>
    intro g
    simp
  | cons rc rest ih =>
    intro g
    simp only [List.foldl_cons]
    by_cases h1 : (bget g.board rc.1 rc.2).piece.team ≠ g.turn
    · rw [if_pos h1]
      obtain ⟨i1, i2, i3, i4⟩ := ih g
      refine ⟨i1, i2, ?_, ?_⟩
      · rw [i3, List.any_cons]
        have hk : kingDangerCell g.turn (bget g.board rc.1 rc.2) = false := by
          unfold kingDangerCell
          simp only [Bool.and_eq_false_iff]
          left
          left
          simpa using fun he => h1 he
        rw [hk]
        simp
      · rw [i4, List.any_cons]
        have hk : kingDangerCell g.turn (bget g.board rc.1 rc.2) = false := by
          unfold kingDangerCell
          simp only [Bool.and_eq_false_iff]
          left
          left
          simpa using fun he => h1 he
        rw [hk]
        simp
    · rw [if_neg h1]
      have hteam : (bget g.board rc.1 rc.2).piece.team = g.turn := by
        by_contra hc
        exact h1 hc
      by_cases h2 : (bget g.board rc.1 rc.2).piece.type = PIECE_KING ∧
          (bget g.board rc.1 rc.2).vulnerable = true
      · rw [if_pos h2]
        have hk : kingDangerCell g.turn (bget g.board rc.1 rc.2) = true := by
          unfold kingDangerCell
          simp [hteam, h2.1, h2.2]
        by_cases ht : g.turn = TEAM_WHITE
        · rw [if_pos ht]
          obtain ⟨i1, i2, i3, i4⟩ := ih { g with whitePlayer.SimChecked := true }
          refine ⟨i1, i2, ?_, ?_⟩
          · rw [i3, List.any_cons, hk]
            simp [ht]
          · rw [i4, List.any_cons, hk]
            simp [ht]
        · rw [if_neg ht]
          have htB : g.turn = TEAM_BLACK := by
            cases hq : g.turn
            · exact absurd hq ht
            · rfl
          obtain ⟨i1, i2, i3, i4⟩ := ih { g with blackPlayer.SimChecked := true }
          refine ⟨i1, i2, ?_, ?_⟩
          · rw [i3, List.any_cons, hk]
            simp [ht]
          · rw [i4, List.any_cons, hk]
            simp [htB, ht]
      · rw [if_neg h2]
        obtain ⟨i1, i2, i3, i4⟩ := ih g
        have hk : kingDangerCell g.turn (bget g.board rc.1 rc.2) = false := by
          unfold kingDangerCell
          rcases Bool.eq_false_or_eq_true (bget g.board rc.1 rc.2).vulnerable with hv | hv
          · have hty : ¬ (bget g.board rc.1 rc.2).piece.type = PIECE_KING :=
              fun he => h2 ⟨he, hv⟩
            simp [hty]
          · simp [hv]
        refine ⟨i1, i2, ?_, ?_⟩
        · rw [i3, List.any_cons, hk]
          simp
        · rw [i4, List.any_cons, hk]
          simp

theorem SCV_board (g : GameState) : (SimCheckValidation g).board = g.board := by
  have h := (SCV_fold squaresRM g).1
  unfold SimCheckValidation
  exact h

theorem SCV_turn (g : GameState) : (SimCheckValidation g).turn = g.turn := by
  have h := (SCV_fold squaresRM g).2.1
  unfold SimCheckValidation
  exact h

theorem SCV_simSafe_set (g : GameState) (B : Board)
    (hw : g.whitePlayer.SimChecked = false) (hb : g.blackPlayer.SimChecked = false) :
    simSafe g.turn (SimCheckValidation { g with board := B }) = ! kingInDanger B g.turn := by
  obtain ⟨i1, i2, i3, i4⟩ := SCV_fold squaresRM { g with board := B }
  unfold SimCheckValidation simSafe kingInDanger
  dsimp only at i3 i4 ⊢
  by_cases ht : g.turn = TEAM_WHITE
  · rw [if_pos ht, i3, hw]
    simp [ht]
  · rw [if_neg ht, i4, hb]
    have htB : g.turn = TEAM_BLACK := by
      cases hq : g.turn
      · exact absurd hq ht
      · rfl
    simp [htB]

theorem simSafe_SimPass (g : GameState) (hw : g.whitePlayer.SimChecked = false)
    (hb : g.blackPlayer.SimChecked = false) (x y r c : Int) (p : PieceType) :
    simSafe g.turn (SimPass g x y r c p) =
      ! kingInDanger
          (ScanEnemyMoves g.turn (ResetVulnerable (MoveSimulation g.board x y r c p)))
          g.turn := by
  unfold SimPass
  exact SCV_simSafe_set g
    (ScanEnemyMoves g.turn (ResetVulnerable (MoveSimulation g.board x y r c p))) hw hb

theorem simMoveSafe_eq (b : Board) (t : Team) (x y r c : Int) (p : PieceType) :
    simMoveSafe b t x y r c p =
      ! kingInDanger (ScanEnemyMoves t (ResetVulnerable (MoveSimulation b x y r c p))) t := by
  unfold simMoveSafe
  have h := simSafe_SimPass { zeroState with board := b, turn := t } rfl rfl x y r c p
  dsimp only at h
  exact h

theorem simMoveSafe_congr {b1 b2 : Board} (h : PieceEqb b1 b2) (t : Team)
    (x y r c : Int) (p : PieceType) :
    simMoveSafe b1 t x y r c p = simMoveSafe b2 t x y r c p := by
  rw [simMoveSafe_eq, simMoveSafe_eq]
  rw [kingInDanger_congr
    (SimEqb_ScanEnemyMoves t (SimEqb_ResetVulnerable (PieceEqb_MoveSimulation h x y r c p))) t]

theorem PieceWrites_refl {b : Board} (hwf : WFBoard b) : PieceWrites b b :=
  ⟨hwf, fun _ _ => ⟨rfl, rfl, rfl, rfl, rfl⟩⟩

theorem PieceWrites_trans {b b' b'' : Board} (h1 : PieceWrites b b')
    (h2 : PieceWrites b' b'') : PieceWrites b b'' := by
  refine ⟨h2.1, fun r c => ?_⟩
  obtain ⟨a1, a2, a3, a4, a5⟩ := h1.2 r c
  obtain ⟨d1, d2, d3, d4, d5⟩ := h2.2 r c
  exact ⟨d1.trans a1, d2.trans a2, d3.trans a3, d4.trans a4, d5.trans a5⟩

theorem PieceWrites_bmodify {b : Board} (hwf : WFBoard b) (r c : Int) (f : Cell → Cell)
    (hf : ∀ z : Cell, (f z).isvalid = z.isvalid ∧ (f z).primaryValid = z.primaryValid ∧
      (f z).vulnerable = z.vulnerable ∧ (f z).PawnMovedTwo = z.PawnMovedTwo ∧
      (f z).JustMoved = z.JustMoved) :
    PieceWrites b (bmodify b r c f) := by
  refine ⟨WFBoard_bmodify hwf r c f, fun r' c' => ?_⟩
  by_cases hin : bIn r c
  · by_cases he : r = r' ∧ c = c'
    · obtain ⟨e1, e2⟩ := he
      subst e1
      subst e2
      rw [bget_bmodify_self hwf hin]
      exact hf _
    · rw [bget_bmodify_ne _ he]
      exact ⟨rfl, rfl, rfl, rfl, rfl⟩
  · rw [bmodify_out _ hin]
    exact ⟨rfl, rfl, rfl, rfl, rfl⟩

theorem PieceWrites_MoveSimulation {b : Board} (hwf : WFBoard b) (x y r c : Int)
    (p : PieceType) : PieceWrites b (MoveSimulation b x y r c p) := by
  unfold MoveSimulation
  dsimp only
  have h1 := PieceWrites_bmodify hwf r c
    (fun z => { z with piece := { z.piece with team := (bget b x y).piece.team } })
    (fun z => ⟨rfl, rfl, rfl, rfl, rfl⟩)
  have h2 := PieceWrites_trans h1 (PieceWrites_bmodify h1.1 x y
    (fun z => { z with piece := { z.piece with type := PIECE_NONE } })
    (fun z => ⟨rfl, rfl, rfl, rfl, rfl⟩))
  exact PieceWrites_trans h2 (PieceWrites_bmodify h2.1 r c
    (fun z => { z with piece := { z.piece with type := p } })
    (fun z => ⟨rfl, rfl, rfl, rfl, rfl⟩))

theorem PieceWrites_UndoSimulation {b : Board} (hwf : WFBoard b) (x y r c : Int)
    (p1 p2 : PieceType) (tm2 : Team) : PieceWrites b (UndoSimulation b x y r c p1 p2 tm2) := by
  unfold UndoSimulation
  dsimp only
  have h1 := PieceWrites_bmodify hwf x y
    (fun z => { z with piece := { z.piece with type := p1 } })
    (fun z => ⟨rfl, rfl, rfl, rfl, rfl⟩)
  have h2 := PieceWrites_trans h1 (PieceWrites_bmodify h1.1 r c
    (fun z => { z with piece := { z.piece with type := p2 } })
    (fun z => ⟨rfl, rfl, rfl, rfl, rfl⟩))
  exact PieceWrites_trans h2 (PieceWrites_bmodify h2.1 r c
    (fun z => { z with piece := { z.piece with team := tm2 } })
    (fun z => ⟨rfl, rfl, rfl, rfl, rfl⟩))

theorem bmodify_piece {b : Board} (hwf : WFBoard b) (r c : Int) (f : Cell → Cell)
    (hf : ∀ z : Cell, (f z).piece = z.piece) (r' c' : Int) :
    (bget (bmodify b r c f) r' c').piece = (bget b r' c').piece := by
  by_cases hin : bIn r c
  · by_cases he : r = r' ∧ c = c'
    · obtain ⟨e1, e2⟩ := he
      subst e1
      subst e2
      rw [bget_bmodify_self hwf hin]
      exact hf _
    · rw [bget_bmodify_ne _ he]
  · rw [bmodify_out _ hin]

theorem cellKeep_piece {x y : Cell} (h : cellKeep x = cellKeep y) : x.piece = y.piece :=
  congrArg Prod.fst h

theorem cellKeep_pv {x y : Cell} (h : cellKeep x = cellKeep y) :
    x.primaryValid = y.primaryValid := congrArg (fun q => q.2.1) h

theorem cellKeep_pmt {x y : Cell} (h : cellKeep x = cellKeep y) :
    x.PawnMovedTwo = y.PawnMovedTwo := congrArg (fun q => q.2.2.1) h

theorem cellKeep_jm {x y : Cell} (h : cellKeep x = cellKeep y) :
    x.JustMoved = y.JustMoved := congrArg (fun q => q.2.2.2) h

theorem cellKeep_mk {x y : Cell} (h1 : x.piece = y.piece)
    (h2 : x.primaryValid = y.primaryValid) (h3 : x.PawnMovedTwo = y.PawnMovedTwo)
    (h4 : x.JustMoved = y.JustMoved) : cellKeep x = cellKeep y := by
  unfold cellKeep
  rw [h1, h2, h3, h4]

theorem bmodify_keep {α : Type} (proj : Cell → α) {b : Board} (hwf : WFBoard b)
    (r c : Int) (f : Cell → Cell) (hf : ∀ z : Cell, proj (f z) = proj z) (r' c' : Int) :
    proj (bget (bmodify b r c f) r' c') = proj (bget b r' c') := by
  by_cases hin : bIn r c
  · by_cases he : r = r' ∧ c = c'
    · obtain ⟨e1, e2⟩ := he
      subst e1
      subst e2
      rw [bget_bmodify_self hwf hin]
      exact hf _
    · rw [bget_bmodify_ne _ he]
  · rw [bmodify_out _ hin]

theorem SimPass_turn (g : GameState) (x y r c : Int) (p : PieceType) :
    (SimPass g x y r c p).turn = g.turn := by
  unfold SimPass
  have h := SCV_turn
    { g with
      board := ScanEnemyMoves g.turn (ResetVulnerable (MoveSimulation g.board x y r c p)) }
  dsimp only at h
  exact h

theorem SimPass_board (g : GameState) (x y r c : Int) (p : PieceType) :
    (SimPass g x y r c p).board =
      ScanEnemyMoves g.turn (ResetVulnerable (MoveSimulation g.board x y r c p)) := by
  unfold SimPass
  have h := SCV_board
    { g with
      board := ScanEnemyMoves g.turn (ResetVulnerable (MoveSimulation g.board x y r c p)) }
  dsimp only at h
  exact h

theorem SimRestore_fields (g1 : GameState) (b : Board) (x y r c : Int)
    (p1 p2 : PieceType) (t2 : Team) :
    (SimRestore g1 b x y r c p1 p2 t2).turn = g1.turn ∧
    (SimRestore g1 b x y r c p1 p2 t2).whitePlayer.SimChecked = false ∧
    (SimRestore g1 b x y r c p1 p2 t2).blackPlayer.SimChecked = false ∧
    (SimRestore g1 b x y r c p1 p2 t2).board =
      ScanEnemyMoves g1.turn (ResetVulnerable (UndoSimulation b x y r c p1 p2 t2)) := by
  dsimp only [SimRestore]
  exact ⟨rfl, rfl, rfl, rfl⟩

theorem FVbody_step (g0 : GameState) (x y : Int) (p : PieceType)
    (hwf0 : WFBoard g0.board) (hp : (bget g0.board x y).piece.type = p)
    {gk : GameState} (hinv : FVInv g0 gk) (r c : Int) :
    FVInv g0 (FVbody gk x y p r c) ∧
    ∀ r' c' : Int,
      (bget (FVbody gk x y p r c).board r' c').isvalid =
        (if r = r' ∧ c = c' ∧ (bget g0.board r c).primaryValid = true then
          simMoveSafe g0.board g0.turn x y r c p
        else (bget gk.board r' c').isvalid) := by
  obtain ⟨hT, hW, hB, hWF, hC⟩ := hinv
  by_cases hpv : (bget gk.board r c).primaryValid = true
  · -- the primary-valid case: one simulation pass and restore
    have hbin : bIn r c := by
      by_contra hnb
      rw [bget_out hnb] at hpv
      exact absurd hpv (by decide)
    have hpv0 : (bget g0.board r c).primaryValid = true := by
      rw [← cellKeep_pv (hC r c)]
      exact hpv
    have hbody : FVbody gk x y p r c =
        SimRestore (SimPass gk x y r c p)
          (bmodify (SimPass gk x y r c p).board r c
            (fun cc => { cc with isvalid := simSafe gk.turn (SimPass gk x y r c p) }))
          x y r c p ((bget gk.board r c).piece.type) ((bget gk.board r c).piece.team) := by
      unfold FVbody
      dsimp only
      rw [if_pos hpv]
    rw [hbody]
    have hfld := SimRestore_fields (SimPass gk x y r c p)
      (bmodify (SimPass gk x y r c p).board r c
        (fun cc => { cc with isvalid := simSafe gk.turn (SimPass gk x y r c p) }))
      x y r c p ((bget gk.board r c).piece.type) ((bget gk.board r c).piece.team)
    have hPE : PieceEqb gk.board g0.board :=
      ⟨hWF, hwf0, fun a b => cellKeep_piece (hC a b)⟩
    have hval : simSafe gk.turn (SimPass gk x y r c p)
        = simMoveSafe g0.board g0.turn x y r c p := by
      rw [simSafe_SimPass gk hW hB x y r c p, simMoveSafe_eq, hT,
        kingInDanger_congr (SimEqb_ScanEnemyMoves g0.turn
          (SimEqb_ResetVulnerable (PieceEqb_MoveSimulation hPE x y r c p))) g0.turn]
    -- well-formedness chain through the pipeline
    have wfM := WF_MoveSimulation hWF x y r c p
    have hswRV := ScanWrites_ResetVulnerable wfM
    have hswBS := ScanWrites_trans hswRV (ScanWrites_ScanEnemyMoves gk.turn hswRV.1)
    have wfBS := hswBS.1
    have wfMark := WFBoard_bmodify wfBS r c
      (fun cc => { cc with isvalid := simMoveSafe g0.board g0.turn x y r c p })
    have wfU := WF_UndoSimulation wfMark x y r c
      p ((bget gk.board r c).piece.type) ((bget gk.board r c).piece.team)
    have hswRVU := ScanWrites_ResetVulnerable wfU
    have hswBU := ScanWrites_trans hswRVU (ScanWrites_ScanEnemyMoves gk.turn hswRVU.1)
    have wfBU := hswBU.1
    have hboard : (SimRestore (SimPass gk x y r c p)
          (bmodify (SimPass gk x y r c p).board r c
            (fun cc => { cc with isvalid := simSafe gk.turn (SimPass gk x y r c p) }))
          x y r c p ((bget gk.board r c).piece.type) ((bget gk.board r c).piece.team)).board
        = ScanEnemyMoves gk.turn (ResetVulnerable (UndoSimulation
            (bmodify (ScanEnemyMoves gk.turn (ResetVulnerable (MoveSimulation gk.board x y r c p))) r c
              (fun cc => { cc with isvalid := simMoveSafe g0.board g0.turn x y r c p }))
            x y r c p ((bget gk.board r c).piece.type) ((bget gk.board r c).piece.team))) := by
      rw [hfld.2.2.2, SimPass_turn gk x y r c p, SimPass_board gk x y r c p]
      simp only [hval]
    have hpwM := PieceWrites_MoveSimulation hWF x y r c p
    have hpwU := PieceWrites_UndoSimulation wfMark x y r c
      p ((bget gk.board r c).piece.type) ((bget gk.board r c).piece.team)
    have hpk : (bget gk.board x y).piece.type = p := by
      rw [cellKeep_piece (hC x y)]
      exact hp
    have hMarkPiece : ∀ a b : Int,
        (bget (bmodify (ScanEnemyMoves gk.turn (ResetVulnerable (MoveSimulation gk.board x y r c p))) r c
          (fun cc => { cc with isvalid := simMoveSafe g0.board g0.turn x y r c p })) a b).piece
        = (bget (MoveSimulation gk.board x y r c p) a b).piece := by
      intro a b
      rw [bmodify_keep (fun z => z.piece) wfBS r c
        (fun cc => { cc with isvalid := simMoveSafe g0.board g0.turn x y r c p }) (fun z => rfl) a b]
      exact (hswBS.2 a b).1
    have hUPiece := sim_restore_pieces hWF wfMark x y r c p hMarkPiece hpk
    refine ⟨⟨?_, ?_, ?_, ?_, ?_⟩, ?_⟩
    · rw [hfld.1, SimPass_turn gk x y r c p]
      exact hT
    · rw [hfld.2.1]
    · rw [hfld.2.2.1]
    · rw [hboard]
      exact wfBU
    · intro a b
      rw [hboard]
      refine cellKeep_mk ?_ ?_ ?_ ?_ |>.trans (hC a b)
      · rw [(hswBU.2 a b).1]
        exact hUPiece a b
      · rw [(hswBU.2 a b).2.2.2.2 trivial, (hpwU.2 a b).2.1,
          bmodify_keep (fun z => z.primaryValid) wfBS r c
            (fun cc => { cc with isvalid := simMoveSafe g0.board g0.turn x y r c p }) (fun z => rfl) a b,
          (hswBS.2 a b).2.2.2.2 trivial, (hpwM.2 a b).2.1]
      · rw [(hswBU.2 a b).2.2.1, (hpwU.2 a b).2.2.2.1,
          bmodify_keep (fun z => z.PawnMovedTwo) wfBS r c
            (fun cc => { cc with isvalid := simMoveSafe g0.board g0.turn x y r c p }) (fun z => rfl) a b,
          (hswBS.2 a b).2.2.1, (hpwM.2 a b).2.2.2.1]
      · rw [(hswBU.2 a b).2.2.2.1, (hpwU.2 a b).2.2.2.2,
          bmodify_keep (fun z => z.JustMoved) wfBS r c
            (fun cc => { cc with isvalid := simMoveSafe g0.board g0.turn x y r c p }) (fun z => rfl) a b,
          (hswBS.2 a b).2.2.2.1, (hpwM.2 a b).2.2.2.2]
    · intro r' c'
      rw [hboard, (hswBU.2 r' c').2.1, (hpwU.2 r' c').1]
      by_cases he : r = r' ∧ c = c'
      · obtain ⟨e1, e2⟩ := he
        subst e1
        subst e2
        rw [if_pos ⟨rfl, rfl, hpv0⟩, bget_bmodify_self wfBS hbin]
      · rw [if_neg (fun hcond => he ⟨hcond.1, hcond.2.1⟩), bget_bmodify_ne _ he,
          (hswBS.2 r' c').2.1, (hpwM.2 r' c').1]
  · -- not primary-valid: the body does nothing
    have hpv0 : ¬ (bget g0.board r c).primaryValid = true := by
      rw [← cellKeep_pv (hC r c)]
      exact hpv
    have hid : FVbody gk x y p r c = gk := by
      unfold FVbody
      dsimp only
      rw [if_neg hpv]
    rw [hid]
    refine ⟨⟨hT, hW, hB, hWF, hC⟩, fun r' c' => ?_⟩
    rw [if_neg (fun hcond => hpv0 hcond.2.2)]

theorem FVepRecord_board (g : GameState) (x y : Int) (p : PieceType) :
    (FVepRecord g x y p).board = g.board := by
  unfold FVepRecord
  split_ifs <;> rfl

theorem FVfold (g0 : GameState) (x y : Int) (p : PieceType)
    (hwf0 : WFBoard g0.board) (hp : (bget g0.board x y).piece.type = p) :
    ∀ (l : List (Int × Int)) (gk : GameState), FVInv g0 gk →
      ∀ r c : Int,
        FVInv g0 (l.foldl (fun g rc => FVbody g x y p rc.1 rc.2) gk) ∧
        ((bget (l.foldl (fun g rc => FVbody g x y p rc.1 rc.2) gk).board r c).isvalid = true →
          (bget gk.board r c).isvalid = true ∨
          ((bget g0.board r c).primaryValid = true ∧
            simMoveSafe g0.board g0.turn x y r c p = true)) := by
  intro l
  induction l with
  | nil =>
    intro gk hinv r c
    exact ⟨hinv, fun h => Or.inl h⟩
  | cons rc rest ih =>
    intro gk hinv r c
    rw [List.foldl_cons]
    obtain ⟨hstep, hiso⟩ := FVbody_step g0 x y p hwf0 hp hinv rc.1 rc.2
    obtain ⟨hinv2, hrest⟩ := ih (FVbody gk x y p rc.1 rc.2) hstep r c
    refine ⟨hinv2, fun hval => ?_⟩
    rcases hrest hval with h1 | h2
    · rw [hiso r c] at h1
      by_cases hcond : rc.1 = r ∧ rc.2 = c ∧ (bget g0.board rc.1 rc.2).primaryValid = true
      · rw [if_pos hcond] at h1
        obtain ⟨e1, e2, hpvx⟩ := hcond
        subst e1
        subst e2
        exact Or.inr ⟨hpvx, h1⟩
      · rw [if_neg hcond] at h1
        exact Or.inl h1
    · exact Or.inr h2

/-- C1: every square that FinalValidation flags `isvalid` for the selected
piece is safe — re-running the shared simulate-and-rescan pass (`SimPass`,
from a state with clear simulation flags) for that move leaves the mover's
side not `SimChecked`, i.e. no king of the moving side stands on a
vulnerable square after the move is simulated and the opponent's threats
are rescanned. -/
theorem C1_legality_soundness (g : GameState) (x y r c : Int)
    (hwf : WFBoard g.board)
    (h0 : (bget g.board r c).isvalid = false)
    (hv : (bget (FinalValidation g x y true).board r c).isvalid = true) :
    (bget g.board r c).primaryValid = true ∧
    simMoveSafe g.board g.turn x y r c ((bget g.board x y).piece.type) = true := by
  have hFV : FinalValidation g x y true =
      FVepRecord
        (squaresRM.foldl
          (fun gg rcc => FVbody gg x y ((bget g.board x y).piece.type) rcc.1 rcc.2)
          { g with whitePlayer.SimChecked := false, blackPlayer.SimChecked := false })
        x y ((bget g.board x y).piece.type) := by
    unfold FinalValidation
    dsimp only
    rw [if_pos rfl]
  rw [hFV, FVepRecord_board] at hv
  have hinv0 : FVInv
      { g with whitePlayer.SimChecked := false, blackPlayer.SimChecked := false }
      { g with whitePlayer.SimChecked := false, blackPlayer.SimChecked := false } :=
    ⟨rfl, rfl, rfl, hwf, fun _ _ => rfl⟩
  have hfold := FVfold
    { g with whitePlayer.SimChecked := false, blackPlayer.SimChecked := false }
    x y ((bget g.board x y).piece.type) hwf rfl squaresRM
    { g with whitePlayer.SimChecked := false, blackPlayer.SimChecked := false }
    hinv0 r c
  rcases hfold.2 hv with h1 | h2
  · rw [h0] at h1
    exact absurd h1 (by decide)
  · exact h2

/-- Exact value of the `isvalid` flag after the FinalValidation loop:
squares visited with their primary flag set receive the simulate-and-
rescan verdict, every other square keeps its previous flag. -/
theorem FVfold_eq (g0 : GameState) (x y : Int) (p : PieceType)
    (hwf0 : WFBoard g0.board) (hp : (bget g0.board x y).piece.type = p) :
    ∀ (l : List (Int × Int)) (gk : GameState), FVInv g0 gk →
      ∀ r c : Int,
        (bget (l.foldl (fun g rc => FVbody g x y p rc.1 rc.2) gk).board r c).isvalid =
          (if (r, c) ∈ l ∧ (bget g0.board r c).primaryValid = true then
            simMoveSafe g0.board g0.turn x y r c p
          else (bget gk.board r c).isvalid) := by
  intro l
  induction l with
  | nil =>
    intro gk hinv r c
    rw [if_neg (fun hcond => List.not_mem_nil (r, c) hcond.1)]
    rfl
  | cons rc rest ih =>
    intro gk hinv r c
    rw [List.foldl_cons]
    obtain ⟨hstep, hiso⟩ := FVbody_step g0 x y p hwf0 hp hinv rc.1 rc.2
    rw [ih (FVbody gk x y p rc.1 rc.2) hstep r c, hiso r c]
    by_cases hpv : (bget g0.board r c).primaryValid = true
    · by_cases hmem : (r, c) ∈ rest
      · rw [if_pos ⟨hmem, hpv⟩, if_pos ⟨List.mem_cons_of_mem rc hmem, hpv⟩]
      · rw [if_neg (fun hcond => hmem hcond.1)]
        by_cases hhd : rc.1 = r ∧ rc.2 = c
        · have hrc : rc = (r, c) := Prod.ext hhd.1 hhd.2
          have hpv2 : (bget g0.board rc.1 rc.2).primaryValid = true := by
            rw [hhd.1, hhd.2]
            exact hpv
          have hm : (r, c) ∈ rc :: rest := by
            rw [← hrc]
            exact List.mem_cons_self rc rest
          rw [if_pos ⟨hhd.1, hhd.2, hpv2⟩, if_pos ⟨hm, hpv⟩, hhd.1, hhd.2]
        · have hnc : ¬ ((r, c) ∈ rc :: rest ∧ (bget g0.board r c).primaryValid = true) := by
            intro hcond
            rcases List.mem_cons.mp hcond.1 with he | hm2
            · exact hhd ⟨(congrArg Prod.fst he).symm, (congrArg Prod.snd he).symm⟩
            · exact hmem hm2
          rw [if_neg (fun hcond => hhd ⟨hcond.1, hcond.2.1⟩), if_neg hnc]
    · rw [if_neg (fun hcond => hpv hcond.2),
        if_neg (fun hcond => hpv (by rw [← hcond.1, ← hcond.2.1]; exact hcond.2.2)),
        if_neg (fun hcond => hpv hcond.2)]

/-- Witness for C1 at a concrete position: the rook lift (5,0) to (4,0)
is flagged by FinalValidation and indeed safe. -/
theorem C1_legality_soundness_witness :
    (bget C1state.board 4 0).primaryValid = true ∧
    simMoveSafe C1state.board C1state.turn 5 0 4 0 ((bget C1state.board 5 0).piece.type) = true :=
  C1_legality_soundness C1state 5 0 4 0 (by decide) (by decide)
    (by
      have hFV : FinalValidation C1state 5 0 true =
          FVepRecord
            (squaresRM.foldl
              (fun gg rcc => FVbody gg 5 0 ((bget C1state.board 5 0).piece.type) rcc.1 rcc.2)
              { C1state with whitePlayer.SimChecked := false, blackPlayer.SimChecked := false })
            5 0 ((bget C1state.board 5 0).piece.type) := by
        unfold FinalValidation
        dsimp only
        rw [if_pos rfl]
      rw [hFV, FVepRecord_board]
      rw [FVfold_eq
        { C1state with whitePlayer.SimChecked := false, blackPlayer.SimChecked := false }
        5 0 ((bget C1state.board 5 0).piece.type) (by decide) rfl squaresRM
        { C1state with whitePlayer.SimChecked := false, blackPlayer.SimChecked := false }
        ⟨rfl, rfl, rfl, by decide, fun _ _ => rfl⟩ 4 0]
      rw [if_pos ⟨by decide, by decide⟩, simMoveSafe_eq]
      decide)

theorem RFplacement_test : ∀ (s : List Char) (g : GameState) (rank file : Int),
    presState (RFplacement true s g rank file) = g := by
  intro s
  induction s with
  | nil =>
    intro g rank file
    rfl
  | cons ch cs ih =>
    intro g rank file
    unfold RFplacement
    dsimp only
    by_cases h1 : ch = nulChar ∨ ch = ' '
    · rw [if_pos h1]
      rfl
    · rw [if_neg h1]
      by_cases h2 : ch = '/'
      · rw [if_pos h2]
        by_cases h3 : rank + 1 ≥ 8
        · rw [if_pos h3]
          rfl
        · rw [if_neg h3]
          exact ih g (rank + 1) 0
      · rw [if_neg h2]
        by_cases h4 : cIsDigit ch = true
        · rw [if_pos h4]
          exact ih g rank _
        · rw [if_neg h4]
          by_cases h5 : ¬ cIsAlpha ch = true
          · rw [if_pos h5]
            rfl
          · rw [if_neg h5]
            by_cases h6 : rank < 0 ∨ rank ≥ 8 ∨ file < 0 ∨ file ≥ 8
            · rw [if_pos h6]
              exact ih g rank (file + 1)
            · rw [if_neg h6, if_pos rfl]
              exact ih g rank (file + 1)

theorem RFactiveColor_test (g : GameState) (s : List Char) :
    presState (RFactiveColor true g s) = g := by
  unfold RFactiveColor
  cases skipBlanksNul s with
  | nil => rfl
  | cons ch cs =>
    dsimp only
    by_cases h1 : ch = nulChar
    · rw [if_pos h1]
      rfl
    · rw [if_neg h1]
      by_cases h2 : cToLower ch ≠ 'w' ∧ cToLower ch ≠ 'b'
      · rw [if_pos h2]
        rfl
      · rw [if_neg h2, if_pos rfl]
        rfl

theorem RFsetRight_test (g : GameState) (chr : Char) : RFsetRight true g chr = g := by
  unfold RFsetRight
  rw [if_pos rfl]

theorem RFcastlingLoop_test : ∀ (s : List Char) (g : GameState) (chr : Char),
    presState (RFcastlingLoop true s g chr) = g := by
  intro s
  induction s with
  | nil =>
    intro g chr
    unfold RFcastlingLoop
    exact RFsetRight_test g chr
  | cons c2 rest ih =>
    intro g chr
    unfold RFcastlingLoop
    dsimp only
    rw [RFsetRight_test g chr]
    by_cases h : c2 = nulChar ∨ cIsBlank c2 = true
    · rw [if_pos h]
      rfl
    · rw [if_neg h]
      exact ih g c2

theorem RFcastling_test (g : GameState) (s : List Char) :
    presState (RFcastling true g s) = g := by
  unfold RFcastling
  cases skipBlanks s with
  | nil => rfl
  | cons ch cs =>
    dsimp only
    by_cases h1 : ch ≠ '-' ∧ cToLower ch ≠ 'k' ∧ cToLower ch ≠ 'q'
    · rw [if_pos h1]
      rfl
    · rw [if_neg h1, if_pos rfl]
      by_cases h2 : ch = '-'
      · rw [if_pos h2]
        rfl
      · rw [if_neg h2]
        exact RFcastlingLoop_test cs g ch

theorem RFenpassant_test (g : GameState) (s : List Char) :
    presState (RFenpassant true g s) = g := by
  unfold RFenpassant
  cases skipBlanks s with
  | nil => rfl
  | cons ch cs =>
    dsimp only
    by_cases h1 : ¬ charInSequence ch = true
    · rw [if_pos h1]
      rfl
    · rw [if_neg h1]
      by_cases h2 : ch = '-'
      · rw [if_pos h2, if_pos rfl]
        rfl
      · rw [if_neg h2, if_pos rfl]
        cases cs with
        | nil => rfl
        | cons c2 rest =>
          dsimp only
          by_cases h3 : ((c2.toNat : Int) - 48) < 1 ∨ ((c2.toNat : Int) - 48) > 8
          · rw [if_pos h3]
            rfl
          · rw [if_neg h3]
            rfl

/-- C10: in test-only mode ReadFEN never writes the game state — whatever
the input string and size, and whether parsing succeeds or fails, the
returned state is exactly the state passed in. -/
theorem C10_testonly_frame (g : GameState) (s : List Char) (size : Nat) :
    (ReadFEN g s size true).2 = g := by
  unfold ReadFEN
  dsimp only
  cases hP : RFplacement true (s.take size) g 0 0 with
  | fail g1 =>
    have h := RFplacement_test (s.take size) g 0 0
    rw [hP] at h
    exact h
  | ok g1 r1 =>
    have h1 : g1 = g := by
      have h := RFplacement_test (s.take size) g 0 0
      rw [hP] at h
      exact h
    dsimp only
    cases hA : RFactiveColor true g1 r1 with
    | fail g2 =>
      have h := RFactiveColor_test g1 r1
      rw [hA] at h
      exact h.trans h1
    | ok g2 r2 =>
      have h2 : g2 = g := by
        have h := RFactiveColor_test g1 r1
        rw [hA] at h
        exact h.trans h1
      dsimp only
      cases hC : RFcastling true g2 r2 with
      | fail g3 =>
        have h := RFcastling_test g2 r2
        rw [hC] at h
        exact h.trans h2
      | ok g3 r3 =>
        have h3 : g3 = g := by
          have h := RFcastling_test g2 r2
          rw [hC] at h
          exact h.trans h2
        dsimp only
        cases hE : RFenpassant true g3 r3 with
        | fail g4 =>
          have h := RFenpassant_test g3 r3
          rw [hE] at h
          exact h.trans h3
        | ok g4 r4 =>
          have h4 : g4 = g := by
            have h := RFenpassant_test g3 r3
            rw [hE] at h
            exact h.trans h3
          dsimp only
          cases parseTwoInts (r4 ++ s.drop size) with
          | none => exact h4
          | some hf =>
            cases hf with
            | mk hh ff =>
              dsimp only
              rw [if_pos rfl]
              exact h4

theorem set_getD_self {α : Type} (l : List α) (n : Nat) (d : α) :
    l.set n (l.getD n d) = l := by
  induction l generalizing n with
  | nil => rfl
  | cons a tl ih =>
    cases n with
    | zero => rfl
    | succ m =>
      show a :: tl.set m (tl.getD m d) = a :: tl
      rw [ih m]

theorem bmodify_id {b : Board} {r c : Int} {f : Cell → Cell}
    (h : f (bget b r c) = bget b r c) : bmodify b r c f = b := by
  unfold bmodify bset
  by_cases hin : bIn r c
  · rw [if_pos hin, h]
    unfold bget
    rw [if_pos hin]
    rw [set_getD_self (b.getD r.toNat []) c.toNat emptyCell]
    exact set_getD_self b r.toNat []
  · rw [if_neg hin]

theorem LoadPiece_self {b : Board} {r c : Int} {ty : PieceType} {tm : Team}
    (hty : (bget b r c).piece.type = ty) (htm : (bget b r c).piece.team = tm) :
    LoadPiece b r c ty tm = b := by
  unfold LoadPiece
  apply bmodify_id
  rw [← hty, ← htm]

theorem colsList_eq : colsList = intCols 0 8 := by decide

theorem digitChar_ne (cnt : Nat) (h1 : 1 ≤ cnt) (h8 : cnt ≤ 8) :
    ¬ (Char.ofNat (48 + cnt) = nulChar ∨ Char.ofNat (48 + cnt) = ' ') := by
  interval_cases cnt <;> decide

theorem digitChar_ne_slash (cnt : Nat) (h1 : 1 ≤ cnt) (h8 : cnt ≤ 8) :
    ¬ Char.ofNat (48 + cnt) = '/' := by
  interval_cases cnt <;> decide

theorem digitChar_isDigit (cnt : Nat) (h1 : 1 ≤ cnt) (h8 : cnt ≤ 8) :
    cIsDigit (Char.ofNat (48 + cnt)) = true := by
  interval_cases cnt <;> decide

theorem digitChar_toNat (cnt : Nat) (h1 : 1 ≤ cnt) (h8 : cnt ≤ 8) :
    (Char.ofNat (48 + cnt)).toNat = 48 + cnt := by
  interval_cases cnt <;> decide

theorem RFdigit_step (g : GameState) (r fl : Int) (cnt : Nat) (h1 : 1 ≤ cnt)
    (h8 : cnt ≤ 8) (hle : fl + (cnt : Int) ≤ 8) (cs : List Char) :
    RFplacement false (Char.ofNat (48 + cnt) :: cs) g r fl =
      RFplacement false cs g r (fl + (cnt : Int)) := by
  conv_lhs => unfold RFplacement
  try dsimp only
  rw [if_neg (digitChar_ne cnt h1 h8), if_neg (digitChar_ne_slash cnt h1 h8),
    if_pos (digitChar_isDigit cnt h1 h8), digitChar_toNat cnt h1 h8,
    if_neg (by push_cast; omega),
    show fl + (((48 + cnt : Nat) : Int) - 48) = fl + (cnt : Int) from by push_cast; ring]

theorem RFletter_step (g : GameState) (r f : Int) (hin : bIn r f)
    (hp : (bget g.board r f).piece.type ≠ PIECE_NONE) (cs : List Char) :
    RFplacement false
      ((if (bget g.board r f).piece.team = TEAM_BLACK
          then pieceLetter (bget g.board r f).piece.type
          else cToUpper (pieceLetter (bget g.board r f).piece.type)) :: cs) g r f =
      RFplacement false cs g r (f + 1) := by
  have hbound : ¬ (r < 0 ∨ r ≥ 8 ∨ f < 0 ∨ f ≥ 8) := by
    unfold bIn at hin
    omega
  cases hty : (bget g.board r f).piece.type <;>
    cases htm : (bget g.board r f).piece.team <;>
    first
    | exact absurd hty hp
    | (conv_lhs => unfold RFplacement
       try dsimp only
       rw [if_neg (by decide), if_neg (by decide), if_neg (by decide), if_neg (by decide),
         if_neg hbound, if_neg (by decide)]
       repeat rw [if_neg (by decide)]
       rw [if_pos (by decide)]
       rw [LoadPiece_self hty (by rw [htm]; decide)])

theorem RFrow_consume (g : GameState) (r : Int) (hr0 : 0 ≤ r) (hr8 : r < 8) :
    ∀ (n : Nat) (f : Int) (cnt : Nat) (rest : List Char),
      f + (n : Int) = 8 → (cnt : Int) ≤ f →
      RFplacement false (SaveFENrowAux g.board r (intCols f n) cnt ++ rest) g r
          (f - (cnt : Int)) =
        RFplacement false rest g r 8 := by
  intro n
  induction n with
  | zero =>
    intro f cnt rest hf hcnt
    have hf8 : f = 8 := by omega
    subst hf8
    simp only [intCols, SaveFENrowAux]
    by_cases hc : cnt = 0
    · subst hc
      rw [if_neg (by decide)]
      simp
    · rw [if_pos hc, List.singleton_append,
        RFdigit_step g r (8 - (cnt : Int)) cnt (Nat.one_le_iff_ne_zero.mpr hc)
          (by omega) (by omega) rest,
        show (8 : Int) - (cnt : Int) + (cnt : Int) = 8 from by ring]
  | succ m ih =>
    intro f cnt rest hf hcnt
    have hf7 : f < 8 := by omega
    have hin : bIn r f := by
      unfold bIn
      omega
    simp only [intCols, SaveFENrowAux]
    try dsimp only
    by_cases hp : (bget g.board r f).piece.type = PIECE_NONE
    · rw [if_neg (not_not_intro hp)]
      have h2 := ih (f + 1) (cnt + 1) rest (by push_cast; push_cast at hf; omega)
        (by push_cast; omega)
      rw [show f + 1 - ((cnt + 1 : Nat) : Int) = f - (cnt : Int) from by push_cast; ring] at h2
      exact h2
    · rw [if_pos hp]
      have h2 := ih (f + 1) 0 rest (by push_cast; push_cast at hf; omega) (by push_cast; omega)
      rw [show f + 1 - ((0 : Nat) : Int) = f + 1 from by push_cast; ring] at h2
      by_cases hc : cnt = 0
      · subst hc
        rw [if_neg (by decide)]
        rw [show f - ((0 : Nat) : Int) = f from by push_cast; ring]
        simp only [List.nil_append, List.singleton_append, List.cons_append,
          List.append_assoc]
        rw [RFletter_step g r f hin hp _]
        exact h2
      · rw [if_pos hc]
        simp only [List.nil_append, List.singleton_append, List.cons_append,
          List.append_assoc]
        rw [RFdigit_step g r (f - (cnt : Int)) cnt (Nat.one_le_iff_ne_zero.mpr hc)
          (by omega) (by omega) _,
          show f - (cnt : Int) + (cnt : Int) = f from by ring,
          RFletter_step g r f hin hp _]
        exact h2

theorem SaveFENplacement_explicit (b : Board) :
    SaveFENplacement b =
      SaveFENrowAux b 0 colsList 0 ++ '/' :: (SaveFENrowAux b 1 colsList 0 ++ '/' ::
      (SaveFENrowAux b 2 colsList 0 ++ '/' :: (SaveFENrowAux b 3 colsList 0 ++ '/' ::
      (SaveFENrowAux b 4 colsList 0 ++ '/' :: (SaveFENrowAux b 5 colsList 0 ++ '/' ::
      (SaveFENrowAux b 6 colsList 0 ++ '/' :: SaveFENrowAux b 7 colsList 0)))))) := by
  unfold SaveFENplacement
  rw [show List.range 8 = [0, 1, 2, 3, 4, 5, 6, 7] from by decide]
  simp [List.intercalate]

theorem RFslash_step (g : GameState) (rk rk' : Int) (h : rk' = rk + 1) (h8 : rk + 1 < 8)
    (rest : List Char) :
    RFplacement false ('/' :: rest) g rk 8 = RFplacement false rest g rk' 0 := by
  subst h
  conv_lhs => unfold RFplacement
  try dsimp only
  rw [if_neg (by decide), if_pos rfl, if_neg (by omega)]

theorem RFspace_stop (g : GameState) (rk fl : Int) (t : List Char) :
    RFplacement false (' ' :: t) g rk fl = .ok g (' ' :: t) := by
  conv_lhs => unfold RFplacement
  try dsimp only
  rw [if_pos (Or.inr rfl)]

theorem RFplacement_save (g : GameState) (tail : List Char) :
    RFplacement false (SaveFENplacement g.board ++ ' ' :: tail) g 0 0 =
      .ok g (' ' :: tail) := by
  have hrow : ∀ (r : Int), 0 ≤ r → r < 8 → ∀ rest : List Char,
      RFplacement false (SaveFENrowAux g.board r colsList 0 ++ rest) g r 0 =
        RFplacement false rest g r 8 := by
    intro r h0 h8 rest
    have h := RFrow_consume g r h0 h8 8 0 0 rest (by norm_num) (by norm_num)
    rw [show (0 : Int) - ((0 : Nat) : Int) = 0 from by norm_num] at h
    rw [colsList_eq]
    exact h
  rw [SaveFENplacement_explicit]
  simp only [List.append_assoc, List.cons_append]
  rw [hrow 0 (by norm_num) (by norm_num) _, RFslash_step g 0 1 (by norm_num) (by norm_num) _,
    hrow 1 (by norm_num) (by norm_num) _, RFslash_step g 1 2 (by norm_num) (by norm_num) _,
    hrow 2 (by norm_num) (by norm_num) _, RFslash_step g 2 3 (by norm_num) (by norm_num) _,
    hrow 3 (by norm_num) (by norm_num) _, RFslash_step g 3 4 (by norm_num) (by norm_num) _,
    hrow 4 (by norm_num) (by norm_num) _, RFslash_step g 4 5 (by norm_num) (by norm_num) _,
    hrow 5 (by norm_num) (by norm_num) _, RFslash_step g 5 6 (by norm_num) (by norm_num) _,
    hrow 6 (by norm_num) (by norm_num) _, RFslash_step g 6 7 (by norm_num) (by norm_num) _,
    hrow 7 (by norm_num) (by norm_num) _]
  exact RFspace_stop g 7 8 tail

theorem RFactiveColor_save (g : GameState) (rest : List Char) :
    RFactiveColor false g (' ' :: (if g.turn = TEAM_WHITE then 'w' else 'b') :: rest) =
      .ok g rest := by
  have hW : ∀ t : List Char, skipBlanksNul (' ' :: 'w' :: t) = 'w' :: t := by
    intro t
    unfold skipBlanksNul
    rw [if_pos (by decide)]
    unfold skipBlanksNul
    rw [if_neg (by decide)]
  have hB : ∀ t : List Char, skipBlanksNul (' ' :: 'b' :: t) = 'b' :: t := by
    intro t
    unfold skipBlanksNul
    rw [if_pos (by decide)]
    unfold skipBlanksNul
    rw [if_neg (by decide)]
  cases ht : g.turn
  · rw [if_pos rfl]
    unfold RFactiveColor
    rw [hW rest]
    dsimp only
    rw [if_neg (by decide), if_neg (by decide), if_neg (by decide),
      show (if cToLower 'w' = 'w' then TEAM_WHITE else TEAM_BLACK) = TEAM_WHITE from by decide,
      ← ht]
  · rw [if_neg (by decide)]
    unfold RFactiveColor
    rw [hB rest]
    dsimp only
    rw [if_neg (by decide), if_neg (by decide), if_neg (by decide),
      show (if cToLower 'b' = 'w' then TEAM_WHITE else TEAM_BLACK) = TEAM_BLACK from by decide,
      ← ht]

theorem RFcastling_save (g : GameState) (rest : List Char) :
    RFcastling false g (' ' :: (SaveFENrights g ++ ' ' :: rest)) = .ok g (' ' :: rest) := by
  obtain ⟨bo, tu, wp, bp, wks, wqs, bks, bqs, ep, hm, fm, icm, ism, ir3, iim, ipr, pty,
    prow, pcol, dha, us, rs, dw, db, pm⟩ := g
  cases wks <;> cases wqs <;> cases bks <;> cases bqs <;>
    (simp [RFcastling, RFcastlingLoop, RFsetRight, ZeroRights, skipBlanks, SaveFENrights,
      cIsBlank, nulChar]
     all_goals decide)

theorem epFileChar_inSeq (k : Nat) (h : k < 8) :
    charInSequence (Char.ofNat (97 + k)) = true := by
  interval_cases k <;> decide

theorem epFileChar_ne_dash (k : Nat) (h : k < 8) : ¬ Char.ofNat (97 + k) = '-' := by
  interval_cases k <;> decide

theorem epFileChar_notBlank (k : Nat) (h : k < 8) :
    cIsBlank (Char.ofNat (97 + k)) = false := by
  interval_cases k <;> decide

theorem epFileChar_val (k : Nat) (h : k < 8) :
    ((cToLower (Char.ofNat (97 + k))).toNat : Int) - 97 = (k : Int) := by
  interval_cases k <;> decide

theorem RFenpassant_save (g : GameState) (rest : List Char)
    (hep : g.enPassantCol = -1 ∨ 0 ≤ g.enPassantCol ∧ g.enPassantCol < 8) :
    RFenpassant false g (' ' :: (SaveFENep g ++ ' ' :: rest)) = .ok g (' ' :: rest) := by
  rcases hep with h | ⟨h0, h8⟩
  · unfold SaveFENep
    rw [if_neg (not_not_intro h)]
    simp only [List.singleton_append]
    unfold RFenpassant
    rw [show skipBlanks (' ' :: '-' :: ' ' :: rest) = '-' :: ' ' :: rest from by
      unfold skipBlanks
      rw [if_pos (by decide)]
      unfold skipBlanks
      rw [if_neg (by decide)]]
    dsimp only
    rw [if_neg (by decide), if_pos rfl, if_neg (by decide), ← h]
  · obtain ⟨k, hk8, hcol⟩ : ∃ k : Nat, k < 8 ∧ g.enPassantCol = (k : Int) :=
      ⟨g.enPassantCol.toNat, by omega, by omega⟩
    unfold SaveFENep
    rw [hcol, if_pos (by omega),
      show (97 + (k : Int)).toNat = 97 + k from by omega]
    simp only [List.cons_append, List.nil_append]
    unfold RFenpassant
    rw [show skipBlanks (' ' :: Char.ofNat (97 + k) ::
          (if g.turn = TEAM_WHITE then '6' else '3') :: ' ' :: rest) =
        Char.ofNat (97 + k) :: (if g.turn = TEAM_WHITE then '6' else '3') :: ' ' :: rest from by
      unfold skipBlanks
      rw [if_pos (by decide)]
      unfold skipBlanks
      rw [if_neg (by rw [epFileChar_notBlank k hk8]; exact Bool.false_ne_true)]]
    dsimp only
    rw [if_neg (not_not_intro (epFileChar_inSeq k hk8)), if_neg (epFileChar_ne_dash k hk8)]
    cases ht : g.turn
    all_goals first
      | rw [if_pos rfl]
      | rw [if_neg (by decide)]
    all_goals try dsimp only
    all_goals try rw [if_neg (by decide)]
    all_goals try rw [if_neg (by decide)]
    all_goals rw [epFileChar_val k hk8, ← hcol, ← ht]

theorem digitChar10_isDigit (n : Nat) (h : n < 10) :
    cIsDigit (Char.ofNat (48 + n)) = true := by
  interval_cases n <;> decide

theorem digitChar10_toNat (n : Nat) (h : n < 10) :
    (Char.ofNat (48 + n)).toNat = 48 + n := by
  interval_cases n <;> decide

theorem parseDecAux_stop (tail : List Char) (acc : Nat)
    (h : match tail with | [] => True | c :: _ => cIsDigit c = false) :
    parseDecAux tail acc = (acc, tail) := by
  cases tail with
  | nil => rfl
  | cons c cs =>
    conv_lhs => unfold parseDecAux
    rw [if_neg (by rw [h]; exact Bool.false_ne_true)]

theorem parseDecAux_digits : ∀ (fuel n acc : Nat) (rest : List Char), n < fuel →
    parseDecAux (natDigitsAux fuel n ++ rest) acc =
      parseDecAux rest (acc * 10 ^ (natDigitsAux fuel n).length + n) := by
  intro fuel
  induction fuel with
  | zero =>
    intro n acc rest h
    exact absurd h (Nat.not_lt_zero n)
  | succ f ih =>
    intro n acc rest hfuel
    by_cases h10 : n < 10
    · simp only [natDigitsAux]
      rw [if_pos h10, List.singleton_append]
      conv_lhs => unfold parseDecAux
      rw [if_pos (digitChar10_isDigit n h10), digitChar10_toNat n h10]
      rw [show acc * 10 + (48 + n - 48) = acc * 10 ^ ([Char.ofNat (48 + n)].length) + n from by
        simp <;> omega]
    · simp only [natDigitsAux]
      rw [if_neg h10, List.append_assoc, List.singleton_append]
      rw [ih (n / 10) acc (Char.ofNat (48 + n % 10) :: rest) (by omega)]
      conv_lhs => unfold parseDecAux
      rw [if_pos (digitChar10_isDigit (n % 10) (by omega)),
        digitChar10_toNat (n % 10) (by omega)]
      rw [show (acc * 10 ^ (natDigitsAux f (n / 10)).length + n / 10) * 10 + (48 + n % 10 - 48) =
          acc * 10 ^ ((natDigitsAux f (n / 10) ++ [Char.ofNat (48 + n % 10)]).length) + n from by
        simp only [List.length_append, List.length_singleton, pow_succ, ← Nat.mul_assoc]
        omega]

theorem natDigitsAux_head : ∀ (fuel n : Nat), n < fuel →
    ∃ (m : Nat) (ds : List Char), m < 10 ∧
      natDigitsAux fuel n = Char.ofNat (48 + m) :: ds := by
  intro fuel
  induction fuel with
  | zero =>
    intro n h
    exact absurd h (Nat.not_lt_zero n)
  | succ f ih =>
    intro n h
    by_cases h10 : n < 10
    · exact ⟨n, [], h10, by
        simp only [natDigitsAux]
        rw [if_pos h10]⟩
    · obtain ⟨m, ds, hm, heq⟩ := ih (n / 10) (by omega)
      exact ⟨m, ds ++ [Char.ofNat (48 + n % 10)], hm, by
        simp only [natDigitsAux]
        rw [if_neg h10, heq]
        exact List.cons_append _ _ _⟩

theorem digitChar10_notSpace (n : Nat) (h : n < 10) :
    cIsSpace (Char.ofNat (48 + n)) = false := by
  interval_cases n <;> decide

theorem digitChar10_ne_dash (n : Nat) (h : n < 10) : ¬ Char.ofNat (48 + n) = '-' := by
  interval_cases n <;> decide

theorem digitChar10_ne_plus (n : Nat) (h : n < 10) : ¬ Char.ofNat (48 + n) = '+' := by
  interval_cases n <;> decide

theorem parseDec_intChars (i : Int) (hi : 0 ≤ i) (tail : List Char)
    (hnd : match tail with | [] => True | c :: _ => cIsDigit c = false) :
    parseDec (intChars i ++ tail) = some (i, tail) := by
  unfold intChars
  rw [if_neg (by omega)]
  obtain ⟨m, ds, hm, heq⟩ := natDigitsAux_head (i.toNat + 1) i.toNat (by omega)
  unfold parseDec
  rw [heq]
  simp only [List.cons_append, List.dropWhile_cons]
  rw [if_neg (by rw [digitChar10_notSpace m hm]; exact Bool.false_ne_true)]
  try dsimp only
  rw [if_neg (digitChar10_ne_dash m hm), if_neg (digitChar10_ne_plus m hm),
    if_pos (digitChar10_isDigit m hm), ← List.cons_append, ← heq,
    parseDecAux_digits (i.toNat + 1) i.toNat 0 tail (by omega),
    parseDecAux_stop tail _ hnd]
  simp [Int.toNat_of_nonneg hi]

theorem parseDec_space (l : List Char) : parseDec (' ' :: l) = parseDec l := by
  unfold parseDec
  rw [List.dropWhile_cons, if_pos (by decide)]

theorem parseTwoInts_clocks (h f : Int) (hh : 0 ≤ h) (hf : 0 ≤ f) :
    parseTwoInts (' ' :: (intChars h ++ ' ' :: intChars f)) = some (h, f) := by
  unfold parseTwoInts
  rw [parseDec_space,
    parseDec_intChars h hh (' ' :: intChars f) (show cIsDigit ' ' = false from by decide)]
  try dsimp only
  rw [parseDec_space, ← List.append_nil (intChars f),
    parseDec_intChars f hf [] trivial]

/-- C3: for any state whose FEN-representable fields are in range (the
en-passant column is -1 or a file 0..7, the clocks are nonnegative), parsing
the output of SaveFEN with ReadFEN succeeds and reproduces the state
exactly, up to the position-hash history being reset to the hash of the
reloaded position; and serializing the state loaded from the standard
starting FEN returns that identical string. -/
theorem C3_fen_round_trip (g : GameState)
    (hep : g.enPassantCol = -1 ∨ 0 ≤ g.enPassantCol ∧ g.enPassantCol < 8)
    (hh : 0 ≤ g.halfMoveClock) (hf : 0 ≤ g.fullMoveNumber) :
    ReadFEN g (SaveFEN g) (SaveFEN g).length false =
      (true, { g with DHA := [CurrentGameStateHash g] }) ∧
    SaveFEN startState = STARTING_FEN := by
  constructor
  · unfold ReadFEN
    try dsimp only
    rw [List.take_length, List.drop_length]
    unfold SaveFEN
    simp only [List.append_assoc, List.cons_append, List.nil_append]
    rw [RFplacement_save g _]
    try dsimp only
    rw [RFactiveColor_save g _]
    try dsimp only
    rw [RFcastling_save g _]
    try dsimp only
    rw [RFenpassant_save g _ hep]
    try dsimp only
    rw [List.append_nil, parseTwoInts_clocks g.halfMoveClock g.fullMoveNumber hh hf]
    try dsimp only
    rw [if_neg (by decide)]
  · decide

theorem C3_fen_round_trip_witness :
    ReadFEN startState (SaveFEN startState) (SaveFEN startState).length false =
      (true, { startState with DHA := [CurrentGameStateHash startState] }) :=
  (C3_fen_round_trip startState (Or.inl (by decide)) (by decide) (by decide)).1

theorem RFplacement_clocks : ∀ (s : List Char) (g : GameState) (rank file : Int),
    (presState (RFplacement false s g rank file)).halfMoveClock = g.halfMoveClock ∧
    (presState (RFplacement false s g rank file)).fullMoveNumber = g.fullMoveNumber := by
  intro s
  induction s with
  | nil =>
    intro g rank file
    exact ⟨rfl, rfl⟩
  | cons ch cs ih =>
    intro g rank file
    unfold RFplacement
    try dsimp only
    by_cases h1 : ch = nulChar ∨ ch = ' '
    · rw [if_pos h1]
      exact ⟨rfl, rfl⟩
    · rw [if_neg h1]
      by_cases h2 : ch = '/'
      · rw [if_pos h2]
        by_cases h3 : rank + 1 ≥ 8
        · rw [if_pos h3]
          exact ⟨rfl, rfl⟩
        · rw [if_neg h3]
          exact ih g (rank + 1) 0
      · rw [if_neg h2]
        by_cases h4 : cIsDigit ch = true
        · rw [if_pos h4]
          exact ih g rank _
        · rw [if_neg h4]
          by_cases h5 : ¬ cIsAlpha ch = true
          · rw [if_pos h5]
            exact ⟨rfl, rfl⟩
          · rw [if_neg h5]
            by_cases h6 : rank < 0 ∨ rank ≥ 8 ∨ file < 0 ∨ file ≥ 8
            · rw [if_pos h6]
              exact ih g rank (file + 1)
            · rw [if_neg h6, if_neg (by decide)]
              constructor
              · exact (ih _ rank (file + 1)).1.trans (by split_ifs <;> rfl)
              · exact (ih _ rank (file + 1)).2.trans (by split_ifs <;> rfl)

theorem RFactiveColor_clocks (g : GameState) (s : List Char) :
    (presState (RFactiveColor false g s)).halfMoveClock = g.halfMoveClock ∧
    (presState (RFactiveColor false g s)).fullMoveNumber = g.fullMoveNumber := by
  unfold RFactiveColor
  cases skipBlanksNul s with
  | nil => exact ⟨rfl, rfl⟩
  | cons ch cs =>
    try dsimp only
    by_cases h1 : ch = nulChar
    · rw [if_pos h1]
      exact ⟨rfl, rfl⟩
    · rw [if_neg h1]
      by_cases h2 : cToLower ch ≠ 'w' ∧ cToLower ch ≠ 'b'
      · rw [if_pos h2]
        exact ⟨rfl, rfl⟩
      · rw [if_neg h2, if_neg (by decide)]
        exact ⟨rfl, rfl⟩

theorem RFsetRight_clocks (g : GameState) (chr : Char) :
    (RFsetRight false g chr).halfMoveClock = g.halfMoveClock ∧
    (RFsetRight false g chr).fullMoveNumber = g.fullMoveNumber := by
  unfold RFsetRight
  constructor <;> (split_ifs <;> rfl)

theorem RFcastlingLoop_clocks : ∀ (s : List Char) (g : GameState) (chr : Char),
    (presState (RFcastlingLoop false s g chr)).halfMoveClock = g.halfMoveClock ∧
    (presState (RFcastlingLoop false s g chr)).fullMoveNumber = g.fullMoveNumber := by
  intro s
  induction s with
  | nil =>
    intro g chr
    unfold RFcastlingLoop
    exact RFsetRight_clocks g chr
  | cons c2 rest ih =>
    intro g chr
    unfold RFcastlingLoop
    try dsimp only
    by_cases h : c2 = nulChar ∨ cIsBlank c2 = true
    · rw [if_pos h]
      exact RFsetRight_clocks g chr
    · rw [if_neg h]
      exact ⟨(ih _ c2).1.trans (RFsetRight_clocks g chr).1,
        (ih _ c2).2.trans (RFsetRight_clocks g chr).2⟩

theorem RFcastling_clocks (g : GameState) (s : List Char) :
    (presState (RFcastling false g s)).halfMoveClock = g.halfMoveClock ∧
    (presState (RFcastling false g s)).fullMoveNumber = g.fullMoveNumber := by
  unfold RFcastling
  cases skipBlanks s with
  | nil => exact ⟨rfl, rfl⟩
  | cons ch cs =>
    try dsimp only
    by_cases h1 : ch ≠ '-' ∧ cToLower ch ≠ 'k' ∧ cToLower ch ≠ 'q'
    · rw [if_pos h1]
      exact ⟨rfl, rfl⟩
    · rw [if_neg h1]
      by_cases h2 : ch = '-'
      · rw [if_pos h2, if_neg (by decide)]
        exact ⟨rfl, rfl⟩
      · rw [if_neg h2, if_neg (by decide)]
        exact ⟨(RFcastlingLoop_clocks cs (ZeroRights g) ch).1,
          (RFcastlingLoop_clocks cs (ZeroRights g) ch).2⟩

theorem RFenpassant_clocks (g : GameState) (s : List Char) :
    (presState (RFenpassant false g s)).halfMoveClock = g.halfMoveClock ∧
    (presState (RFenpassant false g s)).fullMoveNumber = g.fullMoveNumber := by
  unfold RFenpassant
  cases skipBlanks s with
  | nil => exact ⟨rfl, rfl⟩
  | cons ch cs =>
    try dsimp only
    by_cases h1 : ¬ charInSequence ch = true
    · rw [if_pos h1]
      exact ⟨rfl, rfl⟩
    · rw [if_neg h1]
      by_cases h2 : ch = '-'
      · rw [if_pos h2, if_neg (by decide)]
        exact ⟨rfl, rfl⟩
      · rw [if_neg h2, if_neg (by decide)]
        cases cs with
        | nil => exact ⟨rfl, rfl⟩
        | cons c2 rest =>
          try dsimp only
          by_cases h3 : ((c2.toNat : Int) - 48) < 1 ∨ ((c2.toNat : Int) - 48) > 8
          · rw [if_pos h3]
            exact ⟨rfl, rfl⟩
          · rw [if_neg h3]
            exact ⟨rfl, rfl⟩

/-- C9 (corrected): whenever ReadFEN fails — in particular on any field it
does detect as malformed — the halfmove clock and fullmove number are left
unchanged (they are committed only after the whole string parses); and
piece-placement strings whose characters are all digits, letters, '/',
blanks or NUL never make the placement phase fail, so file overflow and
out-of-range squares are indeed tolerated.  (What the original sentence
overclaims — that every malformed field from the active color onward makes
ReadFEN return false — is refuted by `C9_fen_counterexample`.) -/
theorem C9_fen_error_handling :
    (∀ (g : GameState) (s : List Char) (size : Nat),
        (ReadFEN g s size false).1 = false →
          (ReadFEN g s size false).2.halfMoveClock = g.halfMoveClock ∧
          (ReadFEN g s size false).2.fullMoveNumber = g.fullMoveNumber) ∧
    (∀ (l : List Char) (g : GameState) (rank file : Int),
        (∀ c ∈ l, cIsDigit c = true ∨ cIsAlpha c = true ∨ c = '/' ∨ c = ' ' ∨ c = nulChar) →
        ∃ (gr : GameState) (rest : List Char),
          RFplacement false l g rank file = .ok gr rest) := by
  constructor
  · intro g s size
    unfold ReadFEN
    try dsimp only
    cases hP : RFplacement false (s.take size) g 0 0 with
    | fail g1 =>
      intro _
      have h := RFplacement_clocks (s.take size) g 0 0
      rw [hP] at h
      exact h
    | ok g1 r1 =>
      have h1 := RFplacement_clocks (s.take size) g 0 0
      rw [hP] at h1
      try dsimp only
      cases hA : RFactiveColor false g1 r1 with
      | fail g2 =>
        intro _
        have h := RFactiveColor_clocks g1 r1
        rw [hA] at h
        exact ⟨h.1.trans h1.1, h.2.trans h1.2⟩
      | ok g2 r2 =>
        have h2 := RFactiveColor_clocks g1 r1
        rw [hA] at h2
        try dsimp only
        cases hC : RFcastling false g2 r2 with
        | fail g3 =>
          intro _
          have h := RFcastling_clocks g2 r2
          rw [hC] at h
          exact ⟨(h.1.trans h2.1).trans h1.1, (h.2.trans h2.2).trans h1.2⟩
        | ok g3 r3 =>
          have h3 := RFcastling_clocks g2 r2
          rw [hC] at h3
          try dsimp only
          cases hE : RFenpassant false g3 r3 with
          | fail g4 =>
            intro _
            have h := RFenpassant_clocks g3 r3
            rw [hE] at h
            exact ⟨((h.1.trans h3.1).trans h2.1).trans h1.1,
              ((h.2.trans h3.2).trans h2.2).trans h1.2⟩
          | ok g4 r4 =>
            have h4 := RFenpassant_clocks g3 r3
            rw [hE] at h4
            try dsimp only
            cases parseTwoInts (r4 ++ s.drop size) with
            | none =>
              intro _
              exact ⟨((h4.1.trans h3.1).trans h2.1).trans h1.1,
                ((h4.2.trans h3.2).trans h2.2).trans h1.2⟩
            | some hf =>
              cases hf with
              | mk hh ff =>
                try dsimp only
                rw [if_neg (by decide)]
                intro hfalse
                exact Bool.noConfusion hfalse
  · intro l
    induction l with
    | nil =>
      intro g rank file hben
      exact ⟨g, [], rfl⟩
    | cons ch cs ih =>
      intro g rank file hben
      have hhead := hben ch (List.mem_cons_self ch cs)
      have htail : ∀ c ∈ cs, cIsDigit c = true ∨ cIsAlpha c = true ∨ c = '/' ∨ c = ' ' ∨
          c = nulChar := fun c hc => hben c (List.mem_cons_of_mem ch hc)
      unfold RFplacement
      try dsimp only
      by_cases h1 : ch = nulChar ∨ ch = ' '
      · rw [if_pos h1]
        exact ⟨g, ch :: cs, rfl⟩
      · rw [if_neg h1]
        by_cases h2 : ch = '/'
        · rw [if_pos h2]
          by_cases h3 : rank + 1 ≥ 8
          · rw [if_pos h3]
            exact ⟨g, cs, rfl⟩
          · rw [if_neg h3]
            exact ih g (rank + 1) 0 htail
        · rw [if_neg h2]
          by_cases h4 : cIsDigit ch = true
          · rw [if_pos h4]
            exact ih g rank _ htail
          · rw [if_neg h4]
            by_cases h5 : ¬ cIsAlpha ch = true
            · exfalso
              rcases hhead with hd | ha | hs | hsp | hn
              · exact h4 hd
              · exact h5 ha
              · exact h2 hs
              · exact h1 (Or.inr hsp)
              · exact h1 (Or.inl hn)
            · rw [if_neg h5]
              by_cases h6 : rank < 0 ∨ rank ≥ 8 ∨ file < 0 ∨ file ≥ 8
              · rw [if_pos h6]
                exact ih g rank (file + 1) htail
              · rw [if_neg h6, if_neg (by decide)]
                exact ih _ rank (file + 1) htail

/-- C9 counterexample: the FEN string below carries the castling field
"Kz", which is not a well-formed castling-availability field, yet ReadFEN
accepts the whole string — the castling loop's switch silently ignores the
unknown letter.  A malformed field past the active color therefore does
not always make ReadFEN return false. -/
theorem C9_fen_counterexample :
    specCastlingFieldWellformed ['K', 'z'] = false ∧
    (ReadFEN zeroState
      (String.toList "rnbqkbnr/pppppppp/8/8/8/8/PPPPPPPP/RNBQKBNR w Kz - 0 1")
      (String.toList "rnbqkbnr/pppppppp/8/8/8/8/PPPPPPPP/RNBQKBNR w Kz - 0 1").length
      false).1 = true :=
  ⟨by decide, by decide⟩

theorem MPRookCaptureRights_norook (g : GameState) (x y : Int)
    (h : (bget g.board x y).piece.type ≠ PIECE_ROOK) :
    MPRookCaptureRights g x y = g := by
  unfold MPRookCaptureRights
  rw [if_neg h]

theorem MPDeadCounters_empty (g : GameState) (x y : Int)
    (hdst : (bget g.board x y).piece.type = PIECE_NONE) :
    MPDeadCounters g x y = g := by
  unfold MPDeadCounters
  by_cases ht : g.turn = TEAM_WHITE
  · rw [if_pos ht, if_neg (fun hcond => hcond.1 hdst)]
  · rw [if_neg ht, if_neg (fun hcond => hcond.1 hdst)]

theorem MPCastleBranch_notking (g : GameState) (m : MoveRec) (j r c : Int)
    (p : PieceType) (hp : p ≠ PIECE_KING) :
    MPCastleBranch g m j r c p = none := by
  unfold MPCastleBranch
  rw [if_neg (fun hcond => hp hcond.1)]

theorem MPDeadEPBlock_skip (g : GameState) (i j r c : Int) (p : PieceType)
    (h : g.enPassantCol = -1) :
    MPDeadEPBlock g i j r c p = g := by
  unfold MPDeadEPBlock
  rw [if_neg (not_not_intro h)]

theorem MPMoveRights_other (g : GameState) (i j : Int) (p : PieceType)
    (hk : p ≠ PIECE_KING) (hr : p ≠ PIECE_ROOK) :
    MPMoveRights g i j p = g := by
  unfold MPMoveRights
  rw [if_neg hk, if_neg hr]

theorem RecordMove_fields (g' : GameState) (i j r c : Int) :
    (RecordMove g' i j r c).halfMove = g'.halfMoveClock ∧
    (RecordMove g' i j r c).previousEnPassantCol = g'.enPassantCol :=
  ⟨rfl, rfl⟩

theorem RecordMove_knight (g' : GameState) (i j r c : Int)
    (hty : (bget g'.board i j).piece.type = PIECE_KNIGHT)
    (hdst : (bget g'.board r c).piece.type = PIECE_NONE) :
    (RecordMove g' i j r c).pieceCapturedType = PIECE_NONE ∧
    (RecordMove g' i j r c).wasCastling = false := by
  unfold RecordMove
  try dsimp only
  rw [hty]
  constructor
  · rw [if_neg (fun h => PieceType.noConfusion (of_decide_eq_true h).1)]
    exact hdst
  · rfl

theorem UMflags_eq (g0 : GameState) (m : MoveRec) (rest : List MoveRec)
    (hturn : g0.turn = TEAM_BLACK) :
    UMflags g0 m rest =
      { g0 with
        undoStack := rest, halfMoveClock := m.halfMove,
        fullMoveNumber := g0.fullMoveNumber - 1,
        enPassantCol := m.previousEnPassantCol,
        whiteKingSide := m.whiteKingSide, whiteQueenSide := m.whiteQueenSide,
        blackKingSide := m.blackKingSide, blackQueenSide := m.blackQueenSide,
        isStalemate := false, isRepeated3times := false,
        isInsufficientMaterial := false, isCheckmate := false,
        whitePlayer := { g0.whitePlayer with Checkmated := false },
        blackPlayer := { g0.blackPlayer with Checkmated := false } } := by
  unfold UMflags
  try dsimp only
  rw [if_pos hturn]

theorem UMcapture_nocap (g : GameState) (m : MoveRec)
    (hcap : m.pieceCapturedType = PIECE_NONE) :
    UMcapture g m =
      { g with
        board := ClearCellAt
          (LoadPiece g.board m.initialRow m.initialCol m.pieceMovedType m.pieceMovedTeam)
          m.finalRow m.finalCol } := by
  unfold UMcapture
  try dsimp only
  rw [if_neg (not_not_intro hcap)]

theorem MPcommit_facts (gE : GameState) :
    (MPcommit gE).undoStack = gE.undoStack ∧
    (MPcommit gE).turn = otherTeam gE.turn ∧
    (MPcommit gE).halfMoveClock = gE.halfMoveClock ∧
    (MPcommit gE).fullMoveNumber = gE.fullMoveNumber := by
  have hSF := SF_ResetsAndValidations gE
  unfold MPcommit
  refine ⟨?_, ?_, ?_, ?_⟩ <;>
    (try dsimp only
     split_ifs <;>
       simp [hSF.hUndo, hSF.hTurn, hSF.hHalf, hSF.hFull, otherTeam])

theorem UM_normal (g' : GameState) (m : MoveRec) (rest : List MoveRec)
    (hstack : g'.undoStack = m :: rest)
    (hcap : m.pieceCapturedType = PIECE_NONE)
    (hcas : m.wasCastling = false)
    (hepm : m.previousEnPassantCol = -1)
    (hturn : g'.turn = TEAM_BLACK) :
    (UndoMove g').halfMoveClock = m.halfMove ∧
    (UndoMove g').fullMoveNumber = g'.fullMoveNumber - 1 := by
  unfold UndoMove
  rw [hstack]
  try dsimp only
  rw [UMflags_eq g' m rest hturn]
  rw [UMcapture_nocap _ _ hcap]
  rw [hcas, if_neg (by decide)]
  try dsimp only
  rw [hepm]
  unfold UMepPawnFlags
  split_ifs with hep0 hb2
  · exact absurd rfl hep0
  · exact absurd rfl hep0
  constructor
  · rw [(SF_ResetsAndValidations _).hHalf]
    try rfl
  · rw [(SF_ResetsAndValidations _).hFull]
    try rfl

theorem MPclocks_noreset (g0 : GameState) (i j r c : Int)
    (hturnW : g0.turn = TEAM_WHITE)
    (hnp : (bget g0.board i j).piece.type ≠ PIECE_PAWN)
    (hdst : (bget g0.board r c).piece.type = PIECE_NONE) :
    MPclocks g0 i j r c = { g0 with halfMoveClock := g0.halfMoveClock + 1 } := by
  unfold MPclocks
  try dsimp only
  rw [if_neg (fun h => Team.noConfusion (hturnW.symm.trans h))]
  try dsimp only
  rw [if_neg (fun h => h.elim hnp (fun hnn => hnn hdst))]

theorem MPknight_shape (g : GameState) (i j r c : Int)
    (hwf : WFBoard g.board)
    (hin : bIn i j ∧ bIn r c)
    (hty : (bget g.board i j).piece.type = PIECE_KNIGHT)
    (hdst : (bget g.board r c).piece.type = PIECE_NONE)
    (hne : i ≠ r ∨ j ≠ c)
    (hturnW : g.turn = TEAM_WHITE) :
    ∃ gE : GameState,
      MovePiece g i j r c = MPcommit gE ∧
      gE.undoStack =
        RecordMove { g with halfMoveClock := g.halfMoveClock + 1 } i j r c :: g.undoStack ∧
      gE.turn = g.turn ∧
      gE.halfMoveClock = g.halfMoveClock + 1 ∧
      gE.fullMoveNumber = g.fullMoveNumber := by
  have hneP : ¬ (r = i ∧ c = j) := fun hand => hne.elim (fun n => n hand.1.symm)
    (fun n => n hand.2.symm)
  have hneP2 : ¬ (i = r ∧ j = c) := fun hand => hne.elim (fun n => n hand.1) (fun n => n hand.2)
  have htyJM : (bget (bmodify (ResetJustMoved g.board) r c
      (fun cc => { cc with JustMoved := true })) i j).piece.type = PIECE_KNIGHT := by
    rw [bget_bmodify_ne _ hneP]
    unfold ResetJustMoved
    rw [bget_mapmap _ hwf hin.1]
    exact hty
  have hwfJM : WFBoard (bmodify (ResetJustMoved g.board) r c
      (fun cc => { cc with JustMoved := true })) := by
    apply WFBoard_bmodify
    unfold ResetJustMoved
    exact WFBoard_mapmap _ hwf
  refine ⟨
    { g with
      halfMoveClock := g.halfMoveClock + 1
      enPassantCol := -1
      promotionType := PIECE_NONE
      redoStack := []
      undoStack := RecordMove { g with halfMoveClock := g.halfMoveClock + 1 } i j r c ::
        g.undoStack
      board := ClearCellAt (bmodify (LoadPiece (bmodify (ResetJustMoved g.board) r c
          (fun cc => { cc with JustMoved := true })) r c PIECE_KNIGHT
          ((bget (bmodify (ResetJustMoved g.board) r c
            (fun cc => { cc with JustMoved := true })) i j).piece.team)) r c
          (fun cc => { cc with piece := { cc.piece with hasMoved := true } })) i j },
    ?_, rfl, rfl, rfl, rfl⟩
  · unfold MovePiece
    rw [if_neg (not_not_intro hin),
      if_neg (fun h => PieceType.noConfusion (hty.symm.trans h)), if_neg hneP2]
    try dsimp only
    rw [MPclocks_noreset g i j r c hturnW
      (fun h => PieceType.noConfusion (hty.symm.trans h)) hdst]
    rw [MPRookCaptureRights_norook { g with halfMoveClock := g.halfMoveClock + 1 } r c
      (fun h => PieceType.noConfusion (hdst.symm.trans h))]
    try dsimp only
    rw [MPDeadCounters_empty
      { g with halfMoveClock := g.halfMoveClock + 1, enPassantCol := -1 } r c hdst]
    try dsimp only
    rw [hty]
    rw [MPCastleBranch_notking _ _ _ _ _ PIECE_KNIGHT (by decide)]
    try dsimp only
    unfold MPboardPrep
    try dsimp only
    rw [MPDeadEPBlock_skip
      { g with
        halfMoveClock := g.halfMoveClock + 1
        enPassantCol := -1
        board := bmodify (ResetJustMoved g.board) r c
          (fun cc => { cc with JustMoved := true }) }
      i j r c PIECE_KNIGHT rfl]
    rw [MPMoveRights_other
      { g with
        halfMoveClock := g.halfMoveClock + 1
        enPassantCol := -1
        board := bmodify (ResetJustMoved g.board) r c
          (fun cc => { cc with JustMoved := true }) }
      i j PIECE_KNIGHT (by decide) (by decide)]
    try dsimp only
    rw [htyJM]
    rw [if_neg (show ¬ (PIECE_KNIGHT = PIECE_PAWN ∧ (r - i).natAbs = 2) from
      fun h => PieceType.noConfusion h.1)]
    try dsimp only
    rw [show (RecordMove { g with halfMoveClock := g.halfMoveClock + 1 } i j r c).wasEnPassant
        = false from by
      unfold RecordMove
      try dsimp only
      rw [hty]
      rfl]
    unfold MPrelocated
    try dsimp only
    rw [if_neg (show ¬ ((false : Bool) = true) from by decide)]
    rw [htyJM]
    try dsimp only
    rw [show (bget (ClearCellAt (bmodify (LoadPiece (bmodify (ResetJustMoved g.board) r c
          (fun cc => { cc with JustMoved := true })) r c PIECE_KNIGHT
          ((bget (bmodify (ResetJustMoved g.board) r c
            (fun cc => { cc with JustMoved := true })) i j).piece.team)) r c
          (fun cc => { cc with piece := { cc.piece with hasMoved := true } })) i j) r c).piece.type
        = PIECE_KNIGHT from by
      unfold ClearCellAt LoadPiece
      rw [bget_bmodify_ne _ hneP2,
        bget_bmodify_self (WFBoard_bmodify hwfJM _ _ _) hin.2,
        bget_bmodify_self hwfJM hin.2]
      try rfl]
    rw [if_neg (fun h => PieceType.noConfusion (of_decide_eq_true h).1)]
    try rfl

/-- C2 (code bug): undo does not restore the clocks.  From the freshly
loaded starting position, the white knight move (7,1) to (5,2) followed by
UndoMove yields halfmove clock 1 and fullmove number 0, while the position
before the move had clock 0 and fullmove number 1: RecordMove snapshots
the halfmove clock after MovePiece has already updated it, and UndoMove
decrements the fullmove number under the inverted turn condition. -/
theorem C2_undo_move_reversibility :
    startState.halfMoveClock = 0 ∧ startState.fullMoveNumber = 1 ∧
    (UndoMove (MovePiece startState 7 1 5 2)).halfMoveClock = 1 ∧
    (UndoMove (MovePiece startState 7 1 5 2)).fullMoveNumber = 0 := by
  obtain ⟨gE, hEq, hstackE, hturnE, hhalfE, hfullE⟩ :=
    MPknight_shape startState 7 1 5 2 (by decide) ⟨by decide, by decide⟩ (by decide)
      (by decide) (Or.inl (by decide)) (by decide)
  obtain ⟨hU, hT, hH, hF⟩ := MPcommit_facts gE
  have hstack : (MovePiece startState 7 1 5 2).undoStack =
      RecordMove { startState with halfMoveClock := startState.halfMoveClock + 1 } 7 1 5 2 ::
        startState.undoStack := by
    rw [hEq, hU, hstackE]
  have hturn : (MovePiece startState 7 1 5 2).turn = TEAM_BLACK := by
    rw [hEq, hT, hturnE]
    decide
  have hfullM : (MovePiece startState 7 1 5 2).fullMoveNumber = 1 := by
    rw [hEq, hF, hfullE]
    decide
  obtain ⟨huH, huF⟩ := UM_normal (MovePiece startState 7 1 5 2)
    (RecordMove { startState with halfMoveClock := startState.halfMoveClock + 1 } 7 1 5 2)
    startState.undoStack hstack (by decide) (by decide) (by decide) hturn
  refine ⟨by decide, by decide, ?_, ?_⟩
  · rw [huH]
    decide
  · rw [huF, hfullM]
    decide

theorem RAV_dha (gg : GameState) : (ResetsAndValidations gg).DHA = gg.DHA :=
  (SF_ResetsAndValidations gg).hDHA

theorem RAV_half (gg : GameState) :
    (ResetsAndValidations gg).halfMoveClock = gg.halfMoveClock :=
  (SF_ResetsAndValidations gg).hHalf

theorem RAV_rep (gg : GameState) :
    (ResetsAndValidations gg).isRepeated3times = gg.isRepeated3times :=
  (SF_ResetsAndValidations gg).hRep

theorem IR3aux_count : ∀ (l : List Hash) (t : Hash) (cnt : Nat), 1 ≤ cnt → cnt ≤ 2 →
    (IsRepeated3timesAux l t cnt = true ↔ 3 ≤ cnt + l.count t) := by
  intro l
  induction l with
  | nil =>
    intro t cnt h1 h2
    simp only [IsRepeated3timesAux, List.count_nil]
    constructor
    · intro h
      exact Bool.noConfusion h
    · intro h
      omega
  | cons hd rest ih =>
    intro t cnt h1 h2
    simp only [IsRepeated3timesAux]
    by_cases hm : hd = t
    · rw [if_pos hm]
      subst hm
      by_cases hc : cnt + 1 ≥ 3
      · rw [if_pos hc]
        simp only [List.count_cons_self]
        constructor
        · intro _
          omega
        · intro _
          trivial
      · rw [if_neg hc]
        rw [ih hd (cnt + 1) (by omega) (by omega)]
        simp only [List.count_cons_self]
        omega
    · rw [if_neg hm]
      rw [ih t cnt h1 h2]
      rw [List.count_cons_of_ne (fun he => hm he.symm)]

/-- C7 (code bug): the first conjunct shows the castling commit path of
MovePiece leaves both the position-hash history and the repetition flag
untouched — a committed castling ply records no hash and runs no check,
so the history does not accumulate one hash per ply as specified and a
later third occurrence of a position first reached by castling goes
undetected.  The remaining conjuncts confirm the specified mechanism on
the normal commit path: the hash is pushed after the check, the flag is
raised iff the halfmove clock is positive and the new position's hash
already occurs in the history, the detector fires exactly from the third
occurrence (current position plus at least two history entries), and a
halfmove-clock reset clears the history. -/
theorem C7_repetition_detection :
    (∀ (g : GameState) (m : MoveRec) (backRank kingDst rookDst rookSrc : Int),
        (MPCastleCommit g m backRank kingDst rookDst rookSrc).DHA = g.DHA ∧
        (MPCastleCommit g m backRank kingDst rookDst rookSrc).isRepeated3times =
          g.isRepeated3times) ∧
    (∀ (gE : GameState),
        (MPcommit gE).DHA =
          gE.DHA ++ [CurrentGameStateHash (ResetsAndValidations gE)] ∧
        (MPcommit gE).isRepeated3times =
          (if gE.halfMoveClock > 0 then
            (if IsRepeated3times gE.DHA (CurrentGameStateHash (ResetsAndValidations gE)) = true
             then true else gE.isRepeated3times)
           else gE.isRepeated3times)) ∧
    (∀ (dha : List Hash) (h : Hash),
        IsRepeated3times dha h = true ↔ 3 ≤ 1 + dha.count h) ∧
    (∀ (g0 : GameState) (i j r c : Int),
        ((bget g0.board i j).piece.type = PIECE_PAWN ∨
          (bget g0.board r c).piece.type ≠ PIECE_NONE) →
        (MPclocks g0 i j r c).DHA = [] ∧ (MPclocks g0 i j r c).halfMoveClock = 0) := by
  refine ⟨?_, ?_, ?_, ?_⟩
  · intro g m backRank kingDst rookDst rookSrc
    constructor
    · unfold MPCastleCommit
      try dsimp only
      split_ifs <;> (rw [RAV_dha]; try rfl)
    · unfold MPCastleCommit
      try dsimp only
      split_ifs <;> (rw [RAV_rep]; try rfl)
  · intro gE
    constructor
    · unfold MPcommit
      try dsimp only
      split_ifs <;> (rw [RAV_dha]; try rfl)
    · unfold MPcommit
      try dsimp only
      rw [RAV_half gE, RAV_dha gE]
      split_ifs <;> (try rw [RAV_rep]) <;> try rfl
  · intro dha h
    unfold IsRepeated3times
    by_cases hlen : dha.length < 2
    · rw [if_pos hlen]
      have hcl := List.count_le_length h dha
      constructor
      · intro hfalse
        exact Bool.noConfusion hfalse
      · intro hge
        omega
    · rw [if_neg hlen]
      rw [IR3aux_count dha h 1 (by omega) (by omega)]
      try omega
  · intro g0 i j r c hpc
    unfold MPclocks
    try dsimp only
    split_ifs <;>
      first
      | exact ⟨rfl, rfl⟩
      | (exfalso
         rename_i hno
         exact hno hpc)

end Chess
